import Mathlib

/-!
# A shallow embedding of the FileU FAT32 engine (src/filesystem.cpp, src/filesystem.h)

The memory-mapped image is a total function from byte offsets to bytes.  Machine
integers are natural numbers; every place where the source computes in `uint8_t`,
`uint16_t` or `uint32_t` carries an explicit reduction modulo 2^8, 2^16 or 2^32.
A `std::string` is the list of its byte values.  Loops that follow FAT links
(`do ... while (next < EOC)`) take a fuel argument and return `none` when the fuel
runs out; every other loop of the source is bounded and is embedded by structural
recursion.  The `std::exception` thrown by `getFreeCluster` is never caught in the
source, so the embedding reports it as a separate outcome that carries the image as
it is at the moment of the throw.

Accesses outside the mapping, division by a zero sector or cluster size and reads of
uninitialised fields are undefined in the source.  The embedding makes them total:
memory is unbounded, `x / 0 = 0`, and an uninitialised field reads as `0`.
-/

namespace FAT_FS

/-! ## Machine integers and strings -/

/-- A `std::string`, as the list of its bytes. -/
abbrev Str := List Nat

/-- Truncation to `uint8_t`. -/
def u8 (n : Nat) : Nat := n % 256

/-- Truncation to `uint16_t`. -/
def u16 (n : Nat) : Nat := n % 65536

/-- Truncation to `uint32_t`. -/
def u32 (n : Nat) : Nat := n % 4294967296

/-- Subtraction of two `uint32_t` values, wrapping below zero. -/
def sub32 (a b : Nat) : Nat := (u32 a + (4294967296 - u32 b)) % 4294967296

/-! ## Constants of filesystem.h -/

def READ : Str := [0x72]
def WRITE : Str := [0x77]
def READ_WRITE : Str := [0x72, 0x77]
def ROOT : Str := [0x2F]

def INVALID_CHAR_LIST : List Nat :=
  [0x00, 0x01, 0x02, 0x03, 0x04, 0x06,
   0x07, 0x08, 0x09, 0x10, 0x11, 0x12,
   0x13, 0x14, 0x15, 0x16, 0x17, 0x18,
   0x19, 0x20, 0x22, 0x2A, 0x2B, 0x2C,
   0x2F, 0x3A, 0x3B, 0x3C, 0x3D, 0x3E,
   0x3F, 0x5B, 0x5C, 0x5D, 0x7C]
def SPECIAL_INVALID_CHAR : Nat := 0x05

def DIRECTORY : Nat := 0
def FILE : Nat := 1

def FREE_DIR_ENTRY : Nat := 0xE5
def LAST_FREE_DIR_ENTRY : Nat := 0x00
def SHORT_NAME_SPACE_PAD : Nat := 0x20

def ATTR_READ_ONLY : Nat := 0x01
def ATTR_HIDDEN : Nat := 0x02
def ATTR_SYSTEM : Nat := 0x04
def ATTR_VOLUME_ID : Nat := 0x08
def ATTR_DIRECTORY : Nat := 0x10
def ATTR_ARCHIVE : Nat := 0x20
def ATTR_LONG : Nat := ATTR_READ_ONLY ||| ATTR_HIDDEN ||| ATTR_SYSTEM ||| ATTR_VOLUME_ID

def FAT_MASK : Nat := 0x0FFFFFFF
def FREE_CLUSTER : Nat := 0x00000000
def EOC : Nat := 0x0FFFFFF8
def DIR_ENTRY_SIZE : Nat := 0x20

/-! ## Data model -/

structure BIOSParameterBlock where
  sectors_per_cluster : Nat
  num_FATS : Nat
  bytes_per_sector : Nat
  reserved_sector_count : Nat
  fsinfo : Nat
  total_sectors : Nat
  FATSz : Nat
  root_cluster : Nat
deriving DecidableEq, Repr

structure FSInfo where
  free_cluster_count : Nat
  first_free_cluster : Nat
deriving DecidableEq, Repr

structure DirectoryEntry where
  name : Str
  /-- Field `attribute` of the source (a reserved word here). -/
  attr : Nat
  write_time : Nat
  write_date : Nat
  cluster : Nat
  size : Nat
  mem_location : Nat
deriving DecidableEq, Repr

/-- A default-constructed `DirectoryEntry`: the empty name, and `0` for the fields the
source leaves uninitialised. -/
def DirectoryEntry.blank : DirectoryEntry :=
  { name := [], attr := 0, write_time := 0, write_date := 0, cluster := 0, size := 0,
    mem_location := 0 }

/-- The engine: the mapped image `m_file_system_data` and the members of class
`FileSystem`.  The open-file table `std::map<DirectoryEntry, std::string>` is ordered
by `operator<`, which compares names only; it is kept as an association list in which
a key is looked up by its name. -/
structure FileSystem where
  m_file_system_data : Nat → Nat
  m_bpb : BIOSParameterBlock
  m_fsinfo : FSInfo
  m_open_file_table : List (DirectoryEntry × Str)
  m_bytes_per_cluster : Nat
  m_first_data_sector : Nat
  m_current_directory_cluster : Nat
  m_current_directory_name : Str

/-- Outcome of a member function that may follow FAT links or call the allocator. -/
inductive Result (α : Type) where
  /-- The call returned, leaving the engine in state `s`. -/
  | returned (s : FileSystem) (a : α) : Result α
  /-- The exception of `getFreeCluster` propagated; nothing catches it.  `s` is the engine
  (and so the shared mapping) at the throw. -/
  | exception (s : FileSystem) : Result α
  /-- The fuel ran out while following FAT links. -/
  | diverged : Result α

/-! ## Backing store: readFromFileSystem, writeToFileSystem -/

/-- The byte `m_file_system_data[offset]`. -/
def byteAt (s : FileSystem) (offset : Nat) : Nat := s.m_file_system_data offset % 256

/-- Loop of `readFromFileSystem`: `value |= data[offset + i] << (i * 8)` for `i` from the
current index up to `bytes`; `n` counts the iterations left. -/
def readLoop (s : FileSystem) (offset : Nat) : Nat → Nat → Nat → Nat
  | 0, _, value => value
  | n + 1, i, value => readLoop s offset n (i + 1) (value ||| (byteAt s (offset + i) <<< (i * 8)))

/-- The template `readFromFileSystem<T>(offset, bytes)`; `T` is given by its width in bits. -/
def readFromFileSystem (s : FileSystem) (T : Nat) (offset bytes : Nat) : Nat :=
  readLoop s offset bytes 0 0 % 2 ^ T

/-- One store `m_file_system_data[offset] = b`. -/
def storeByte (s : FileSystem) (offset b : Nat) : FileSystem :=
  { s with m_file_system_data := fun a => if a = offset then b % 256 else s.m_file_system_data a }

/-- Loop of `writeToFileSystem`: store `data & 0xFF` at `offset + i`, then `data >>= 8`. -/
def writeLoop (offset : Nat) : Nat → Nat → Nat → FileSystem → FileSystem
  | 0, _, _, s => s
  | n + 1, i, data, s => writeLoop offset n (i + 1) (data >>> 8) (storeByte s (offset + i) (data &&& 0xFF))

/-- The template `writeToFileSystem<T>(data, offset, bytes)`. -/
def writeToFileSystem (s : FileSystem) (data offset bytes : Nat) : FileSystem :=
  writeLoop offset bytes 0 data s

/-! ## Mount (the constructor) -/

/-- The constructor `FileSystem::FileSystem`, for an image that could be opened and mapped. -/
def mount (image : Nat → Nat) : FileSystem :=
  let s0 : FileSystem :=
    { m_file_system_data := image
      m_bpb := ⟨0, 0, 0, 0, 0, 0, 0, 0⟩
      m_fsinfo := ⟨0, 0⟩
      m_open_file_table := []
      m_bytes_per_cluster := 0
      m_first_data_sector := 0
      m_current_directory_cluster := 0
      m_current_directory_name := ROOT }
  let bpb : BIOSParameterBlock :=
    { bytes_per_sector := readFromFileSystem s0 16 11 2
      sectors_per_cluster := readFromFileSystem s0 8 13 1
      reserved_sector_count := readFromFileSystem s0 16 14 2
      num_FATS := readFromFileSystem s0 8 16 1
      total_sectors := readFromFileSystem s0 32 32 4
      FATSz := readFromFileSystem s0 32 36 4
      root_cluster := readFromFileSystem s0 32 44 4
      fsinfo := u16 (readFromFileSystem s0 32 48 2) }
  { s0 with
    m_bpb := bpb
    m_fsinfo :=
      { free_cluster_count := readFromFileSystem s0 32 (bpb.fsinfo * bpb.bytes_per_sector + 488) 4
        first_free_cluster := readFromFileSystem s0 32 (bpb.fsinfo * bpb.bytes_per_sector + 492) 4 }
    m_bytes_per_cluster := u32 (bpb.bytes_per_sector * bpb.sectors_per_cluster)
    m_first_data_sector := u32 (bpb.reserved_sector_count + u32 (bpb.num_FATS * bpb.FATSz))
    m_current_directory_cluster := bpb.root_cluster
    m_current_directory_name := ROOT }

/-! ## FAT table manager -/

def getFATSector (s : FileSystem) (cluster : Nat) : Nat :=
  u32 (s.m_bpb.reserved_sector_count + u32 (cluster * 4) / s.m_bpb.bytes_per_sector)

def getFATEntOffset (s : FileSystem) (cluster : Nat) : Nat :=
  u32 (cluster * 4) % s.m_bpb.bytes_per_sector

def getFATEntry (s : FileSystem) (cluster : Nat) : Nat :=
  let FAT_sector := getFATSector s cluster
  let FAT_ent_offset := getFATEntOffset s cluster
  let FAT_entry := readFromFileSystem s 32 (u32 (FAT_sector * s.m_bpb.bytes_per_sector + FAT_ent_offset)) 4
  FAT_MASK &&& FAT_entry

def getFirstDataSector (s : FileSystem) (cluster : Nat) : Nat :=
  u32 (sub32 cluster 2 * s.m_bpb.sectors_per_cluster + s.m_first_data_sector)

def isFreeCluster (s : FileSystem) (cluster : Nat) : Bool :=
  getFATEntry s cluster == FREE_CLUSTER

/-- The location `FAT_entry_location` of the entry of `cluster` in mirror `i`. -/
def FAT_entry_location (s : FileSystem) (cluster i : Nat) : Nat :=
  let FAT_sector := getFATSector s cluster
  let FAT_ent_offset := getFATEntOffset s cluster
  u32 (u32 (FAT_sector + u32 (i * s.m_bpb.FATSz)) * s.m_bpb.bytes_per_sector + FAT_ent_offset)

/-- Body of the loop of `setFATEntry` for mirror `i`. -/
def setFATEntryAt (s : FileSystem) (cluster value i : Nat) : FileSystem :=
  let loc := FAT_entry_location s cluster i
  let FAT_entry := readFromFileSystem s 32 loc 4
  let value := value &&& FAT_MASK
  let FAT_entry := FAT_entry &&& 0xF0000000
  let FAT_entry := FAT_entry ||| value
  writeToFileSystem s FAT_entry loc 4

/-- The loop of `setFATEntry` over the mirrors `0 .. n-1`, in that order. -/
def setFATEntryLoop (cluster value : Nat) : Nat → FileSystem → FileSystem
  | 0, s => s
  | n + 1, s => setFATEntryAt (setFATEntryLoop cluster value n s) cluster value n

def setFATEntry (s : FileSystem) (cluster value : Nat) : FileSystem :=
  setFATEntryLoop cluster value s.m_bpb.num_FATS s

/-- The function `setFreeClusterCount`.  The offset `m_bpb.fsinfo * m_bpb.bytes_per_sector +
488` is computed in `int` from two 16-bit fields and is taken exactly. -/
def setFreeClusterCount (s : FileSystem) (count : Nat) : FileSystem :=
  writeToFileSystem { s with m_fsinfo := { s.m_fsinfo with free_cluster_count := count } }
    count (s.m_bpb.fsinfo * s.m_bpb.bytes_per_sector + 488) 4

/-- The scan of `getFreeCluster` from `cluster` on; `n` is the number of clusters left
below `total_cluster_count`.  Falls through to `return 0`. -/
def scanFreeCluster (s : FileSystem) : Nat → Nat → Nat
  | 0, _ => 0
  | n + 1, cluster => if isFreeCluster s cluster then cluster else scanFreeCluster s n (cluster + 1)

def total_cluster_count (s : FileSystem) : Nat :=
  u32 (sub32 s.m_bpb.total_sectors s.m_first_data_sector / s.m_bpb.sectors_per_cluster + 2)

/-- The function `getFreeCluster`; `none` is the thrown `std::exception`. -/
def getFreeCluster (s : FileSystem) : Option Nat :=
  if s.m_fsinfo.free_cluster_count = 0 then none
  else some (scanFreeCluster s (total_cluster_count s - 2) 2)

/-- The function `allocateCluster(cluster)`; `none` is the exception of `getFreeCluster`,
thrown before anything is written. -/
def allocateCluster (s : FileSystem) (cluster : Nat) : Option (FileSystem × Nat) :=
  match getFreeCluster s with
  | none => none
  | some free_cluster =>
    let s1 := if cluster ≠ 0 then setFATEntry s cluster free_cluster else s
    let s2 := setFATEntry s1 free_cluster EOC
    let s3 := setFreeClusterCount s2 (u32 (s2.m_fsinfo.free_cluster_count + 4294967295))
    some (s3, free_cluster)

/-! ## Cluster chains -/

/-- The function `getClusterChain`: push the cluster, then follow its FAT entry while that
is below `EOC`.  `none` when the fuel runs out. -/
def getClusterChain : Nat → FileSystem → Nat → Option (List Nat)
  | 0, _, _ => none
  | fuel + 1, s, cluster =>
    let next := getFATEntry s cluster
    if next < EOC then (getClusterChain fuel s next).map (fun rest => cluster :: rest)
    else some [cluster]

/-- Subtraction of two `size_t` values, wrapping below zero. -/
def sub64 (a b : Nat) : Nat :=
  (a % 18446744073709551616 + (18446744073709551616 - b % 18446744073709551616)) %
    18446744073709551616

/-- The loop of `resizeClusterChain`: while `i < size - cluster_chain.size()` allocate a
cluster linked from the tail and push it.  The first argument is fuel for the loop test. -/
def resizeLoop (size : Nat) : Nat → Nat → FileSystem → List Nat → Result (List Nat)
  | 0, _, _, _ => Result.diverged
  | n + 1, i, s, cluster_chain =>
    if i < sub64 size cluster_chain.length then
      let cluster := cluster_chain.getLastD 0
      match allocateCluster s cluster with
      | none => Result.exception s
      | some (s1, alloc_cluster) =>
        resizeLoop size n (i + 1) s1 (cluster_chain.dropLast ++ [cluster] ++ [alloc_cluster])
    else Result.returned s cluster_chain

/-- The function `resizeClusterChain`; the returned list is `cluster_chain` after the call
(it is passed by reference), whose length is the returned value.  The loop is given
`size + 1` tests, which is enough whenever the loop bound does not wrap. -/
def resizeClusterChain (s : FileSystem) (size : Nat) (cluster_chain : List Nat) :
    Result (List Nat) :=
  if size ≤ cluster_chain.length then Result.returned s cluster_chain
  else if cluster_chain.headD 0 = 0 then
    match allocateCluster s 0 with
    | none => Result.exception s
    | some (s1, alloc_cluster) =>
      let cluster_chain1 := cluster_chain.dropLast ++ [alloc_cluster]
      let size1 := u32 (size + 4294967295)
      resizeLoop size1 (size1 + 1) 0 s1 cluster_chain1
  else resizeLoop size (size + 1) 0 s cluster_chain

/-! ## Directory entry codec -/

/-- The function `std::toupper` in the "C" locale, on a byte. -/
def toupper (c : Nat) : Nat := if 0x61 ≤ c ∧ c ≤ 0x7A then c - 0x20 else c

/-- The function `std::tolower` in the "C" locale, on a byte. -/
def tolower (c : Nat) : Nat := if 0x41 ≤ c ∧ c ≤ 0x5A then c + 0x20 else c

/-- The function `std::isspace` in the "C" locale (false on bytes above 0x7F). -/
def isspace (c : Nat) : Bool := (0x09 ≤ c && c ≤ 0x0D) || c == 0x20

/-- The function `std::ispunct` in the "C" locale. -/
def ispunct (c : Nat) : Bool :=
  (0x21 ≤ c && c ≤ 0x2F) || (0x3A ≤ c && c ≤ 0x40) || (0x5B ≤ c && c ≤ 0x60) ||
    (0x7B ≤ c && c ≤ 0x7E)

/-- The function `std::isalnum` in the "C" locale. -/
def isalnum (c : Nat) : Bool :=
  (0x30 ≤ c && c ≤ 0x39) || (0x41 ≤ c && c ≤ 0x5A) || (0x61 ≤ c && c ≤ 0x7A)

/-- The value of a byte read as a (signed) `char` and promoted to `int`. -/
def charToInt (c : Nat) : Int := if c % 256 < 128 then (c % 256 : Nat) else ((c % 256 : Nat) : Int) - 256

/-- The call `name.find(".")`: the index of the first dot, if any. -/
def findDot (name : Str) : Option Nat :=
  if name.indexOf 0x2E < name.length then some (name.indexOf 0x2E) else none

/-- The padding loops of `convertToShortName`: for `i < n`, the upper-cased `i`-th byte of
`str` when there is one, a space otherwise. -/
def padUpper (n : Nat) (str : Str) : Str :=
  (List.range n).map (fun i => if i < str.length then toupper (str.getD i 0) else 0x20)

def convertToShortName (name : Str) : Str :=
  if name = [0x2E] then 0x2E :: List.replicate 10 0x20
  else if name = [0x2E, 0x2E] then 0x2E :: 0x2E :: List.replicate 9 0x20
  else
    match findDot name with
    | some dot_sep_loc =>
      let main := name.take dot_sep_loc
      let extension := name.drop (dot_sep_loc + 1)
      padUpper 8 main ++ padUpper 3 extension
    | none => padUpper 11 name

/-- The loop of `convertFromShortName` over the remaining bytes, with the locals
`short_name`, `add_dot` and `added_dot`. -/
def convertFromShortNameLoop : Str → Str → Bool → Bool → Str
  | [], short_name, _, _ => short_name
  | c :: rest, short_name, add_dot, added_dot =>
    if c = SHORT_NAME_SPACE_PAD then convertFromShortNameLoop rest short_name true added_dot
    else if add_dot && !added_dot then
      convertFromShortNameLoop rest (short_name ++ [0x2E] ++ [tolower c]) add_dot true
    else convertFromShortNameLoop rest (short_name ++ [tolower c]) add_dot added_dot

def convertFromShortName (name : Str) : Str :=
  convertFromShortNameLoop name [] false false

/-- Local time as `struct tm` gives it to `setDirectoryEntryTime` (years since 1900,
months from 0); the clock is an input of the embedding. -/
structure Tm where
  tm_sec : Nat
  tm_min : Nat
  tm_hour : Nat
  tm_mday : Nat
  tm_mon : Nat
  tm_year : Nat
deriving DecidableEq, Repr

/-- The function `setDirectoryEntryTime`, for a clock at or after 1980. -/
def setDirectoryEntryTime (now : Tm) (dir_entry : DirectoryEntry) : DirectoryEntry :=
  let write_date := u16 now.tm_mday
  let write_date := u16 (write_date ||| ((now.tm_mon + 1) <<< 5))
  let write_date := u16 (write_date ||| ((now.tm_year - 80) <<< 0))
  let time := u8 (now.tm_sec / 2)
  let write_time := if time > 29 then 29 else time
  let write_time := u16 (write_time ||| (now.tm_min <<< 5))
  let write_time := u16 (write_time ||| (now.tm_hour <<< 11))
  { dir_entry with write_time := write_time, write_date := write_date }

def formCluster (high_cluster low_cluster : Nat) : Nat :=
  u32 (low_cluster ||| (high_cluster <<< 16))

/-- The eleven name bytes at `location`, keeping those for which
`isspace || ispunct || isalnum` holds. -/
def readNameBytes (s : FileSystem) (location : Nat) : Str :=
  ((List.range 11).map (fun j => readFromFileSystem s 8 (location + j) 1)).filter
    (fun character => isspace character || ispunct character || isalnum character)

/-- The function `readDirectoryEntry`.  It does not set `write_time` and `write_date`.  The
name bytes are read at `location + j` with `j` a `size_t`; the other offsets are sums of
a `uint32_t` and an `int`. -/
def readDirectoryEntry (s : FileSystem) (location : Nat) : DirectoryEntry :=
  let high_cluster := readFromFileSystem s 16 (u32 (location + 20)) 2
  let low_cluster := readFromFileSystem s 16 (u32 (location + 26)) 2
  { name := convertFromShortName (readNameBytes s location)
    attr := readFromFileSystem s 8 (u32 (location + 11)) 1
    write_time := 0
    write_date := 0
    cluster := formCluster high_cluster low_cluster
    size := readFromFileSystem s 32 (u32 (location + 28)) 4
    mem_location := location }

/-- The loop `for (i < 11) writeToFileSystem(short_entry_name[i], mem_location + i, 1)`. -/
def writeNameBytes (short_entry_name : Str) (mem_location : Nat) : Nat → FileSystem → FileSystem
  | 0, s => s
  | n + 1, s =>
    writeToFileSystem (writeNameBytes short_entry_name mem_location n s)
      (short_entry_name.getD n 0) (u32 (mem_location + n)) 1

def writeDirectoryEntry (s : FileSystem) (dir_entry : DirectoryEntry) : FileSystem :=
  let short_entry_name := convertToShortName dir_entry.name
  let loc := dir_entry.mem_location
  let s := writeNameBytes short_entry_name loc 11 s
  let s := writeToFileSystem s dir_entry.attr (u32 (loc + 11)) 1
  let s := writeToFileSystem s 0 (u32 (loc + 13)) 1
  let s := writeToFileSystem s 0 (u32 (loc + 14)) 2
  let s := writeToFileSystem s 0 (u32 (loc + 16)) 2
  let s := writeToFileSystem s 0 (u32 (loc + 18)) 2
  let high_cluster := u16 ((dir_entry.cluster &&& 0xFFFF0000) >>> 4)
  let s := writeToFileSystem s high_cluster (u32 (loc + 20)) 2
  let s := writeToFileSystem s dir_entry.write_time (u32 (loc + 22)) 2
  let s := writeToFileSystem s dir_entry.write_date (u32 (loc + 24)) 2
  let low_cluster := u16 (dir_entry.cluster &&& 0x0000FFFF)
  let s := writeToFileSystem s low_cluster (u32 (loc + 26)) 2
  writeToFileSystem s dir_entry.size (u32 (loc + 28)) 4

/-! ## Classification predicates -/

def isFile (dir_entry : DirectoryEntry) : Bool :=
  (dir_entry.attr &&& ATTR_DIRECTORY) == 0x00

def isDirectory (dir_entry : DirectoryEntry) : Bool :=
  (dir_entry.attr &&& ATTR_DIRECTORY) == ATTR_DIRECTORY

def isLongName (dir_entry : DirectoryEntry) : Bool :=
  (dir_entry.attr &&& ATTR_LONG) == ATTR_LONG

/-- The function `isFreeEntry`: `name[0]` is a `char` promoted to `int` (the terminating
zero when the name is empty) and is compared with the `uint8_t` constants. -/
def isFreeEntry (dir_entry : DirectoryEntry) : Bool :=
  charToInt (dir_entry.name.headD 0) == (LAST_FREE_DIR_ENTRY : Int) ||
    charToInt (dir_entry.name.headD 0) == (FREE_DIR_ENTRY : Int)

def isValidEntryName (entry_name : Str) : Bool :=
  entry_name.indexOf 0x2F ≥ entry_name.length ||
    (entry_name.indexOf 0x2F == 0 && entry_name.length == 1)

/-! ## Directory traversal -/

/-- The slot offsets visited by `for (int i = m_bytes_per_cluster - DIR_ENTRY_SIZE; i >= 0;
i -= DIR_ENTRY_SIZE)`, in the order visited (highest first), for a cluster size below 2^31
(the constructor computes it from a 16-bit and an 8-bit field).  A cluster size below 32
makes `i` negative at once and no slot is visited. -/
def slotOffsets (s : FileSystem) : List Nat :=
  (List.range (s.m_bytes_per_cluster / DIR_ENTRY_SIZE)).map
    (fun k => s.m_bytes_per_cluster - DIR_ENTRY_SIZE * (k + 1))

/-- The per-cluster list `cluster_entry_list` of `getDirectoryEntries`: every slot that is
neither long-name nor free is pushed to the front. -/
def clusterEntryList (s : FileSystem) (cluster : Nat) : List DirectoryEntry :=
  let sector := u32 (getFirstDataSector s cluster * s.m_bpb.bytes_per_sector)
  (slotOffsets s).foldl
    (fun cluster_entry_list i =>
      let dir_entry := readDirectoryEntry s (u32 (sector + i))
      if !isLongName dir_entry && !isFreeEntry dir_entry then dir_entry :: cluster_entry_list
      else cluster_entry_list)
    []

def getDirectoryEntries : Nat → FileSystem → Nat → Option (List DirectoryEntry)
  | 0, _, _ => none
  | fuel + 1, s, cluster =>
    let next := getFATEntry s cluster
    if next < EOC then (getDirectoryEntries fuel s next).map (fun rest => clusterEntryList s cluster ++ rest)
    else some (clusterEntryList s cluster)

/-- The function `findDirectoryEntry`, called with a default-constructed `dir_entry`:
`none` is the fuel running out, `some none` is `false`, `some (some e)` is `true` with
`dir_entry = e`. -/
def findDirectoryEntry (fuel : Nat) (s : FileSystem) (dir_entry_name : Str) (cluster : Nat) :
    Option (Option DirectoryEntry) :=
  if dir_entry_name = ROOT ∨ dir_entry_name = [0x2E] ∨ dir_entry_name = [0x2E, 0x2E] then
    some (some { DirectoryEntry.blank with
      name := ROOT, attr := DirectoryEntry.blank.attr ||| ATTR_DIRECTORY,
      cluster := s.m_bpb.root_cluster, size := 0 })
  else if dir_entry_name = s.m_current_directory_name then
    some (some { DirectoryEntry.blank with
      name := s.m_current_directory_name, attr := DirectoryEntry.blank.attr ||| ATTR_DIRECTORY,
      cluster := s.m_current_directory_cluster })
  else
    (getDirectoryEntries fuel s cluster).map
      (fun dir_entry_list => dir_entry_list.find? (fun e => e.name == dir_entry_name))

def directoryEntryExists (fuel : Nat) (s : FileSystem) (dir_entry_name : Str) (cluster : Nat) :
    Option Bool :=
  if dir_entry_name = ROOT then some true
  else
    (getDirectoryEntries fuel s cluster).map
      (fun dir_entry_list => dir_entry_list.any (fun e => e.name == dir_entry_name))

/-! ## Directory operations -/

/-- The scan of `createDirectoryEntry` for a slot: every cluster of the chain in order,
every slot of a cluster from the highest offset down; each free slot found overwrites
`mem_location`, so the last one found is kept. -/
def findFreeSlot (s : FileSystem) (cluster_chain : List Nat) : Option Nat :=
  cluster_chain.foldl
    (fun found c =>
      let sector := u32 (getFirstDataSector s c * s.m_bpb.bytes_per_sector)
      (slotOffsets s).foldl
        (fun found i =>
          if isFreeEntry (readDirectoryEntry s (u32 (sector + i))) then some (u32 (sector + i))
          else found)
        found)
    none

/-- First part of `createDirectoryEntry`: the location `mem_location` of the new entry. -/
def createLocation (fuel : Nat) (s : FileSystem) (entry_name : Str) (cluster : Nat) :
    Result Nat :=
  if entry_name ≠ ROOT then
    match getClusterChain fuel s cluster with
    | none => Result.diverged
    | some cluster_chain =>
      match findFreeSlot s cluster_chain with
      | some mem_location => Result.returned s mem_location
      | none =>
        match allocateCluster s (cluster_chain.getLastD 0) with
        | none => Result.exception s
        | some (s1, c) =>
          Result.returned s1 (u32 (getFirstDataSector s1 c * s1.m_bpb.bytes_per_sector))
  else Result.returned s 0

/-- The entries `.` and `..` written by `createDirectoryEntry` into a new directory. -/
def writeDotEntries (s : FileSystem) (dir_entry : DirectoryEntry) (cluster : Nat) : FileSystem :=
  let dot_dir_entry : DirectoryEntry :=
    { name := [0x2E], attr := ATTR_DIRECTORY, write_time := dir_entry.write_time,
      write_date := dir_entry.write_date, cluster := dir_entry.cluster, size := 0,
      mem_location := u32 (getFirstDataSector s dir_entry.cluster * s.m_bpb.bytes_per_sector) }
  let dot_dot_dir_entry : DirectoryEntry :=
    { name := [0x2E, 0x2E], attr := ATTR_DIRECTORY, write_time := dir_entry.write_time,
      write_date := dir_entry.write_date, cluster := cluster, size := 0,
      mem_location :=
        u32 (u32 (getFirstDataSector s dir_entry.cluster * s.m_bpb.bytes_per_sector) + 32) }
  writeDirectoryEntry (writeDirectoryEntry s dot_dir_entry) dot_dot_dir_entry

def createDirectoryEntry (fuel : Nat) (now : Tm) (s : FileSystem) (entry_name : Str)
    (cluster entry_type : Nat) : Result Unit :=
  match createLocation fuel s entry_name cluster with
  | Result.diverged => Result.diverged
  | Result.exception s1 => Result.exception s1
  | Result.returned s1 mem_location =>
    match allocateCluster s1 0 with
    | none => Result.exception s1
    | some (s2, c) =>
      let dir_entry : DirectoryEntry :=
        setDirectoryEntryTime now
          { name := entry_name
            attr := if entry_type = DIRECTORY then ATTR_DIRECTORY else ATTR_ARCHIVE
            write_time := 0, write_date := 0
            cluster := c, size := 0, mem_location := mem_location }
      let s3 := writeDirectoryEntry s2 dir_entry
      if entry_type = DIRECTORY ∧ entry_name ≠ ROOT then
        Result.returned (writeDotEntries s3 dir_entry cluster) ()
      else Result.returned s3 ()

/-- The loop of `deleteDirectoryEntry` over the clusters handed to it (the chain reversed). -/
def freeClusters : List Nat → FileSystem → FileSystem
  | [], s => s
  | c :: rest, s =>
    let s1 := setFATEntry s c FREE_CLUSTER
    freeClusters rest (setFreeClusterCount s1 (u32 (s1.m_fsinfo.free_cluster_count + 1)))

/-- The function `deleteDirectoryEntry`; `none` when the fuel runs out. -/
def deleteDirectoryEntry (fuel : Nat) (s : FileSystem) (dir_entry : DirectoryEntry) :
    Option FileSystem :=
  match getClusterChain fuel s dir_entry.cluster with
  | none => none
  | some cluster_chain =>
    let s1 := freeClusters cluster_chain.reverse s
    some (writeDirectoryEntry s1 { dir_entry with name := [LAST_FREE_DIR_ENTRY] })

/-! ## The open-file table -/

/-- The call `m_open_file_table.find(key)`: the element whose key is equivalent to `key`
under `operator<`, which looks at names only. -/
def tableFind (t : List (DirectoryEntry × Str)) (key : DirectoryEntry) :
    Option (DirectoryEntry × Str) :=
  t.find? (fun p => p.1.name == key.name)

/-- The call `m_open_file_table.erase(key)`. -/
def tableErase (t : List (DirectoryEntry × Str)) (key : DirectoryEntry) :
    List (DirectoryEntry × Str) :=
  t.filter (fun p => !(p.1.name == key.name))

/-- Insertion of a new element at its place in the order of names. -/
def tableInsert : List (DirectoryEntry × Str) → DirectoryEntry → Str → List (DirectoryEntry × Str)
  | [], key, mode => [(key, mode)]
  | p :: rest, key, mode =>
    if key.name < p.1.name then (key, mode) :: p :: rest else p :: tableInsert rest key mode

/-- The assignment `m_open_file_table[key] = mode`: an element with an equivalent key keeps
its key and takes the new mode; otherwise a new element is inserted. -/
def tableAssign (t : List (DirectoryEntry × Str)) (key : DirectoryEntry) (mode : Str) :
    List (DirectoryEntry × Str) :=
  if (tableFind t key).isSome then
    t.map (fun p => if p.1.name == key.name then (p.1, mode) else p)
  else tableInsert t key mode

/-- The element the loops of `close`, `read` and `write` stop at: the first one, from
`begin()`, whose key has the name `file_name`. -/
def tableLookup (t : List (DirectoryEntry × Str)) (file_name : Str) :
    Option (DirectoryEntry × Str) :=
  t.find? (fun p => p.1.name == file_name)

def updateFile (s : FileSystem) (file : DirectoryEntry) (new_file_size : Nat)
    (cluster_chain : List Nat) : FileSystem :=
  let high_cluster := u16 (cluster_chain.headD 0 >>> 16)
  let low_cluster := u16 (cluster_chain.headD 0 &&& 0x0000FFFF)
  let new_file : DirectoryEntry :=
    { file with
      attr := u8 (file.attr ||| ATTR_ARCHIVE)
      cluster := formCluster high_cluster low_cluster
      size := new_file_size }
  let mode := ((tableFind s.m_open_file_table file).map (fun p => p.2)).getD []
  let t := tableAssign (tableErase s.m_open_file_table file) new_file mode
  let s := { s with m_open_file_table := t }
  let s := writeToFileSystem s high_cluster (u32 (file.mem_location + 20)) 2
  let s := writeToFileSystem s low_cluster (u32 (file.mem_location + 26)) 2
  writeToFileSystem s new_file.size (u32 (file.mem_location + 28)) 4

/-! ## Public functions -/

/-- What a public function prints; each constructor stands for one message of the source. -/
inductive Report where
  /-- The name "may not contain /". -/
  | invalidEntryName
  /-- Invalid mode: "Valid modes are r, w, and rw." -/
  | invalidMode
  /-- The file "has been opened with ... permission." -/
  | opened
  /-- The file "is already open." -/
  | alreadyOpen
  /-- The entry "is not a file." -/
  | notAFile
  /-- The entry "is not a directory." -/
  | notADirectory
  /-- The entry was "not found." -/
  | notFound
  /-- The file "is now closed." -/
  | closed
  /-- The file was "not found in the open file table". -/
  | notInOpenFileTable
  /-- The name "cannot contain" the given character. -/
  | cannotContain (c : Nat)
  /-- The message "cannot create" for a dot name. -/
  | cannotCreate
  /-- The message "main or extension is too long". -/
  | mainOrExtensionTooLong
  /-- The message "name is too long". -/
  | nameTooLong
  /-- The name "already exists." -/
  | alreadyExists
  /-- The file "is not open for reading." -/
  | notOpenForReading
  /-- The start position "is greater than the file size." -/
  | greaterThanFileSize
  /-- The characters `read` sends to the output, before the final end of line. -/
  | readData (bytes : List Nat)
  /-- The file "is not open for writing." -/
  | notOpenForWriting
  /-- The message "insufficient space for write request." -/
  | insufficientSpace
  /-- The message "Wrote ... of length ...". -/
  | wrote
  /-- The directory "is not empty." -/
  | notEmpty
  /-- The names `ls` prints. -/
  | listing (names : List Str)
  /-- The entry "has ... allocated bytes." -/
  | allocatedBytes (n : Nat)
  /-- The six numbers `fsinfo` prints. -/
  | info (values : List Nat)
  /-- Nothing is printed. -/
  | silent
deriving DecidableEq, Repr

def fsinfo (s : FileSystem) : Report :=
  Report.info [s.m_bpb.bytes_per_sector, s.m_bpb.sectors_per_cluster, s.m_bpb.total_sectors,
    s.m_bpb.num_FATS, s.m_bpb.FATSz, u32 (s.m_fsinfo.free_cluster_count * s.m_bpb.sectors_per_cluster)]

/-- The function `open` (a reserved word here). -/
def openFile (fuel : Nat) (s : FileSystem) (file_name mode : Str) : Result Report :=
  if !isValidEntryName file_name then Result.returned s Report.invalidEntryName
  else if ¬ (mode = READ ∨ mode = WRITE ∨ mode = READ_WRITE) then
    Result.returned s Report.invalidMode
  else
    match findDirectoryEntry fuel s file_name s.m_current_directory_cluster with
    | none => Result.diverged
    | some none => Result.returned s Report.notFound
    | some (some file) =>
      if isFile file then
        if (tableFind s.m_open_file_table file).isNone then
          Result.returned { s with m_open_file_table := tableAssign s.m_open_file_table file mode }
            Report.opened
        else Result.returned s Report.alreadyOpen
      else Result.returned s Report.notAFile

/-- Removal of the first element whose key has the name `file_name` (`erase(iterator)`). -/
def tableEraseFirst : List (DirectoryEntry × Str) → Str → List (DirectoryEntry × Str)
  | [], _ => []
  | p :: rest, file_name => if p.1.name = file_name then rest else p :: tableEraseFirst rest file_name

def close (s : FileSystem) (file_name : Str) : FileSystem × Report :=
  if !isValidEntryName file_name then (s, Report.invalidEntryName)
  else
    match tableLookup s.m_open_file_table file_name with
    | some _ =>
      ({ s with m_open_file_table := tableEraseFirst s.m_open_file_table file_name }, Report.closed)
    | none => (s, Report.notInOpenFileTable)

/-- The character loop of `create` and `mkdir`: the first character that makes the name
invalid, looking at the characters in order from index `i`. -/
def invalidNameChar : Str → Nat → Option Nat
  | [], _ => none
  | c :: rest, i =>
    if c = SPECIAL_INVALID_CHAR ∧ i ≠ 0 then some c
    else if c ∈ INVALID_CHAR_LIST then some c
    else invalidNameChar rest (i + 1)

/-- The length test of `create` and `mkdir`; the result is the message printed, if any. -/
def nameLengthError (name : Str) : Option Report :=
  match findDot name with
  | some dot_sep_loc =>
    let main := name.take dot_sep_loc
    let extension := name.drop (dot_sep_loc + 1)
    if main.length > 8 ∨ extension.length > 3 then some Report.mainOrExtensionTooLong else none
  | none => if name.length > 11 then some Report.nameTooLong else none

def create (fuel : Nat) (now : Tm) (s : FileSystem) (file_name : Str) : Result Report :=
  if !isValidEntryName file_name then Result.returned s Report.invalidEntryName
  else
    match invalidNameChar file_name 0 with
    | some c => Result.returned s (Report.cannotContain c)
    | none =>
      if file_name = [0x2E] ∨ file_name = [0x2E, 0x2E] then Result.returned s Report.cannotCreate
      else
        match nameLengthError file_name with
        | some r => Result.returned s r
        | none =>
          match directoryEntryExists fuel s file_name s.m_current_directory_cluster with
          | none => Result.diverged
          | some true => Result.returned s Report.alreadyExists
          | some false =>
            match createDirectoryEntry fuel now s file_name s.m_current_directory_cluster FILE with
            | Result.returned s1 _ => Result.returned s1 Report.silent
            | Result.exception s1 => Result.exception s1
            | Result.diverged => Result.diverged

def mkdir (fuel : Nat) (now : Tm) (s : FileSystem) (dir_name : Str) : Result Report :=
  if !isValidEntryName dir_name then Result.returned s Report.invalidEntryName
  else
    match invalidNameChar dir_name 0 with
    | some c => Result.returned s (Report.cannotContain c)
    | none =>
      match nameLengthError dir_name with
      | some r => Result.returned s r
      | none =>
        match directoryEntryExists fuel s dir_name s.m_current_directory_cluster with
        | none => Result.diverged
        | some true => Result.returned s Report.alreadyExists
        | some false =>
          match createDirectoryEntry fuel now s dir_name s.m_current_directory_cluster DIRECTORY with
          | Result.returned s1 _ => Result.returned s1 Report.silent
          | Result.exception s1 => Result.exception s1
          | Result.diverged => Result.diverged

/-- The inner loop of `read`: `for (j = cluster_pos; j < cluster_end && bytes_read <= num_bytes;
bytes_read++, j++)`.  The first argument bounds the iterations by `cluster_end - cluster_pos`.
The result is `bytes_read` after the loop and the characters sent to the output. -/
def readInner (s : FileSystem) (num_bytes cluster_end : Nat) : Nat → Nat → Nat → Nat × List Nat
  | 0, _, bytes_read => (bytes_read, [])
  | n + 1, j, bytes_read =>
    if j < cluster_end ∧ bytes_read ≤ num_bytes then
      let r := readInner s num_bytes cluster_end n (j + 1) (u32 (bytes_read + 1))
      (r.1, readFromFileSystem s 8 j 1 :: r.2)
    else (bytes_read, [])

/-- The outer loop of `read`: `for (i = start_pos / m_bytes_per_cluster; i < cluster_chain.size()
&& bytes_read <= num_bytes; i++)`.  The first argument bounds the iterations by the
length of the chain. -/
def readOuter (s : FileSystem) (start_pos num_bytes : Nat) (cluster_chain : List Nat) :
    Nat → Nat → Nat → List Nat
  | 0, _, _ => []
  | n + 1, i, bytes_read =>
    if i < cluster_chain.length ∧ bytes_read ≤ num_bytes then
      let cluster_pos := u32 (getFirstDataSector s (cluster_chain.getD i 0) * s.m_bpb.bytes_per_sector)
      let cluster_end := u32 (cluster_pos + s.m_bytes_per_cluster)
      let cluster_pos :=
        if i = start_pos / s.m_bytes_per_cluster then u32 (cluster_pos + start_pos % s.m_bytes_per_cluster)
        else cluster_pos
      let r := readInner s num_bytes cluster_end (cluster_end - cluster_pos) cluster_pos bytes_read
      r.2 ++ readOuter s start_pos num_bytes cluster_chain n (i + 1) r.1
    else []

def read (fuel : Nat) (s : FileSystem) (file_name : Str) (start_pos num_bytes : Nat) :
    Result Report :=
  if !isValidEntryName file_name then Result.returned s Report.invalidEntryName
  else
    match tableLookup s.m_open_file_table file_name with
    | none => Result.returned s Report.notInOpenFileTable
    | some (file, file_mode) =>
      if file_mode ≠ READ ∧ file_mode ≠ READ_WRITE then Result.returned s Report.notOpenForReading
      else if !isFile file then Result.returned s Report.notAFile
      else if start_pos > file.size then Result.returned s Report.greaterThanFileSize
      else
        let num_bytes := if num_bytes > file.size then file.size else num_bytes
        match getClusterChain fuel s file.cluster with
        | none => Result.diverged
        | some cluster_chain =>
          Result.returned s
            (Report.readData
              (readOuter s start_pos num_bytes cluster_chain cluster_chain.length
                (start_pos / s.m_bytes_per_cluster) 0))

/-- The inner loop of `write`: `for (j = cluster_pos; j < cluster_end && bytes_written <
quoted_data.length(); bytes_written++, j++)`. -/
def writeInner (quoted_data : Str) (cluster_end : Nat) : Nat → Nat → Nat → FileSystem → FileSystem × Nat
  | 0, _, bytes_written, s => (s, bytes_written)
  | n + 1, j, bytes_written, s =>
    if j < cluster_end ∧ bytes_written < quoted_data.length then
      writeInner quoted_data cluster_end n (j + 1) (u32 (bytes_written + 1))
        (writeToFileSystem s (quoted_data.getD bytes_written 0) j 1)
    else (s, bytes_written)

/-- The outer loop of `write`: `for (i = start_pos / m_bytes_per_cluster; i < cluster_chain.size()
&& bytes_written < quoted_data.length(); i++)`. -/
def writeOuter (start_pos : Nat) (quoted_data : Str) (cluster_chain : List Nat) :
    Nat → Nat → Nat → FileSystem → FileSystem
  | 0, _, _, s => s
  | n + 1, i, bytes_written, s =>
    if i < cluster_chain.length ∧ bytes_written < quoted_data.length then
      let cluster_pos := u32 (getFirstDataSector s (cluster_chain.getD i 0) * s.m_bpb.bytes_per_sector)
      let cluster_end := u32 (cluster_pos + s.m_bytes_per_cluster)
      let cluster_pos :=
        if i = start_pos / s.m_bytes_per_cluster then u32 (cluster_pos + start_pos % s.m_bytes_per_cluster)
        else cluster_pos
      let r := writeInner quoted_data cluster_end (cluster_end - cluster_pos) cluster_pos bytes_written s
      writeOuter start_pos quoted_data cluster_chain n (i + 1) r.2 r.1
    else s

/-- The value `ceil(static_cast<double>(x) / m_bytes_per_cluster)` converted to `uint32_t`,
for 32-bit `x` and a nonzero cluster size (the quotient of two 32-bit integers is
rounded up exactly in double precision). -/
def ceilDiv (x bytes_per_cluster : Nat) : Nat :=
  u32 ((x + bytes_per_cluster - 1) / bytes_per_cluster)

/-- The part of `write` after the insufficient-space test: update the entry when the file
grows, then store the data. -/
def writeData (s : FileSystem) (file : DirectoryEntry) (start_pos : Nat) (quoted_data : Str)
    (write_request_size : Nat) (cluster_chain : List Nat) : FileSystem :=
  let s1 := if write_request_size > file.size then updateFile s file write_request_size cluster_chain else s
  writeOuter start_pos quoted_data cluster_chain cluster_chain.length
    (start_pos / s1.m_bytes_per_cluster) 0 s1

def write (fuel : Nat) (s : FileSystem) (file_name : Str) (start_pos : Nat) (quoted_data : Str) :
    Result Report :=
  if !isValidEntryName file_name then Result.returned s Report.invalidEntryName
  else
    match tableLookup s.m_open_file_table file_name with
    | none => Result.returned s Report.notInOpenFileTable
    | some (file, file_mode) =>
      if file_mode ≠ WRITE ∧ file_mode ≠ READ_WRITE then Result.returned s Report.notOpenForWriting
      else
        match getClusterChain fuel s file.cluster with
        | none => Result.diverged
        | some cluster_chain =>
          let write_request_size := u32 (start_pos + quoted_data.length)
          let file_alloc_size := u32 (cluster_chain.length * s.m_bytes_per_cluster)
          if write_request_size > file_alloc_size then
            let cluster_alloc_size := ceilDiv (write_request_size - file_alloc_size) s.m_bytes_per_cluster
            if s.m_fsinfo.free_cluster_count < cluster_alloc_size then
              Result.returned s Report.insufficientSpace
            else
              match resizeClusterChain s (u32 (cluster_chain.length + cluster_alloc_size)) cluster_chain with
              | Result.diverged => Result.diverged
              | Result.exception s1 => Result.exception s1
              | Result.returned s1 cluster_chain1 =>
                Result.returned
                  (writeData s1 file start_pos quoted_data write_request_size cluster_chain1)
                  Report.wrote
          else
            Result.returned (writeData s file start_pos quoted_data write_request_size cluster_chain)
              Report.wrote

def rm (fuel : Nat) (s : FileSystem) (file_name : Str) : Result Report :=
  if !isValidEntryName file_name then Result.returned s Report.invalidEntryName
  else
    match findDirectoryEntry fuel s file_name s.m_current_directory_cluster with
    | none => Result.diverged
    | some none => Result.returned s Report.notFound
    | some (some file) =>
      if isFile file then
        let s1 :=
          if (tableFind s.m_open_file_table file).isSome then
            { s with m_open_file_table := tableErase s.m_open_file_table file }
          else s
        match deleteDirectoryEntry fuel s1 file with
        | none => Result.diverged
        | some s2 => Result.returned s2 Report.silent
      else Result.returned s Report.notAFile

def cd (fuel : Nat) (s : FileSystem) (dir_name : Str) : Result Report :=
  if !isValidEntryName dir_name then Result.returned s Report.invalidEntryName
  else
    match findDirectoryEntry fuel s dir_name s.m_current_directory_cluster with
    | none => Result.diverged
    | some none => Result.returned s Report.notFound
    | some (some directory) =>
      if isDirectory directory then
        Result.returned
          { s with m_current_directory_cluster := directory.cluster, m_current_directory_name := dir_name }
          Report.silent
      else Result.returned s Report.notADirectory

def ls (fuel : Nat) (s : FileSystem) (dir_name : Str) : Result Report :=
  if !isValidEntryName dir_name then Result.returned s Report.invalidEntryName
  else
    match findDirectoryEntry fuel s dir_name s.m_current_directory_cluster with
    | none => Result.diverged
    | some none => Result.returned s Report.notFound
    | some (some directory) =>
      if isDirectory directory then
        match getDirectoryEntries fuel s directory.cluster with
        | none => Result.diverged
        | some dir_entry_list => Result.returned s (Report.listing (dir_entry_list.map (fun e => e.name)))
      else Result.returned s Report.notADirectory

def rmdir (fuel : Nat) (s : FileSystem) (dir_name : Str) : Result Report :=
  if !isValidEntryName dir_name then Result.returned s Report.invalidEntryName
  else
    match findDirectoryEntry fuel s dir_name s.m_current_directory_cluster with
    | none => Result.diverged
    | some none => Result.returned s Report.notFound
    | some (some directory) =>
      if isDirectory directory then
        match getDirectoryEntries fuel s directory.cluster with
        | none => Result.diverged
        | some dir_entry_list =>
          if dir_entry_list.any (fun e => e.name ≠ [0x2E] ∧ e.name ≠ [0x2E, 0x2E]) then
            Result.returned s Report.notEmpty
          else
            match deleteDirectoryEntry fuel s directory with
            | none => Result.diverged
            | some s1 => Result.returned s1 Report.silent
      else Result.returned s Report.notADirectory

def size (fuel : Nat) (s : FileSystem) (entry_name : Str) : Result Report :=
  if !isValidEntryName entry_name then Result.returned s Report.invalidEntryName
  else
    match findDirectoryEntry fuel s entry_name s.m_current_directory_cluster with
    | none => Result.diverged
    | some none => Result.returned s Report.notFound
    | some (some dir_entry) =>
      match getClusterChain fuel s dir_entry.cluster with
      | none => Result.diverged
      | some cluster_chain =>
        Result.returned s (Report.allocatedBytes (cluster_chain.length * s.m_bytes_per_cluster))

/-- The name `"undel." + std::to_string(k)`. -/
def undelName (k : Nat) : Str :=
  [0x75, 0x6E, 0x64, 0x65, 0x6C, 0x2E] ++ (Nat.toDigits 10 k).map Char.toNat

/-- Body of the slot loop of `undelete` for the slot at `sector + i`; the state carries
`file_recovered_count`. -/
def undeleteSlot (sector : Nat) (st : FileSystem × Nat) (i : Nat) : FileSystem × Nat :=
  let s := st.1
  let dir_entry := readDirectoryEntry s (u32 (sector + i))
  if isFreeEntry dir_entry && isFile dir_entry && dir_entry.cluster != 0 then
    let s1 := setFATEntry s dir_entry.cluster EOC
    let s2 := setFreeClusterCount s1 (u32 (s1.m_fsinfo.free_cluster_count + 4294967295))
    let file_recovered_count := st.2 + 1
    let dir_entry := { dir_entry with name := undelName file_recovered_count }
    let dir_entry :=
      if dir_entry.size > s2.m_bytes_per_cluster then { dir_entry with size := s2.m_bytes_per_cluster }
      else dir_entry
    (writeDirectoryEntry s2 dir_entry, file_recovered_count)
  else st

def undelete (fuel : Nat) (s : FileSystem) : Result Report :=
  match getClusterChain fuel s s.m_current_directory_cluster with
  | none => Result.diverged
  | some cluster_chain =>
    let st :=
      cluster_chain.foldl
        (fun st c =>
          let sector := u32 (getFirstDataSector st.1 c * st.1.m_bpb.bytes_per_sector)
          (slotOffsets st.1).foldl (undeleteSlot sector) st)
        (s, 0)
    Result.returned st.1 Report.silent

/-! ## Observations on outcomes, and concrete images -/

/-- Sequencing of two calls: the second runs in the state the first returned in. -/
def Result.andThen {α β : Type} (r : Result α) (f : FileSystem → Result β) : Result β :=
  match r with
  | Result.returned s _ => f s
  | Result.exception s => Result.exception s
  | Result.diverged => Result.diverged

/-- The value a call returned with, if it returned. -/
def Result.value {α : Type} (r : Result α) : Option α :=
  match r with
  | Result.returned _ a => some a
  | _ => none

/-- The engine after the call, when it returned or threw. -/
def Result.state {α : Type} (r : Result α) : Option FileSystem :=
  match r with
  | Result.returned s _ => some s
  | Result.exception s => some s
  | Result.diverged => none

/-- Whether the call ended in the uncaught exception. -/
def Result.threw {α : Type} (r : Result α) : Bool :=
  match r with
  | Result.exception _ => true
  | _ => false

/-- An image given by its nonzero bytes. -/
def imageOf (bytes : List (Nat × Nat)) : Nat → Nat := fun a => (bytes.lookup a).getD 0

/-- The four bytes of a little-endian 32-bit word `w` at offset `a`. -/
def word32 (a w : Nat) : List (Nat × Nat) :=
  [(a, w % 256), (a + 1, w / 256 % 256), (a + 2, w / 65536 % 256), (a + 3, w / 16777216 % 256)]

/-- Boot sector and FSInfo bytes of a small volume: 512-byte sectors, one sector per
cluster, 32 reserved sectors, two FATs of one sector each, 50 sectors in all (clusters
2 .. 17 in sectors 34 .. 49), root directory in cluster 2, FSInfo in sector 1 with the
given free count.  The FAT mirrors start at bytes 16384 and 16896, the data at 17408. -/
def smallVolumeHeader (free_count : Nat) : List (Nat × Nat) :=
  [(11, 0x00), (12, 0x02), (13, 1), (14, 32), (16, 2), (32, 50), (36, 1), (44, 2), (48, 1)] ++
    word32 1000 free_count ++
    word32 16384 0x0FFFFFF8 ++ word32 16388 0x0FFFFFFF ++
    word32 16896 0x0FFFFFF8 ++ word32 16900 0x0FFFFFFF

/-- A freshly formatted small volume: an empty root directory in cluster 2, clusters
3 .. 17 free. -/
def freshImage : Nat → Nat :=
  imageOf (smallVolumeHeader 15 ++ word32 16392 0x0FFFFFF8 ++ word32 16904 0x0FFFFFF8)

/-- A clock reading: 30 October 2026, 12:00:00. -/
def noon : Tm := { tm_sec := 0, tm_min := 0, tm_hour := 12, tm_mday := 30, tm_mon := 9, tm_year := 126 }

/-- The name "a.txt". -/
def name_a_txt : Str := [0x61, 0x2E, 0x74, 0x78, 0x74]

/-- The data "hello". -/
def data_hello : Str := [0x68, 0x65, 0x6C, 0x6C, 0x6F]

/-- The session `create a.txt; open a.txt rw; write a.txt 0 "hello"` on the fresh volume. -/
def helloSession : Result Report :=
  (create 2 noon (mount freshImage) name_a_txt).andThen fun s1 =>
    (openFile 2 s1 name_a_txt READ_WRITE).andThen fun s2 =>
      write 2 s2 name_a_txt 0 data_hello

/-- The session `create a.txt; open a.txt w; write a.txt 0 <1025 bytes "A">` on the fresh
volume. -/
def bigWriteSession : Result Report :=
  (create 2 noon (mount freshImage) name_a_txt).andThen fun s1 =>
    (openFile 2 s1 name_a_txt WRITE).andThen fun s2 =>
      write 2 s2 name_a_txt 0 (List.replicate 1025 0x41)

/-- The number of clusters `c` with `2 ≤ c < total_cluster_count` whose FAT entry is 0. -/
def freeEntryCount (s : FileSystem) : Nat :=
  ((List.range (total_cluster_count s - 2)).filter (fun k => getFATEntry s (k + 2) = 0)).length

/-- The FAT mirrors are byte-identical: every byte of mirror `i` equals the byte of the
first mirror at the same offset. -/
def mirrorsIdentical (s : FileSystem) : Prop :=
  ∀ i < s.m_bpb.num_FATS, ∀ off < s.m_bpb.FATSz * s.m_bpb.bytes_per_sector,
    byteAt s ((s.m_bpb.reserved_sector_count + i * s.m_bpb.FATSz) * s.m_bpb.bytes_per_sector + off) =
      byteAt s (s.m_bpb.reserved_sector_count * s.m_bpb.bytes_per_sector + off)

instance (s : FileSystem) : Decidable (mirrorsIdentical s) := by
  unfold mirrorsIdentical; infer_instance

/-- The small volume with one entry in the root directory (slot 0, at byte 17408): the
empty file `e`, attribute ARCHIVE, size 0, first cluster 0 (no cluster assigned).
Clusters 3 .. 17 are free. -/
def emptyFileImage : Nat → Nat :=
  imageOf (smallVolumeHeader 15 ++ word32 16392 0x0FFFFFF8 ++ word32 16904 0x0FFFFFF8 ++
    [(17408, 0x45), (17409, 0x20), (17410, 0x20), (17411, 0x20), (17412, 0x20), (17413, 0x20),
     (17414, 0x20), (17415, 0x20), (17416, 0x20), (17417, 0x20), (17418, 0x20), (17419, 0x20)])

/-- The name "e". -/
def name_e : Str := [0x65]

/-- The name "x". -/
def name_x : Str := [0x78]

/-- The name "z". -/
def name_z : Str := [0x7A]

/-- The session `create x; create z; rm x; open z w; write z 512 "A"` on the fresh volume:
the cluster freed by `rm x` becomes the second cluster of `z`. -/
def reuseSession : Result Report :=
  (create 2 noon (mount freshImage) name_x).andThen fun s1 =>
    (create 2 noon s1 name_z).andThen fun s2 =>
      (rm 2 s2 name_x).andThen fun s3 =>
        (openFile 2 s3 name_z WRITE).andThen fun s4 =>
          write 2 s4 name_z 512 [0x41]

/-- The session `open e w; write e 0 "A"` on the volume with the empty file `e`. -/
def emptyFileWriteSession : Result Report :=
  (openFile 2 (mount emptyFileImage) name_e WRITE).andThen fun s1 =>
    write 2 s1 name_e 0 [0x41]

/-- A volume of 66612 sectors of 512 bytes, one sector per cluster, 32 reserved sectors, two
FATs of 520 sectors (first data sector 1072, clusters 2 .. 65541), whose root directory
is the empty cluster 65536; every other cluster is free. -/
def bigRootImage : Nat → Nat :=
  imageOf ([(11, 0x00), (12, 0x02), (13, 1), (14, 32), (16, 2), (48, 1)] ++
    word32 32 66612 ++ word32 36 520 ++ word32 44 65536 ++ word32 1000 65539 ++
    word32 16384 0x0FFFFFF8 ++ word32 16388 0x0FFFFFFF ++ word32 278528 0x0FFFFFF8 ++
    word32 282624 0x0FFFFFF8 ++ word32 282628 0x0FFFFFFF ++ word32 544768 0x0FFFFFF8)

/-- The name "d". -/
def name_d : Str := [0x64]

/-- The small volume with no free cluster: the empty root directory in cluster 2, every
cluster 3 .. 17 marked end-of-chain in both mirrors, free count 0. -/
def fullVolumeImage : Nat → Nat :=
  imageOf (smallVolumeHeader 0 ++ word32 16392 0x0FFFFFF8 ++ word32 16904 0x0FFFFFF8 ++
    ((List.range 15).map (fun k =>
      word32 (16384 + 4 * (k + 3)) 0x0FFFFFF8 ++ word32 (16896 + 4 * (k + 3)) 0x0FFFFFF8)).flatten)

/-- The engine after `create a.txt; open a.txt w` on the fresh volume: `a.txt` has size 0 and
the one cluster 3, its entry is in slot 0 of the root directory (byte 17408), and 14
clusters are free. -/
def openedState : FileSystem :=
  (((create 2 noon (mount freshImage) name_a_txt).andThen fun s1 =>
    openFile 2 s1 name_a_txt WRITE).state).getD (mount freshImage)

/-- The name "a." (a base and an empty extension). -/
def name_a_dot : Str := [0x61, 0x2E]

/-- The name "abcdefgh.txt" (a base of eight characters and an extension). -/
def name_abcdefgh_txt : Str := [0x61, 0x62, 0x63, 0x64, 0x65, 0x66, 0x67, 0x68, 0x2E, 0x74, 0x78, 0x74]

/-! ## Well-formed volumes -/

/-- Two engines that differ at most in the image, the free count and the open-file table. -/
def SameGeometry (s t : FileSystem) : Prop :=
  t.m_bpb = s.m_bpb ∧ t.m_bytes_per_cluster = s.m_bytes_per_cluster ∧
    t.m_first_data_sector = s.m_first_data_sector ∧
    t.m_current_directory_cluster = s.m_current_directory_cluster ∧
    t.m_current_directory_name = s.m_current_directory_name

/-- A volume whose layout is the one of a FAT32 volume of less than 4 GiB: nonzero sector
and cluster sizes, the derived members as the constructor computes them, the FSInfo
words inside the reserved sectors, the data region inside the volume, every byte offset
of the volume below 2^32, and a FAT large enough for an entry per cluster. -/
structure WellFormed (s : FileSystem) : Prop where
  bps_pos : 0 < s.m_bpb.bytes_per_sector
  spc_pos : 0 < s.m_bpb.sectors_per_cluster
  bpc_eq : s.m_bytes_per_cluster = s.m_bpb.bytes_per_sector * s.m_bpb.sectors_per_cluster
  fds_eq : s.m_first_data_sector =
    s.m_bpb.reserved_sector_count + s.m_bpb.num_FATS * s.m_bpb.FATSz
  fats_pos : 0 < s.m_bpb.num_FATS
  fsinfo_reserved : s.m_bpb.fsinfo * s.m_bpb.bytes_per_sector + 492 ≤
    s.m_bpb.reserved_sector_count * s.m_bpb.bytes_per_sector
  fds_le : s.m_first_data_sector ≤ s.m_bpb.total_sectors
  addressable : s.m_bpb.total_sectors * s.m_bpb.bytes_per_sector < 4294967296
  fat_covers : 4 * total_cluster_count s ≤ s.m_bpb.FATSz * s.m_bpb.bytes_per_sector
  count_lt : s.m_fsinfo.free_cluster_count < 4294967296

/-- A cluster number of the data region: `2 ≤ x < total_cluster_count`. -/
def InVolume (s : FileSystem) (x : Nat) : Prop := 2 ≤ x ∧ x < total_cluster_count s

/-- The byte offset of cluster `x`, as every caller of `getFirstDataSector` computes it. -/
def clusterOffset (s : FileSystem) (x : Nat) : Nat :=
  u32 (getFirstDataSector s x * s.m_bpb.bytes_per_sector)

/-- The slot addresses of a directory chain, in the order of `getDirectoryEntries`. -/
def slotAddrs (s : FileSystem) (chain : List Nat) : List Nat :=
  (chain.map (fun x => (slotOffsets s).reverse.map (fun i => u32 (clusterOffset s x + i)))).flatten

/-- An entry that `getDirectoryEntries` lists: neither long-name nor free. -/
def listed (e : DirectoryEntry) : Bool := !isLongName e && !isFreeEntry e

/-- The small volume with a full root directory: the sixteen slots of cluster 2 hold the
empty files `a` .. `p` (first cluster 0); clusters 3 .. 17 are free. -/
def fullDirImage : Nat → Nat :=
  imageOf (smallVolumeHeader 15 ++ word32 16392 0x0FFFFFF8 ++ word32 16904 0x0FFFFFF8 ++
    ((List.range 16).map (fun k =>
      (17408 + 32 * k, 0x41 + k) ::
        ((List.range 10).map (fun j => (17408 + 32 * k + 1 + j, 0x20)) ++
          [(17408 + 32 * k + 11, 0x20)]))).flatten)

/-- The session `create x; rm x` on the volume with the full root directory. -/
def createRemoveFullDir : Result Report :=
  (create 3 noon (mount fullDirImage) name_x).andThen fun s1 => rm 3 s1 name_x

/-! ## Definitions used in the statements about creation -/

/-- A byte the filter of `readDirectoryEntry` keeps: `isspace || ispunct || isalnum`. -/
def keptByte (c : Nat) : Bool := isspace c || ispunct c || isalnum c

/-- The entry `createDirectoryEntry` writes for a file. -/
def newFileEntry (now : Tm) (n : Str) (c loc : Nat) : DirectoryEntry :=
  setDirectoryEntryTime now
    { name := n, attr := ATTR_ARCHIVE, write_time := 0, write_date := 0, cluster := c, size := 0,
      mem_location := loc }

/-- The cluster `getFreeCluster` returns when the free count is not 0. -/
def nextFreeCluster (s : FileSystem) : Nat := scanFreeCluster s (total_cluster_count s - 2) 2

/-- The engine after `create` has put a file in the free slot `loc`. -/
def createdState (now : Tm) (s : FileSystem) (n : Str) (loc : Nat) : FileSystem :=
  writeDirectoryEntry
    (setFreeClusterCount (setFATEntry s (nextFreeCluster s) EOC)
      (u32 (s.m_fsinfo.free_cluster_count + 4294967295)))
    (newFileEntry now n (nextFreeCluster s) loc)

/-! ## Definitions used in the statements about names, modes and FAT entries -/

/-- The engine after `create a.txt; open a.txt r` on the fresh volume: `a.txt` is in the
open-file table with mode r. -/
def readOnlyState : FileSystem :=
  (((create 2 noon (mount freshImage) name_a_txt).andThen fun s1 =>
    openFile 2 s1 name_a_txt READ).state).getD (mount freshImage)

/-- The name "a b" (with a space, a byte of the invalid list). -/
def name_a_space_b : Str := [0x61, 0x20, 0x62]

/-- The one-byte name 0x1A. -/
def name_sub : Str := [0x1A]

/-- The name "." -/
def name_dot : Str := [0x2E]

/-- The name ".." -/
def name_dotdot : Str := [0x2E, 0x2E]

/-- The name "undel.1". -/
def name_undel_1 : Str := [0x75, 0x6E, 0x64, 0x65, 0x6C, 0x2E, 0x31]

/-- The session `mkdir n; mkdir n` on the fresh volume. -/
def mkdirTwiceSession (n : Str) : Result Report :=
  (mkdir 2 noon (mount freshImage) n).andThen fun s1 => mkdir 2 noon s1 n

/-- The session `create y; rm y; undelete` on the fresh volume. -/
def undeleteSession (y : Str) : Result Report :=
  (create 2 noon (mount freshImage) y).andThen fun s1 =>
    (rm 2 s1 y).andThen fun s2 => undelete 2 s2

/-- The small volume whose root directory holds three slots written by another
implementation: slot 0 (byte 17408) is the file `BC` deleted with the marker 0xE5 in its
first name byte, slot 1 (byte 17440) has the first name byte 0x00 followed by `Q`, and
slot 2 (byte 17472) has a name of eleven spaces.  The three have attribute ARCHIVE and
cluster 0. -/
def foreignSlotsImage : Nat → Nat :=
  imageOf (smallVolumeHeader 15 ++ word32 16392 0x0FFFFFF8 ++ word32 16904 0x0FFFFFF8 ++
    [(17408, 0xE5), (17409, 0x42), (17410, 0x43), (17411, 0x20), (17412, 0x20), (17413, 0x20),
     (17414, 0x20), (17415, 0x20), (17416, 0x20), (17417, 0x20), (17418, 0x20), (17419, 0x20),
     (17440, 0x00), (17441, 0x51), (17442, 0x20), (17443, 0x20), (17444, 0x20), (17445, 0x20),
     (17446, 0x20), (17447, 0x20), (17448, 0x20), (17449, 0x20), (17450, 0x20), (17451, 0x20),
     (17472, 0x20), (17473, 0x20), (17474, 0x20), (17475, 0x20), (17476, 0x20), (17477, 0x20),
     (17478, 0x20), (17479, 0x20), (17480, 0x20), (17481, 0x20), (17482, 0x20), (17483, 0x20)])

/-- The session `create x; create z` on the fresh volume. -/
def createTwoSession : Result Report :=
  (create 2 noon (mount freshImage) name_x).andThen fun s1 => create 2 noon s1 name_z

/-- The session `create x; create z; rm x` on the fresh volume. -/
def removeFirstSession : Result Report :=
  createTwoSession.andThen fun s2 => rm 2 s2 name_x

/-- The directory invariant in one cluster: no entry that is not free is stored at a higher
offset than a slot whose first name byte is 0x00. -/
def lastFreeOrdered (s : FileSystem) (cluster : Nat) : Prop :=
  ∀ i ∈ slotOffsets s, ∀ j ∈ slotOffsets s, i < j →
    byteAt s (clusterOffset s cluster + i) = LAST_FREE_DIR_ENTRY →
      isFreeEntry (readDirectoryEntry s (u32 (clusterOffset s cluster + j))) = true

instance (s : FileSystem) (cluster : Nat) : Decidable (lastFreeOrdered s cluster) := by
  unfold lastFreeOrdered; infer_instance

/-- An entry with a cluster number above 65535, in slot 0 of the root directory of the small
volume. -/
def highClusterEntry : DirectoryEntry :=
  { name := name_a_txt, attr := 0x20, write_time := 0, write_date := 0, cluster := 65539, size := 0,
    mem_location := 17408 }

/-- The small volume without a zero FAT entry (the empty root directory in cluster 2, every
cluster 3 .. 17 marked end-of-chain in both mirrors) whose FSInfo free count is 1. -/
def staleCountImage : Nat → Nat :=
  imageOf (smallVolumeHeader 1 ++ word32 16392 0x0FFFFFF8 ++ word32 16904 0x0FFFFFF8 ++
    ((List.range 15).map (fun k =>
      word32 (16384 + 4 * (k + 3)) 0x0FFFFFF8 ++ word32 (16896 + 4 * (k + 3)) 0x0FFFFFF8)).flatten)

/-- The byte offset of the FAT entry of `cluster` in mirror `i` as the specification gives
it, in exact arithmetic: `(reserved + 4c / bps + i * FATSz) * bps + 4c mod bps`.  The
offset the code computes, in 32-bit arithmetic, is `FAT_entry_location`. -/
def fatEntryOffset (s : FileSystem) (cluster i : Nat) : Nat :=
  (s.m_bpb.reserved_sector_count + 4 * cluster / s.m_bpb.bytes_per_sector + i * s.m_bpb.FATSz) *
    s.m_bpb.bytes_per_sector + 4 * cluster % s.m_bpb.bytes_per_sector

/-! ## Definitions used in the statements about chains, offsets and file updates -/

/-- The small volume with one entry in the root directory (slot 0, at byte 17408): the
file `e` with attribute 0x00 (the ARCHIVE bit is clear), size 0 and first cluster 3, which
is marked end-of-chain.  Clusters 4 .. 17 are free. -/
def plainFileImage : Nat → Nat :=
  imageOf (smallVolumeHeader 14 ++ word32 16392 0x0FFFFFF8 ++ word32 16904 0x0FFFFFF8 ++
    word32 16396 0x0FFFFFF8 ++ word32 16908 0x0FFFFFF8 ++
    [(17408, 0x45), (17409, 0x20), (17410, 0x20), (17411, 0x20), (17412, 0x20), (17413, 0x20),
     (17414, 0x20), (17415, 0x20), (17416, 0x20), (17417, 0x20), (17418, 0x20), (17434, 3)])

/-- The entry of the file `e` as `readDirectoryEntry` decodes it from slot 0 of the volume
with the plain file. -/
def plainFileEntry : DirectoryEntry :=
  { name := name_e, attr := 0x00, write_time := 0, write_date := 0, cluster := 3, size := 0,
    mem_location := 17408 }

/-- The session `open e w; write e 0 "A"` on the volume with the plain file. -/
def plainFileWriteSession : Result Report :=
  (openFile 2 (mount plainFileImage) name_e WRITE).andThen fun s1 =>
    write 2 s1 name_e 0 [0x41]

/-- The session `open e w; write e 8 "AAAA"` on the volume with the empty file `e`, whose
first cluster is 0. -/
def sentinelWriteSession : Result Report :=
  (openFile 2 (mount emptyFileImage) name_e WRITE).andThen fun s1 =>
    write 2 s1 name_e 8 [0x41, 0x41, 0x41, 0x41]

/-- The boot sector of a volume of 8 GiB: 16777216 sectors of 512 bytes, 8 sectors per
cluster, 32 reserved sectors, two FATs of 16384 sectors (first data sector 32800, cluster
numbers 2 .. 2093053), root directory in cluster 2, FSInfo in sector 1. -/
def eightGiBImage : Nat → Nat :=
  imageOf ([(11, 0x00), (12, 0x02), (13, 8), (14, 32), (16, 2), (48, 1)] ++
    word32 32 16777216 ++ word32 36 16384 ++ word32 44 2)

/-! ## Definitions used in the statements about new entries and the open-file table -/

/-- The keys of the open-file table are pairwise inequivalent under `operator<`: no two
elements have the same name. -/
def uniqueNames (t : List (DirectoryEntry × Str)) : Prop :=
  (t.map (fun p => p.1.name)).Nodup

instance (t : List (DirectoryEntry × Str)) : Decidable (uniqueNames t) := by
  unfold uniqueNames; infer_instance

/-- Whether the slot at offset `i` of cluster `x` is classified free, as the scan of
`createDirectoryEntry` tests it: `isFreeEntry` of the decoded slot. -/
def slotFree (s : FileSystem) (x i : Nat) : Bool :=
  isFreeEntry (readDirectoryEntry s (u32 (clusterOffset s x + i)))

/-- The entry `createDirectoryEntry` builds for the name, the type, the allocated cluster `c`
and the location found. -/
def newEntry (now : Tm) (entry_name : Str) (entry_type c mem_location : Nat) : DirectoryEntry :=
  setDirectoryEntryTime now
    { name := entry_name
      attr := if entry_type = DIRECTORY then ATTR_DIRECTORY else ATTR_ARCHIVE
      write_time := 0, write_date := 0
      cluster := c, size := 0, mem_location := mem_location }

/-- The engine after `createDirectoryEntry` has allocated cluster `c` for the new entry in
state `s2`: the entry is written at `mem_location` and, for a directory, the entries `.` and
`..` are written into cluster `c`. -/
def newEntryState (now : Tm) (s2 : FileSystem) (entry_name : Str)
    (cluster entry_type c mem_location : Nat) : FileSystem :=
  let dir_entry := newEntry now entry_name entry_type c mem_location
  let s3 := writeDirectoryEntry s2 dir_entry
  if entry_type = DIRECTORY ∧ entry_name ≠ ROOT then writeDotEntries s3 dir_entry cluster else s3

/-- A volume of 8 GiB (16777216 sectors of 512 bytes, one sector per cluster, 32 reserved
sectors, two FATs of 131072 sectors, first data sector 262176) whose root directory has the
chain 2 -> 8388611; every other cluster is free, the data region is all zero, the free
count is 1000.  The exact offset of cluster 8388611 is 4429201920 = 2^32 + 134234624, and
134234624 is the offset of cluster 3. -/
def wrappedDirImage : Nat → Nat :=
  imageOf ([(11, 0x00), (12, 0x02), (13, 1), (14, 32), (16, 2), (48, 1)] ++
    word32 32 16777216 ++ word32 36 131072 ++ word32 44 2 ++ word32 1000 1000 ++
    word32 16384 0x0FFFFFF8 ++ word32 16388 0x0FFFFFFF ++ word32 16392 8388611 ++
    word32 33570828 0x0FFFFFF8 ++
    word32 67125248 0x0FFFFFF8 ++ word32 67125252 0x0FFFFFFF ++ word32 67125256 8388611 ++
    word32 100679692 0x0FFFFFF8)

/-! # Theorems -/

/-! ## Bytes, words and stores -/

/-! ## Bytes and words -/

theorem byteAt_lt (s : FileSystem) (a : Nat) : byteAt s a < 256 := Nat.mod_lt _ (by decide)

theorem or_shift_eq_add (lo hi k : Nat) (h : lo < 2 ^ k) : lo ||| (hi <<< k) = lo + 2 ^ k * hi := by
  rw [Nat.shiftLeft_eq, Nat.or_comm, Nat.mul_comm hi, Nat.add_comm]
  exact (Nat.mul_add_lt_is_or h hi).symm

theorem readFromFileSystem_8_1 (s : FileSystem) (off : Nat) :
    readFromFileSystem s 8 off 1 = byteAt s off := by
  have h := byteAt_lt s off
  simp only [readFromFileSystem, readLoop, Nat.zero_mul, Nat.shiftLeft_zero, Nat.zero_or,
    Nat.add_zero]
  exact Nat.mod_eq_of_lt h

theorem readFromFileSystem_16_2 (s : FileSystem) (off : Nat) :
    readFromFileSystem s 16 off 2 = byteAt s off + 256 * byteAt s (off + 1) := by
  have h0 := byteAt_lt s off
  have h1 := byteAt_lt s (off + 1)
  simp only [readFromFileSystem, readLoop, Nat.zero_mul, Nat.shiftLeft_zero, Nat.zero_or,
    Nat.add_zero, Nat.zero_add, Nat.one_mul]
  rw [or_shift_eq_add _ _ 8 h0]
  norm_num
  omega

theorem readFromFileSystem_32_4 (s : FileSystem) (off : Nat) :
    readFromFileSystem s 32 off 4 =
      byteAt s off + 256 * byteAt s (off + 1) + 65536 * byteAt s (off + 2) +
        16777216 * byteAt s (off + 3) := by
  have h0 := byteAt_lt s off
  have h1 := byteAt_lt s (off + 1)
  have h2 := byteAt_lt s (off + 2)
  have h3 := byteAt_lt s (off + 3)
  simp only [readFromFileSystem, readLoop, Nat.zero_mul, Nat.shiftLeft_zero, Nat.zero_or,
    Nat.add_zero, Nat.zero_add, Nat.one_mul]
  rw [or_shift_eq_add _ _ 8 h0, or_shift_eq_add _ _ (2 * 8) (by norm_num; omega),
    or_shift_eq_add _ _ ((1 + 1 + 1) * 8) (by norm_num; omega)]
  norm_num
  omega

/-! ## Stores -/

@[simp] theorem storeByte_bpb (s : FileSystem) (a b : Nat) : (storeByte s a b).m_bpb = s.m_bpb := rfl
@[simp] theorem storeByte_fsinfo (s : FileSystem) (a b : Nat) :
    (storeByte s a b).m_fsinfo = s.m_fsinfo := rfl
@[simp] theorem storeByte_table (s : FileSystem) (a b : Nat) :
    (storeByte s a b).m_open_file_table = s.m_open_file_table := rfl
@[simp] theorem storeByte_bpc (s : FileSystem) (a b : Nat) :
    (storeByte s a b).m_bytes_per_cluster = s.m_bytes_per_cluster := rfl
@[simp] theorem storeByte_fds (s : FileSystem) (a b : Nat) :
    (storeByte s a b).m_first_data_sector = s.m_first_data_sector := rfl
@[simp] theorem storeByte_cdc (s : FileSystem) (a b : Nat) :
    (storeByte s a b).m_current_directory_cluster = s.m_current_directory_cluster := rfl
@[simp] theorem storeByte_cdn (s : FileSystem) (a b : Nat) :
    (storeByte s a b).m_current_directory_name = s.m_current_directory_name := rfl

theorem byteAt_storeByte (s : FileSystem) (a b x : Nat) :
    byteAt (storeByte s a b) x = if x = a then b % 256 else byteAt s x := by
  unfold byteAt storeByte
  by_cases h : x = a <;> simp [h]

theorem writeLoop_bpb (off : Nat) (n i data : Nat) (s : FileSystem) :
    (writeLoop off n i data s).m_bpb = s.m_bpb ∧
    (writeLoop off n i data s).m_fsinfo = s.m_fsinfo ∧
    (writeLoop off n i data s).m_open_file_table = s.m_open_file_table ∧
    (writeLoop off n i data s).m_bytes_per_cluster = s.m_bytes_per_cluster ∧
    (writeLoop off n i data s).m_first_data_sector = s.m_first_data_sector ∧
    (writeLoop off n i data s).m_current_directory_cluster = s.m_current_directory_cluster ∧
    (writeLoop off n i data s).m_current_directory_name = s.m_current_directory_name := by
  induction n generalizing i data s with
  | zero => simp [writeLoop]
  | succ n ih =>
    rw [writeLoop]
    have := ih (i + 1) (data >>> 8) (storeByte s (off + i) (data &&& 0xFF))
    simpa using this

@[simp] theorem writeToFileSystem_bpb (s : FileSystem) (d off n : Nat) :
    (writeToFileSystem s d off n).m_bpb = s.m_bpb := (writeLoop_bpb off n 0 d s).1
@[simp] theorem writeToFileSystem_fsinfo (s : FileSystem) (d off n : Nat) :
    (writeToFileSystem s d off n).m_fsinfo = s.m_fsinfo := (writeLoop_bpb off n 0 d s).2.1
@[simp] theorem writeToFileSystem_table (s : FileSystem) (d off n : Nat) :
    (writeToFileSystem s d off n).m_open_file_table = s.m_open_file_table :=
  (writeLoop_bpb off n 0 d s).2.2.1
@[simp] theorem writeToFileSystem_bpc (s : FileSystem) (d off n : Nat) :
    (writeToFileSystem s d off n).m_bytes_per_cluster = s.m_bytes_per_cluster :=
  (writeLoop_bpb off n 0 d s).2.2.2.1
@[simp] theorem writeToFileSystem_fds (s : FileSystem) (d off n : Nat) :
    (writeToFileSystem s d off n).m_first_data_sector = s.m_first_data_sector :=
  (writeLoop_bpb off n 0 d s).2.2.2.2.1
@[simp] theorem writeToFileSystem_cdc (s : FileSystem) (d off n : Nat) :
    (writeToFileSystem s d off n).m_current_directory_cluster = s.m_current_directory_cluster :=
  (writeLoop_bpb off n 0 d s).2.2.2.2.2.1
@[simp] theorem writeToFileSystem_cdn (s : FileSystem) (d off n : Nat) :
    (writeToFileSystem s d off n).m_current_directory_name = s.m_current_directory_name :=
  (writeLoop_bpb off n 0 d s).2.2.2.2.2.2

theorem byteAt_writeLoop (off : Nat) (n i data : Nat) (s : FileSystem) (x : Nat) :
    byteAt (writeLoop off n i data s) x =
      if off + i ≤ x ∧ x < off + i + n then data / 256 ^ (x - (off + i)) % 256 else byteAt s x := by
  induction n generalizing i data s with
  | zero =>
    rw [writeLoop, if_neg (by omega)]
  | succ n ih =>
    rw [writeLoop, ih, byteAt_storeByte]
    by_cases h1 : x = off + i
    · subst h1
      rw [if_neg (by omega), if_pos rfl, if_pos (by omega)]
      simp [Nat.and_pow_two_sub_one_eq_mod _ 8]
    · rw [if_neg h1]
      by_cases h2 : off + i ≤ x ∧ x < off + i + (n + 1)
      · rw [if_pos (by omega), if_pos h2]
        obtain ⟨k, hk⟩ : ∃ k, x - (off + i) = k + 1 := ⟨x - (off + i) - 1, by omega⟩
        have hk2 : x - (off + (i + 1)) = k := by omega
        have e : data >>> 8 = data / 256 := by simp [Nat.shiftRight_eq_div_pow]
        rw [hk, hk2, e, Nat.div_div_eq_div_mul, ← Nat.pow_succ']
      · rw [if_neg (by omega), if_neg h2]

theorem byteAt_writeToFileSystem (s : FileSystem) (d off n x : Nat) :
    byteAt (writeToFileSystem s d off n) x =
      if off ≤ x ∧ x < off + n then d / 256 ^ (x - off) % 256 else byteAt s x := by
  unfold writeToFileSystem
  rw [byteAt_writeLoop]
  simp

theorem byteAt_writeToFileSystem_of_outside (s : FileSystem) (d off n x : Nat)
    (h : x < off ∨ off + n ≤ x) : byteAt (writeToFileSystem s d off n) x = byteAt s x := by
  rw [byteAt_writeToFileSystem, if_neg (by omega)]

theorem u32_of_lt {n : Nat} (h : n < 4294967296) : u32 n = n := Nat.mod_eq_of_lt h

theorem sub32_of_le {a b : Nat} (hb : b ≤ a) (ha : a < 4294967296) : sub32 a b = a - b := by
  unfold sub32
  rw [u32_of_lt ha, u32_of_lt (by omega)]
  omega

theorem fat_loc_arith (R B F N x i : Nat) (hB : 0 < B) (hx : 4 * x + 4 ≤ F * B) (hi : i < N)
    (hD : (R + N * F) * B < 4294967296) :
    u32 (u32 (u32 (R + u32 (x * 4) / B) + u32 (i * F)) * B + u32 (x * 4) % B) =
        R * B + i * (F * B) + 4 * x ∧
      R * B + i * (F * B) + 4 * x + 4 ≤ R * B + (i + 1) * (F * B) ∧
      R * B + (i + 1) * (F * B) ≤ (R + N * F) * B := by
  have h1 : (i + 1) * (F * B) ≤ N * (F * B) := Nat.mul_le_mul_right _ hi
  have h2 : (R + N * F) * B = R * B + N * (F * B) := by ring
  have h3 : (i + 1) * (F * B) = i * (F * B) + F * B := by ring
  have hq : x * 4 / B < F := Nat.div_lt_of_lt_mul (by rw [Nat.mul_comm B F]; omega)
  have hdm : B * (x * 4 / B) + x * 4 % B = x * 4 := Nat.div_add_mod _ _
  have hBle : ∀ y, y ≤ y * B := fun y => Nat.le_mul_of_pos_right y hB
  have hNF : i * F + F ≤ N * F := by
    have : (i + 1) * F ≤ N * F := Nat.mul_le_mul_right _ hi
    rw [Nat.add_mul, Nat.one_mul] at this; exact this
  have hD' : R + N * F < 4294967296 := lt_of_le_of_lt (hBle _) hD
  have e1 : u32 (x * 4) = x * 4 := u32_of_lt (by omega)
  rw [e1]
  have e2 : u32 (R + x * 4 / B) = R + x * 4 / B := u32_of_lt (by omega)
  have e3 : u32 (i * F) = i * F := u32_of_lt (by omega)
  rw [e2, e3]
  have e4 : u32 (R + x * 4 / B + i * F) = R + x * 4 / B + i * F := u32_of_lt (by omega)
  rw [e4]
  have e5 : (R + x * 4 / B + i * F) * B + x * 4 % B = R * B + i * (F * B) + 4 * x := by
    have : (R + x * 4 / B + i * F) * B = R * B + B * (x * 4 / B) + i * (F * B) := by ring
    omega
  rw [e5]
  refine ⟨u32_of_lt (by omega), by omega, by omega⟩

theorem cluster_addr_arith (S B D T x : Nat) (hS : 0 < S) (hT : T * B < 4294967296)
    (hB : 0 < B) (hD0 : 0 < D) (hD : D ≤ T) (hx2 : 2 ≤ x) (hx : x < (T - D) / S + 2) :
    u32 (u32 (sub32 x 2 * S + D) * B) = D * B + (x - 2) * (B * S) ∧
      D * B + (x - 2) * (B * S) + B * S ≤ T * B := by
  obtain ⟨y, rfl⟩ : ∃ y, x = y + 2 := ⟨x - 2, by omega⟩
  simp only [Nat.add_sub_cancel]
  have hBle : ∀ z, z ≤ z * B := fun z => Nat.le_mul_of_pos_right z hB
  have hT' : T < 4294967296 := lt_of_le_of_lt (hBle _) hT
  have h1 : y + 1 ≤ (T - D) / S := by omega
  have h2 : y * S + S ≤ T - D := by
    calc y * S + S = (y + 1) * S := (Nat.succ_mul y S).symm
      _ ≤ (T - D) / S * S := Nat.mul_le_mul_right _ h1
      _ ≤ T - D := Nat.div_mul_le_self _ _
  have h3 : y * S + S + D ≤ T := by omega
  have h4 : (y * S + S + D) * B ≤ T * B := Nat.mul_le_mul_right _ h3
  have h5 : (y * S + S + D) * B = D * B + y * (B * S) + B * S := by ring
  have hxS : y ≤ y * S := Nat.le_mul_of_pos_right _ hS
  have e1 : sub32 (y + 2) 2 = y := by
    rw [sub32_of_le (by omega) (by omega)]; omega
  have e2 : u32 (y * S + D) = y * S + D := u32_of_lt (by omega)
  have h6 : (y * S + D) * B = D * B + y * (B * S) := by ring
  rw [e1, e2, h6]
  exact ⟨u32_of_lt (by omega), by omega⟩

/-! ## Name codec -/

theorem tolower_toupper (c : Nat) (h : ¬ (0x41 ≤ c ∧ c ≤ 0x5A)) : tolower (toupper c) = c := by
  unfold tolower toupper
  split_ifs <;> omega

theorem toupper_ne_space (c : Nat) (h : c ≠ 0x20) : toupper c ≠ SHORT_NAME_SPACE_PAD := by
  unfold toupper SHORT_NAME_SPACE_PAD
  split_ifs <;> omega

theorem padUpper_eq (k : Nat) (str : Str) (h : str.length ≤ k) :
    padUpper k str = str.map toupper ++ List.replicate (k - str.length) 0x20 := by
  unfold padUpper
  apply List.ext_getElem
  · simp; omega
  · intro i h1 h2
    simp only [List.getElem_map, List.getElem_range]
    by_cases hi : i < str.length
    · simp [hi, List.getElem_append_left, List.getD_eq_getElem]
    · rw [List.getElem_append_right (by simpa using hi)]
      simp [hi]

theorem loop_spaces (k : Nat) (rest acc : Str) (a b : Bool) :
    convertFromShortNameLoop (List.replicate (k + 1) 0x20 ++ rest) acc a b =
      convertFromShortNameLoop rest acc true b := by
  induction k generalizing a with
  | zero => simp [convertFromShortNameLoop, SHORT_NAME_SPACE_PAD]
  | succ k ih =>
    rw [List.replicate_succ, List.cons_append, convertFromShortNameLoop]
    simp only [SHORT_NAME_SPACE_PAD, if_true]
    exact ih true

theorem loop_spaces_true (k : Nat) (rest acc : Str) (b : Bool) :
    convertFromShortNameLoop (List.replicate k 0x20 ++ rest) acc true b =
      convertFromShortNameLoop rest acc true b := by
  cases k with
  | zero => simp
  | succ k => exact loop_spaces k rest acc true b

theorem loop_spaces_end (k : Nat) (acc : Str) (a b : Bool) :
    convertFromShortNameLoop (List.replicate k 0x20) acc a b = acc := by
  induction k generalizing a with
  | zero => simp [convertFromShortNameLoop]
  | succ k ih =>
    rw [List.replicate_succ, convertFromShortNameLoop]
    simp only [SHORT_NAME_SPACE_PAD, if_true]
    exact ih true

theorem loop_chars (xs rest acc : Str) (a b : Bool) (hab : (a && !b) = false)
    (h : ∀ c ∈ xs, c ≠ SHORT_NAME_SPACE_PAD) :
    convertFromShortNameLoop (xs ++ rest) acc a b =
      convertFromShortNameLoop rest (acc ++ xs.map tolower) a b := by
  induction xs generalizing acc with
  | nil => simp
  | cons c xs ih =>
    rw [List.cons_append, convertFromShortNameLoop]
    have hc : c ≠ SHORT_NAME_SPACE_PAD := h c (List.mem_cons_self _ _)
    simp only [hc, if_false, hab]
    rw [ih _ (fun d hd => h d (List.mem_cons_of_mem _ hd))]
    simp

theorem loop_first_char (c : Nat) (rest acc : Str) (hc : c ≠ SHORT_NAME_SPACE_PAD) :
    convertFromShortNameLoop (c :: rest) acc true false =
      convertFromShortNameLoop rest (acc ++ [0x2E] ++ [tolower c]) true true := by
  rw [convertFromShortNameLoop]
  simp [hc]

theorem not_invalid_of_invalidNameChar (n : Str) (i : Nat) (h : invalidNameChar n i = none) :
    ∀ c ∈ n, c ∉ INVALID_CHAR_LIST := by
  induction n generalizing i with
  | nil => simp
  | cons c n ih =>
    rw [invalidNameChar] at h
    split_ifs at h with h1 h2
    intro d hd
    rcases List.mem_cons.mp hd with rfl | hd
    · exact h2
    · exact ih (i + 1) h d hd

theorem map_tolower_toupper (xs : Str) (h : ∀ c ∈ xs, ¬ (0x41 ≤ c ∧ c ≤ 0x5A)) :
    (xs.map toupper).map tolower = xs := by
  induction xs with
  | nil => rfl
  | cons c xs ih =>
    simp only [List.map_cons]
    rw [tolower_toupper c (h c (List.mem_cons_self _ _)),
      ih (fun d hd => h d (List.mem_cons_of_mem _ hd))]

theorem upper_no_space (xs : Str) (h : ∀ c ∈ xs, c ≠ 0x20) :
    ∀ c ∈ xs.map toupper, c ≠ SHORT_NAME_SPACE_PAD := by
  intro c hc
  rcases List.mem_map.mp hc with ⟨d, hd, rfl⟩
  exact toupper_ne_space d (h d hd)

theorem round_trip_no_dot (n : Str) (hlen : n.length ≤ 11) (hsp : ∀ c ∈ n, c ≠ 0x20)
    (hlow : ∀ c ∈ n, ¬ (0x41 ≤ c ∧ c ≤ 0x5A)) :
    convertFromShortName (padUpper 11 n) = n := by
  unfold convertFromShortName
  rw [padUpper_eq 11 n hlen, loop_chars _ _ _ _ _ (by rfl) (upper_no_space n hsp),
    loop_spaces_end, map_tolower_toupper n hlow]
  simp

theorem round_trip_dot (main ext : Str) (hm : main.length < 8) (he : ext.length ≤ 3)
    (hne : ext ≠ [])
    (hsp1 : ∀ c ∈ main, c ≠ 0x20) (hsp2 : ∀ c ∈ ext, c ≠ 0x20)
    (hlow1 : ∀ c ∈ main, ¬ (0x41 ≤ c ∧ c ≤ 0x5A)) (hlow2 : ∀ c ∈ ext, ¬ (0x41 ≤ c ∧ c ≤ 0x5A)) :
    convertFromShortName (padUpper 8 main ++ padUpper 3 ext) = main ++ [0x2E] ++ ext := by
  unfold convertFromShortName
  rw [padUpper_eq 8 main (by omega), padUpper_eq 3 ext he, List.append_assoc,
    loop_chars _ _ _ _ _ (by rfl) (upper_no_space main hsp1), map_tolower_toupper main hlow1]
  obtain ⟨k, hk⟩ : ∃ k, 8 - main.length = k + 1 := ⟨8 - main.length - 1, by omega⟩
  rw [hk, loop_spaces]
  cases ext with
  | nil => exact absurd rfl hne
  | cons c ext =>
    simp only [List.map_cons, List.cons_append]
    rw [loop_first_char _ _ _ (toupper_ne_space c (hsp2 c (List.mem_cons_self _ _))),
      loop_chars _ _ _ _ _ (by rfl)
        (upper_no_space ext (fun d hd => hsp2 d (List.mem_cons_of_mem _ hd))),
      loop_spaces_end, tolower_toupper c (hlow2 c (List.mem_cons_self _ _)),
      map_tolower_toupper ext (fun d hd => hlow2 d (List.mem_cons_of_mem _ hd))]
    simp

theorem split_at_dot (n : Str) (d : Nat) (h : findDot n = some d) :
    n = n.take d ++ [0x2E] ++ n.drop (d + 1) ∧ d < n.length := by
  unfold findDot at h
  split_ifs at h with hlt
  cases h
  refine ⟨?_, hlt⟩
  have hget : n[List.indexOf 0x2E n] = 0x2E := List.getElem_indexOf hlt
  conv_lhs => rw [← List.take_append_drop (List.indexOf 0x2E n) n]
  rw [List.drop_eq_getElem_cons hlt, hget]
  simp

theorem name_round_trip (n : Str)
    (hchars : invalidNameChar n 0 = none) (hlen : nameLengthError n = none)
    (hlower : ∀ c ∈ n, ¬ (0x41 ≤ c ∧ c ≤ 0x5A))
    (hdot : ∀ d, findDot n = some d → n = [0x2E] ∨ n = [0x2E, 0x2E] ∨ (d < 8 ∧ d + 1 < n.length)) :
    convertFromShortName (convertToShortName n) = n := by
  have hsp : ∀ c ∈ n, c ≠ 0x20 := fun c hc h =>
    not_invalid_of_invalidNameChar n 0 hchars c hc (by rw [h]; decide)
  unfold convertToShortName
  by_cases h1 : n = [0x2E]
  · subst h1; decide
  by_cases h2 : n = [0x2E, 0x2E]
  · subst h2; decide
  rw [if_neg h1, if_neg h2]
  unfold nameLengthError at hlen
  cases hf : findDot n with
  | none =>
    rw [hf] at hlen
    simp only at hlen ⊢
    have : n.length ≤ 11 := by
      by_contra hc
      rw [if_pos (show n.length > 11 by omega)] at hlen
      exact Option.noConfusion hlen
    exact round_trip_no_dot n this hsp hlower
  | some d =>
    rw [hf] at hlen
    simp only at hlen ⊢
    obtain ⟨hsplit, hd⟩ := split_at_dot n d hf
    rcases hdot d hf with h | h | ⟨hd8, hext⟩
    · exact absurd h h1
    · exact absurd h h2
    have hl : ¬ ((n.take d).length > 8 ∨ (n.drop (d + 1)).length > 3) := by
      intro hc
      rw [if_pos hc] at hlen
      exact Option.noConfusion hlen
    have hmem1 : ∀ c ∈ n.take d, c ∈ n := fun c hc => List.mem_of_mem_take hc
    have hmem2 : ∀ c ∈ n.drop (d + 1), c ∈ n := fun c hc => List.mem_of_mem_drop hc
    rw [round_trip_dot (n.take d) (n.drop (d + 1)) (by simp; omega) (by omega)
      (by intro h0; have := congrArg List.length h0; simp at this; omega)
      (fun c hc => hsp c (hmem1 c hc)) (fun c hc => hsp c (hmem2 c hc))
      (fun c hc => hlower c (hmem1 c hc)) (fun c hc => hlower c (hmem2 c hc))]
    exact hsplit.symm

/-! ## FAT entries on a well-formed volume -/

theorem total_cluster_count_eq (s : FileSystem) (hw : WellFormed s)
    (hpos : 0 < total_cluster_count s) :
    total_cluster_count s =
      (s.m_bpb.total_sectors - s.m_first_data_sector) / s.m_bpb.sectors_per_cluster + 2 := by
  have hT : s.m_bpb.total_sectors < 4294967296 :=
    lt_of_le_of_lt (Nat.le_mul_of_pos_right _ hw.bps_pos) hw.addressable
  have hfr := hw.fsinfo_reserved
  have hR : 0 < s.m_bpb.reserved_sector_count := by
    rcases Nat.eq_zero_or_pos s.m_bpb.reserved_sector_count with h | h
    · rw [h] at hfr; omega
    · exact h
  have hc := hw.fat_covers
  have hF : 0 < s.m_bpb.FATSz := by
    rcases Nat.eq_zero_or_pos s.m_bpb.FATSz with h | h
    · rw [h, Nat.zero_mul] at hc; omega
    · exact h
  have hNF : s.m_bpb.FATSz ≤ s.m_bpb.num_FATS * s.m_bpb.FATSz :=
    Nat.le_mul_of_pos_left _ hw.fats_pos
  have hD : 2 ≤ s.m_first_data_sector := by rw [hw.fds_eq]; omega
  have hle := hw.fds_le
  unfold total_cluster_count
  rw [sub32_of_le hw.fds_le hT]
  have : (s.m_bpb.total_sectors - s.m_first_data_sector) / s.m_bpb.sectors_per_cluster ≤
      s.m_bpb.total_sectors - s.m_first_data_sector := Nat.div_le_self _ _
  exact u32_of_lt (by omega)

theorem fds_pos (s : FileSystem) (hw : WellFormed s) : 0 < s.m_first_data_sector := by
  have hfr := hw.fsinfo_reserved
  have hR : 0 < s.m_bpb.reserved_sector_count := by
    rcases Nat.eq_zero_or_pos s.m_bpb.reserved_sector_count with h | h
    · rw [h] at hfr; omega
    · exact h
  rw [hw.fds_eq]; omega

/-- The byte offset where the data region starts. -/
theorem fat_region_le (s : FileSystem) (hw : WellFormed s) :
    (s.m_bpb.reserved_sector_count + s.m_bpb.num_FATS * s.m_bpb.FATSz) * s.m_bpb.bytes_per_sector
      < 4294967296 := by
  have h1 := hw.fds_le
  rw [hw.fds_eq] at h1
  exact lt_of_le_of_lt (Nat.mul_le_mul_right _ h1) hw.addressable

theorem FAT_entry_location_eq (s : FileSystem) (hw : WellFormed s) (x i : Nat)
    (hx : x < total_cluster_count s) (hi : i < s.m_bpb.num_FATS) :
    FAT_entry_location s x i =
        s.m_bpb.reserved_sector_count * s.m_bpb.bytes_per_sector +
          i * (s.m_bpb.FATSz * s.m_bpb.bytes_per_sector) + 4 * x ∧
      s.m_bpb.reserved_sector_count * s.m_bpb.bytes_per_sector +
          i * (s.m_bpb.FATSz * s.m_bpb.bytes_per_sector) + 4 * x + 4 ≤
        s.m_bpb.reserved_sector_count * s.m_bpb.bytes_per_sector +
          (i + 1) * (s.m_bpb.FATSz * s.m_bpb.bytes_per_sector) ∧
      s.m_bpb.reserved_sector_count * s.m_bpb.bytes_per_sector +
          (i + 1) * (s.m_bpb.FATSz * s.m_bpb.bytes_per_sector) ≤
        s.m_first_data_sector * s.m_bpb.bytes_per_sector := by
  have hc := hw.fat_covers
  rw [hw.fds_eq]
  unfold FAT_entry_location getFATSector getFATEntOffset
  exact fat_loc_arith _ _ _ _ x i hw.bps_pos (by omega) hi (fat_region_le s hw)

theorem getFATEntry_loc (s : FileSystem) (x : Nat) :
    getFATEntry s x = FAT_MASK &&& readFromFileSystem s 32 (FAT_entry_location s x 0) 4 := by
  unfold getFATEntry FAT_entry_location
  simp only [Nat.zero_mul]
  have h0 : u32 0 = 0 := rfl
  have h1 : u32 (getFATSector s x + 0) = getFATSector s x := by
    unfold getFATSector u32
    simp
  rw [h0, h1]

theorem getFATEntry_congr (s t : FileSystem) (x : Nat) (hb : t.m_bpb = s.m_bpb)
    (h : ∀ k < 4, byteAt t (FAT_entry_location s x 0 + k) = byteAt s (FAT_entry_location s x 0 + k)) :
    getFATEntry t x = getFATEntry s x := by
  have hl : FAT_entry_location t x 0 = FAT_entry_location s x 0 := by
    unfold FAT_entry_location getFATSector getFATEntOffset
    rw [hb]
  rw [getFATEntry_loc, getFATEntry_loc, hl, readFromFileSystem_32_4, readFromFileSystem_32_4]
  have h0 := h 0 (by decide)
  rw [Nat.add_zero] at h0
  rw [h0, h 1 (by decide), h 2 (by decide), h 3 (by decide)]

theorem fat_word_masked (old v : Nat) :
    FAT_MASK &&& (((old &&& 0xF0000000) ||| (v &&& FAT_MASK)) % 4294967296) = v &&& FAT_MASK := by
  have h1 : (old &&& 0xF0000000) ||| (v &&& FAT_MASK) < 2 ^ 32 :=
    Nat.or_lt_two_pow (Nat.and_lt_two_pow _ (by decide))
      (Nat.and_lt_two_pow _ (by decide))
  rw [Nat.mod_eq_of_lt (by simpa using h1), Nat.and_or_distrib_left]
  have h2 : FAT_MASK &&& (old &&& 0xF0000000) = 0 := by
    rw [Nat.and_comm old, ← Nat.and_assoc]
    have : FAT_MASK &&& 0xF0000000 = 0 := by decide
    rw [this, Nat.zero_and]
  have h3 : FAT_MASK &&& (v &&& FAT_MASK) = v &&& FAT_MASK := by
    rw [Nat.and_comm v, ← Nat.and_assoc, Nat.and_self]
  rw [h2, h3, Nat.zero_or]

theorem word_bytes (w : Nat) :
    w / 256 ^ 0 % 256 + 256 * (w / 256 ^ 1 % 256) + 65536 * (w / 256 ^ 2 % 256) +
      16777216 * (w / 256 ^ 3 % 256) = w % 4294967296 := by
  norm_num
  omega

theorem read32_write32 (s : FileSystem) (w off : Nat) :
    readFromFileSystem (writeToFileSystem s w off 4) 32 off 4 = w % 4294967296 := by
  rw [readFromFileSystem_32_4]
  simp only [byteAt_writeToFileSystem]
  rw [if_pos (by omega), if_pos (by omega), if_pos (by omega), if_pos (by omega)]
  have e0 : off - off = 0 := by omega
  have e1 : off + 1 - off = 1 := by omega
  have e2 : off + 2 - off = 2 := by omega
  have e3 : off + 3 - off = 3 := by omega
  rw [e0, e1, e2, e3]
  exact word_bytes w

/-! ### setFATEntry -/

theorem setFATEntryAt_eq (s : FileSystem) (x v i : Nat) :
    setFATEntryAt s x v i =
      writeToFileSystem s
        ((readFromFileSystem s 32 (FAT_entry_location s x i) 4 &&& 0xF0000000) ||| (v &&& FAT_MASK))
        (FAT_entry_location s x i) 4 := rfl

theorem setFATEntryAt_fields (s : FileSystem) (x v i : Nat) :
    (setFATEntryAt s x v i).m_bpb = s.m_bpb ∧ (setFATEntryAt s x v i).m_fsinfo = s.m_fsinfo ∧
    (setFATEntryAt s x v i).m_open_file_table = s.m_open_file_table ∧
    (setFATEntryAt s x v i).m_bytes_per_cluster = s.m_bytes_per_cluster ∧
    (setFATEntryAt s x v i).m_first_data_sector = s.m_first_data_sector ∧
    (setFATEntryAt s x v i).m_current_directory_cluster = s.m_current_directory_cluster ∧
    (setFATEntryAt s x v i).m_current_directory_name = s.m_current_directory_name := by
  rw [setFATEntryAt_eq]
  simp

theorem setFATEntryLoop_fields (x v n : Nat) (s : FileSystem) :
    (setFATEntryLoop x v n s).m_bpb = s.m_bpb ∧ (setFATEntryLoop x v n s).m_fsinfo = s.m_fsinfo ∧
    (setFATEntryLoop x v n s).m_open_file_table = s.m_open_file_table ∧
    (setFATEntryLoop x v n s).m_bytes_per_cluster = s.m_bytes_per_cluster ∧
    (setFATEntryLoop x v n s).m_first_data_sector = s.m_first_data_sector ∧
    (setFATEntryLoop x v n s).m_current_directory_cluster = s.m_current_directory_cluster ∧
    (setFATEntryLoop x v n s).m_current_directory_name = s.m_current_directory_name := by
  induction n with
  | zero => simp [setFATEntryLoop]
  | succ n ih =>
    rw [setFATEntryLoop]
    have h := setFATEntryAt_fields (setFATEntryLoop x v n s) x v n
    obtain ⟨h1, h2, h3, h4, h5, h6, h7⟩ := h
    obtain ⟨g1, g2, g3, g4, g5, g6, g7⟩ := ih
    exact ⟨h1.trans g1, h2.trans g2, h3.trans g3, h4.trans g4, h5.trans g5, h6.trans g6,
      h7.trans g7⟩

@[simp] theorem setFATEntry_bpb (s : FileSystem) (x v : Nat) :
    (setFATEntry s x v).m_bpb = s.m_bpb := (setFATEntryLoop_fields x v _ s).1
@[simp] theorem setFATEntry_fsinfo (s : FileSystem) (x v : Nat) :
    (setFATEntry s x v).m_fsinfo = s.m_fsinfo := (setFATEntryLoop_fields x v _ s).2.1
@[simp] theorem setFATEntry_table (s : FileSystem) (x v : Nat) :
    (setFATEntry s x v).m_open_file_table = s.m_open_file_table :=
  (setFATEntryLoop_fields x v _ s).2.2.1
@[simp] theorem setFATEntry_bpc (s : FileSystem) (x v : Nat) :
    (setFATEntry s x v).m_bytes_per_cluster = s.m_bytes_per_cluster :=
  (setFATEntryLoop_fields x v _ s).2.2.2.1
@[simp] theorem setFATEntry_fds (s : FileSystem) (x v : Nat) :
    (setFATEntry s x v).m_first_data_sector = s.m_first_data_sector :=
  (setFATEntryLoop_fields x v _ s).2.2.2.2.1
@[simp] theorem setFATEntry_cdc (s : FileSystem) (x v : Nat) :
    (setFATEntry s x v).m_current_directory_cluster = s.m_current_directory_cluster :=
  (setFATEntryLoop_fields x v _ s).2.2.2.2.2.1
@[simp] theorem setFATEntry_cdn (s : FileSystem) (x v : Nat) :
    (setFATEntry s x v).m_current_directory_name = s.m_current_directory_name :=
  (setFATEntryLoop_fields x v _ s).2.2.2.2.2.2

theorem FAT_entry_location_congr (s t : FileSystem) (hb : t.m_bpb = s.m_bpb) (x i : Nat) :
    FAT_entry_location t x i = FAT_entry_location s x i := by
  unfold FAT_entry_location getFATSector getFATEntOffset
  rw [hb]

/-- Bytes outside the entries of `x` in the mirrors `0 .. n-1` are not touched. -/
theorem byteAt_setFATEntryLoop_of_outside (x v n : Nat) (s : FileSystem) (a : Nat)
    (h : ∀ i < n, a < FAT_entry_location s x i ∨ FAT_entry_location s x i + 4 ≤ a) :
    byteAt (setFATEntryLoop x v n s) a = byteAt s a := by
  induction n with
  | zero => rfl
  | succ n ih =>
    rw [setFATEntryLoop, setFATEntryAt_eq]
    rw [FAT_entry_location_congr s _ (setFATEntryLoop_fields x v n s).1]
    rw [byteAt_writeToFileSystem_of_outside _ _ _ _ _ (h n (Nat.lt_succ_self n))]
    exact ih (fun i hi => h i (Nat.lt_succ_of_lt hi))

/-- After `setFATEntry` the entry of `x` reads as the low 28 bits of `v`. -/
theorem getFATEntry_setFATEntry_same (s : FileSystem) (hw : WellFormed s) (x v : Nat)
    (hx : x < total_cluster_count s) :
    getFATEntry (setFATEntry s x v) x = v &&& FAT_MASK := by
  unfold setFATEntry
  have key : ∀ n, 0 < n → n ≤ s.m_bpb.num_FATS →
      getFATEntry (setFATEntryLoop x v n s) x = v &&& FAT_MASK := by
    intro n
    induction n with
    | zero => intro h; omega
    | succ n ih =>
      intro _ hn
      rcases Nat.eq_zero_or_pos n with h0 | hpos
      · subst h0
        rw [setFATEntryLoop, setFATEntryLoop, getFATEntry_loc, setFATEntryAt_eq]
        rw [FAT_entry_location_congr s (writeToFileSystem s _ _ _) (writeToFileSystem_bpb _ _ _ _),
          read32_write32]
        exact fat_word_masked _ _
      · rw [setFATEntryLoop]
        rw [getFATEntry_congr (setFATEntryLoop x v n s) _ x (setFATEntryAt_fields _ x v n).1]
        · exact ih hpos (by omega)
        · intro k hk
          unfold setFATEntryAt
          rw [FAT_entry_location_congr s _ (setFATEntryLoop_fields x v n s).1,
            FAT_entry_location_congr s _ (setFATEntryLoop_fields x v n s).1]
          apply byteAt_writeToFileSystem_of_outside
          obtain ⟨e0, b0, _⟩ := FAT_entry_location_eq s hw x 0 hx hw.fats_pos
          obtain ⟨en, _, _⟩ := FAT_entry_location_eq s hw x n hx (by omega)
          rw [e0, en]
          have : s.m_bpb.FATSz * s.m_bpb.bytes_per_sector ≤
              n * (s.m_bpb.FATSz * s.m_bpb.bytes_per_sector) := Nat.le_mul_of_pos_left _ hpos
          left
          simp only [Nat.zero_mul, Nat.add_zero, Nat.zero_add, Nat.one_mul] at b0 ⊢
          omega
  exact key _ hw.fats_pos (le_refl _)

/-! ### setFreeClusterCount -/

@[simp] theorem setFreeClusterCount_count (s : FileSystem) (cnt : Nat) :
    (setFreeClusterCount s cnt).m_fsinfo.free_cluster_count = cnt := by
  unfold setFreeClusterCount; simp
@[simp] theorem setFreeClusterCount_bpb (s : FileSystem) (cnt : Nat) :
    (setFreeClusterCount s cnt).m_bpb = s.m_bpb := by
  unfold setFreeClusterCount; simp
@[simp] theorem setFreeClusterCount_table (s : FileSystem) (cnt : Nat) :
    (setFreeClusterCount s cnt).m_open_file_table = s.m_open_file_table := by
  unfold setFreeClusterCount; simp
@[simp] theorem setFreeClusterCount_bpc (s : FileSystem) (cnt : Nat) :
    (setFreeClusterCount s cnt).m_bytes_per_cluster = s.m_bytes_per_cluster := by
  unfold setFreeClusterCount; simp
@[simp] theorem setFreeClusterCount_fds (s : FileSystem) (cnt : Nat) :
    (setFreeClusterCount s cnt).m_first_data_sector = s.m_first_data_sector := by
  unfold setFreeClusterCount; simp
@[simp] theorem setFreeClusterCount_cdc (s : FileSystem) (cnt : Nat) :
    (setFreeClusterCount s cnt).m_current_directory_cluster = s.m_current_directory_cluster := by
  unfold setFreeClusterCount; simp
@[simp] theorem setFreeClusterCount_cdn (s : FileSystem) (cnt : Nat) :
    (setFreeClusterCount s cnt).m_current_directory_name = s.m_current_directory_name := by
  unfold setFreeClusterCount; simp

theorem byteAt_setFreeClusterCount_of_outside (s : FileSystem) (cnt a : Nat)
    (h : a < s.m_bpb.fsinfo * s.m_bpb.bytes_per_sector + 488 ∨
      s.m_bpb.fsinfo * s.m_bpb.bytes_per_sector + 492 ≤ a) :
    byteAt (setFreeClusterCount s cnt) a = byteAt s a := by
  unfold setFreeClusterCount
  exact byteAt_writeToFileSystem_of_outside _ cnt
    (s.m_bpb.fsinfo * s.m_bpb.bytes_per_sector + 488) 4 a (by omega)

/-! ### writeDirectoryEntry -/

theorem writeNameBytes_fields (short : Str) (loc n : Nat) (s : FileSystem) :
    (writeNameBytes short loc n s).m_bpb = s.m_bpb ∧
    (writeNameBytes short loc n s).m_fsinfo = s.m_fsinfo ∧
    (writeNameBytes short loc n s).m_open_file_table = s.m_open_file_table ∧
    (writeNameBytes short loc n s).m_bytes_per_cluster = s.m_bytes_per_cluster ∧
    (writeNameBytes short loc n s).m_first_data_sector = s.m_first_data_sector ∧
    (writeNameBytes short loc n s).m_current_directory_cluster = s.m_current_directory_cluster ∧
    (writeNameBytes short loc n s).m_current_directory_name = s.m_current_directory_name := by
  induction n with
  | zero => simp [writeNameBytes]
  | succ n ih =>
    rw [writeNameBytes]
    simpa using ih

theorem writeDirectoryEntry_fields (s : FileSystem) (e : DirectoryEntry) :
    (writeDirectoryEntry s e).m_bpb = s.m_bpb ∧
    (writeDirectoryEntry s e).m_fsinfo = s.m_fsinfo ∧
    (writeDirectoryEntry s e).m_open_file_table = s.m_open_file_table ∧
    (writeDirectoryEntry s e).m_bytes_per_cluster = s.m_bytes_per_cluster ∧
    (writeDirectoryEntry s e).m_first_data_sector = s.m_first_data_sector ∧
    (writeDirectoryEntry s e).m_current_directory_cluster = s.m_current_directory_cluster ∧
    (writeDirectoryEntry s e).m_current_directory_name = s.m_current_directory_name := by
  unfold writeDirectoryEntry
  simpa using writeNameBytes_fields (convertToShortName e.name) e.mem_location 11 s

@[simp] theorem writeDirectoryEntry_bpb (s : FileSystem) (e : DirectoryEntry) :
    (writeDirectoryEntry s e).m_bpb = s.m_bpb := (writeDirectoryEntry_fields s e).1
@[simp] theorem writeDirectoryEntry_fsinfo (s : FileSystem) (e : DirectoryEntry) :
    (writeDirectoryEntry s e).m_fsinfo = s.m_fsinfo := (writeDirectoryEntry_fields s e).2.1
@[simp] theorem writeDirectoryEntry_table (s : FileSystem) (e : DirectoryEntry) :
    (writeDirectoryEntry s e).m_open_file_table = s.m_open_file_table :=
  (writeDirectoryEntry_fields s e).2.2.1
@[simp] theorem writeDirectoryEntry_bpc (s : FileSystem) (e : DirectoryEntry) :
    (writeDirectoryEntry s e).m_bytes_per_cluster = s.m_bytes_per_cluster :=
  (writeDirectoryEntry_fields s e).2.2.2.1
@[simp] theorem writeDirectoryEntry_fds (s : FileSystem) (e : DirectoryEntry) :
    (writeDirectoryEntry s e).m_first_data_sector = s.m_first_data_sector :=
  (writeDirectoryEntry_fields s e).2.2.2.2.1
@[simp] theorem writeDirectoryEntry_cdc (s : FileSystem) (e : DirectoryEntry) :
    (writeDirectoryEntry s e).m_current_directory_cluster = s.m_current_directory_cluster :=
  (writeDirectoryEntry_fields s e).2.2.2.2.2.1
@[simp] theorem writeDirectoryEntry_cdn (s : FileSystem) (e : DirectoryEntry) :
    (writeDirectoryEntry s e).m_current_directory_name = s.m_current_directory_name :=
  (writeDirectoryEntry_fields s e).2.2.2.2.2.2

theorem byteAt_writeNameBytes (short : Str) (loc n : Nat) (s : FileSystem) (a : Nat)
    (hloc : loc + n ≤ 4294967296) :
    byteAt (writeNameBytes short loc n s) a =
      if loc ≤ a ∧ a < loc + n then short.getD (a - loc) 0 % 256 else byteAt s a := by
  induction n with
  | zero => rw [writeNameBytes, if_neg (by omega)]
  | succ n ih =>
    rw [writeNameBytes, byteAt_writeToFileSystem, u32_of_lt (by omega), ih (by omega)]
    by_cases h1 : a = loc + n
    · subst h1
      rw [if_pos (by omega), if_pos (by omega)]
      have e1 : loc + n - (loc + n) = 0 := by omega
      have e2 : loc + n - loc = n := by omega
      rw [e1, e2]
      simp
    · rw [if_neg (by omega)]
      by_cases h2 : loc ≤ a ∧ a < loc + n
      · rw [if_pos h2, if_pos (by omega)]
      · rw [if_neg h2, if_neg (by omega)]

/-- The bytes of the image after `writeDirectoryEntry`, for an entry whose 32 bytes lie
below 2^32: a cascade over the fields in the order opposite to the stores. -/
theorem byteAt_writeDirectoryEntry (s : FileSystem) (e : DirectoryEntry) (a : Nat)
    (hloc : e.mem_location + 32 ≤ 4294967296) :
    byteAt (writeDirectoryEntry s e) a =
      if e.mem_location + 28 ≤ a ∧ a < e.mem_location + 28 + 4 then
        e.size / 256 ^ (a - (e.mem_location + 28)) % 256
      else if e.mem_location + 26 ≤ a ∧ a < e.mem_location + 26 + 2 then
        u16 (e.cluster &&& 0x0000FFFF) / 256 ^ (a - (e.mem_location + 26)) % 256
      else if e.mem_location + 24 ≤ a ∧ a < e.mem_location + 24 + 2 then
        e.write_date / 256 ^ (a - (e.mem_location + 24)) % 256
      else if e.mem_location + 22 ≤ a ∧ a < e.mem_location + 22 + 2 then
        e.write_time / 256 ^ (a - (e.mem_location + 22)) % 256
      else if e.mem_location + 20 ≤ a ∧ a < e.mem_location + 20 + 2 then
        u16 ((e.cluster &&& 0xFFFF0000) >>> 4) / 256 ^ (a - (e.mem_location + 20)) % 256
      else if e.mem_location + 18 ≤ a ∧ a < e.mem_location + 18 + 2 then
        0 / 256 ^ (a - (e.mem_location + 18)) % 256
      else if e.mem_location + 16 ≤ a ∧ a < e.mem_location + 16 + 2 then
        0 / 256 ^ (a - (e.mem_location + 16)) % 256
      else if e.mem_location + 14 ≤ a ∧ a < e.mem_location + 14 + 2 then
        0 / 256 ^ (a - (e.mem_location + 14)) % 256
      else if e.mem_location + 13 ≤ a ∧ a < e.mem_location + 13 + 1 then
        0 / 256 ^ (a - (e.mem_location + 13)) % 256
      else if e.mem_location + 11 ≤ a ∧ a < e.mem_location + 11 + 1 then
        e.attr / 256 ^ (a - (e.mem_location + 11)) % 256
      else if e.mem_location ≤ a ∧ a < e.mem_location + 11 then
        (convertToShortName e.name).getD (a - e.mem_location) 0 % 256
      else byteAt s a := by
  unfold writeDirectoryEntry
  simp only [byteAt_writeToFileSystem, byteAt_writeNameBytes _ _ 11 _ _ (show e.mem_location + 11 ≤ 4294967296 by omega)]
  rw [u32_of_lt (show e.mem_location + 28 < 4294967296 by omega),
    u32_of_lt (show e.mem_location + 26 < 4294967296 by omega),
    u32_of_lt (show e.mem_location + 24 < 4294967296 by omega),
    u32_of_lt (show e.mem_location + 22 < 4294967296 by omega),
    u32_of_lt (show e.mem_location + 20 < 4294967296 by omega),
    u32_of_lt (show e.mem_location + 18 < 4294967296 by omega),
    u32_of_lt (show e.mem_location + 16 < 4294967296 by omega),
    u32_of_lt (show e.mem_location + 14 < 4294967296 by omega),
    u32_of_lt (show e.mem_location + 13 < 4294967296 by omega),
    u32_of_lt (show e.mem_location + 11 < 4294967296 by omega)]

theorem byteAt_writeDirectoryEntry_of_outside (s : FileSystem) (e : DirectoryEntry) (a : Nat)
    (hloc : e.mem_location + 32 ≤ 4294967296)
    (h : a < e.mem_location ∨ e.mem_location + 32 ≤ a) :
    byteAt (writeDirectoryEntry s e) a = byteAt s a := by
  rw [byteAt_writeDirectoryEntry s e a hloc]
  repeat rw [if_neg (by omega)]

/-! ### readDirectoryEntry -/

theorem readNameBytes_eq (s : FileSystem) (a : Nat) :
    readNameBytes s a =
      ((List.range 11).map (fun j => byteAt s (a + j))).filter
        (fun character => isspace character || ispunct character || isalnum character) := by
  unfold readNameBytes
  simp only [readFromFileSystem_8_1]

theorem readDirectoryEntry_eq (s : FileSystem) (a : Nat) (ha : a + 32 ≤ 4294967296) :
    readDirectoryEntry s a =
      { name := convertFromShortName (readNameBytes s a)
        attr := byteAt s (a + 11)
        write_time := 0
        write_date := 0
        cluster := formCluster (byteAt s (a + 20) + 256 * byteAt s (a + 21))
          (byteAt s (a + 26) + 256 * byteAt s (a + 27))
        size := byteAt s (a + 28) + 256 * byteAt s (a + 29) + 65536 * byteAt s (a + 30) +
          16777216 * byteAt s (a + 31)
        mem_location := a } := by
  unfold readDirectoryEntry
  rw [u32_of_lt (show a + 20 < 4294967296 by omega), u32_of_lt (show a + 26 < 4294967296 by omega),
    u32_of_lt (show a + 11 < 4294967296 by omega), u32_of_lt (show a + 28 < 4294967296 by omega)]
  simp only [readFromFileSystem_8_1, readFromFileSystem_16_2, readFromFileSystem_32_4,
    Nat.add_assoc]

theorem readDirectoryEntry_congr (s t : FileSystem) (a : Nat) (ha : a + 32 ≤ 4294967296)
    (h : ∀ k < 32, byteAt t (a + k) = byteAt s (a + k)) :
    readDirectoryEntry t a = readDirectoryEntry s a := by
  have hn : readNameBytes t a = readNameBytes s a := by
    rw [readNameBytes_eq, readNameBytes_eq]
    congr 1
    apply List.map_congr_left
    intro j hj
    exact h j (by have := List.mem_range.mp hj; omega)
  rw [readDirectoryEntry_eq _ _ ha, readDirectoryEntry_eq _ _ ha, hn, h 11 (by decide),
    h 20 (by decide),
    h 21 (by decide), h 26 (by decide), h 27 (by decide), h 28 (by decide), h 29 (by decide),
    h 30 (by decide), h 31 (by decide)]

theorem keptByte_lt (c : Nat) (h : keptByte c = true) : c < 128 := by
  unfold keptByte isspace ispunct isalnum at h
  simp only [Bool.or_eq_true, Bool.and_eq_true, decide_eq_true_eq, beq_iff_eq] at h
  omega

theorem keptByte_toupper (c : Nat) (h : keptByte c = true) : keptByte (toupper c) = true := by
  unfold keptByte isspace ispunct isalnum toupper at *
  simp only [Bool.or_eq_true, Bool.and_eq_true, decide_eq_true_eq, beq_iff_eq] at h ⊢
  split_ifs <;> omega

theorem convertToShortName_length (n : Str) : (convertToShortName n).length = 11 := by
  unfold convertToShortName padUpper
  split_ifs
  · rfl
  · rfl
  · cases findDot n <;> simp

theorem mem_padUpper (k : Nat) (str : Str) (c : Nat) (h : c ∈ padUpper k str) :
    c = 0x20 ∨ ∃ d ∈ str, c = toupper d := by
  unfold padUpper at h
  rcases List.mem_map.mp h with ⟨i, _, hi⟩
  split_ifs at hi with hlt
  · right
    refine ⟨str.getD i 0, ?_, hi.symm⟩
    rw [List.getD_eq_getElem _ _ hlt]
    exact List.getElem_mem _
  · left; exact hi.symm

theorem mem_convertToShortName (n : Str) (c : Nat) (h : c ∈ convertToShortName n) :
    c = 0x20 ∨ c = 0x2E ∨ ∃ d ∈ n, c = toupper d := by
  unfold convertToShortName at h
  split_ifs at h with h1 h2
  · simp only [List.mem_cons, List.mem_replicate] at h
    rcases h with h | h
    · exact Or.inr (Or.inl h)
    · exact Or.inl h.2
  · simp only [List.mem_cons, List.mem_replicate] at h
    rcases h with h | h | h
    · exact Or.inr (Or.inl h)
    · exact Or.inr (Or.inl h)
    · exact Or.inl h.2
  · cases hf : findDot n with
    | none =>
      rw [hf] at h
      rcases mem_padUpper _ _ _ h with h | ⟨d, hd, hc⟩
      · exact Or.inl h
      · exact Or.inr (Or.inr ⟨d, hd, hc⟩)
    | some dl =>
      rw [hf] at h
      rcases List.mem_append.mp h with h | h
      · rcases mem_padUpper _ _ _ h with h | ⟨d, hd, hc⟩
        · exact Or.inl h
        · exact Or.inr (Or.inr ⟨d, List.mem_of_mem_take hd, hc⟩)
      · rcases mem_padUpper _ _ _ h with h | ⟨d, hd, hc⟩
        · exact Or.inl h
        · exact Or.inr (Or.inr ⟨d, List.mem_of_mem_drop hd, hc⟩)

theorem keptByte_convertToShortName (n : Str) (hk : ∀ c ∈ n, keptByte c = true) :
    ∀ c ∈ convertToShortName n, keptByte c = true := by
  intro c hc
  rcases mem_convertToShortName n c hc with h | h | ⟨d, hd, h⟩
  · subst h; decide
  · subst h; decide
  · subst h; exact keptByte_toupper d (hk d hd)

theorem map_getD_range (l : Str) (k : Nat) (hl : l.length = k) (hb : ∀ c ∈ l, c < 256) :
    (List.range k).map (fun j => l.getD j 0 % 256) = l := by
  apply List.ext_getElem
  · simp [hl]
  · intro i h1 h2
    simp only [List.getElem_map, List.getElem_range]
    rw [List.getD_eq_getElem _ _ h2]
    exact Nat.mod_eq_of_lt (hb _ (List.getElem_mem _))

/-- The name bytes read back after `writeDirectoryEntry` are the short name, when every
byte of the name is one the filter keeps. -/
theorem readNameBytes_writeDirectoryEntry (s : FileSystem) (e : DirectoryEntry)
    (hloc : e.mem_location + 32 ≤ 4294967296) (hk : ∀ c ∈ e.name, keptByte c = true) :
    readNameBytes (writeDirectoryEntry s e) e.mem_location = convertToShortName e.name := by
  have hkept := keptByte_convertToShortName e.name hk
  rw [readNameBytes_eq]
  have hm : (List.range 11).map (fun j => byteAt (writeDirectoryEntry s e) (e.mem_location + j)) =
      (List.range 11).map (fun j => (convertToShortName e.name).getD j 0 % 256) := by
    apply List.map_congr_left
    intro j hj
    have hj' := List.mem_range.mp hj
    rw [byteAt_writeDirectoryEntry s e _ hloc]
    repeat rw [if_neg (by omega)]
    rw [if_pos (by omega)]
    have : e.mem_location + j - e.mem_location = j := by omega
    rw [this]
  rw [hm, map_getD_range _ 11 (convertToShortName_length _)
    (fun c hc => by have := keptByte_lt c (hkept c hc); omega)]
  exact List.filter_eq_self.mpr (fun c hc => hkept c hc)

theorem and_high_zero (c : Nat) (h : c < 65536) : c &&& 0xFFFF0000 = 0 := by
  have h1 : c &&& 0xFFFF0000 < 2 ^ 16 := lt_of_le_of_lt Nat.and_le_left (by simpa using h)
  have h2 : (c &&& 0xFFFF0000) &&& (2 ^ 16 - 1) = 0 := by
    rw [Nat.and_assoc]
    have : (0xFFFF0000 : Nat) &&& (2 ^ 16 - 1) = 0 := by decide
    rw [this, Nat.and_zero]
  rw [Nat.and_pow_two_sub_one_eq_mod, Nat.mod_eq_of_lt h1] at h2
  exact h2

theorem and_low (c : Nat) (h : c < 65536) : c &&& 0x0000FFFF = c := by
  have : c &&& (2 ^ 16 - 1) = c % 2 ^ 16 := Nat.and_pow_two_sub_one_eq_mod c 16
  have h2 : c % 2 ^ 16 = c := Nat.mod_eq_of_lt (by simpa using h)
  rw [h2] at this
  exact this

/-- The fields read back from the slot just written, for a cluster below 65536. -/
theorem readDirectoryEntry_writeDirectoryEntry (s : FileSystem) (e : DirectoryEntry)
    (hloc : e.mem_location + 32 ≤ 4294967296) (hk : ∀ c ∈ e.name, keptByte c = true)
    (hc : e.cluster < 65536) :
    (readDirectoryEntry (writeDirectoryEntry s e) e.mem_location).name =
        convertFromShortName (convertToShortName e.name) ∧
      (readDirectoryEntry (writeDirectoryEntry s e) e.mem_location).attr = e.attr % 256 ∧
      (readDirectoryEntry (writeDirectoryEntry s e) e.mem_location).cluster = e.cluster := by
  rw [readDirectoryEntry_eq _ _ hloc]
  refine ⟨?_, ?_, ?_⟩
  · show convertFromShortName (readNameBytes _ _) = _
    rw [readNameBytes_writeDirectoryEntry s e hloc hk]
  · show byteAt _ _ = _
    rw [byteAt_writeDirectoryEntry s e _ hloc]
    repeat rw [if_neg (by omega)]
    rw [if_pos (by omega)]
    have : e.mem_location + 11 - (e.mem_location + 11) = 0 := by omega
    rw [this]; simp
  · show formCluster _ _ = _
    have b20 : byteAt (writeDirectoryEntry s e) (e.mem_location + 20) = 0 := by
      rw [byteAt_writeDirectoryEntry s e _ hloc]
      repeat rw [if_neg (by omega)]
      rw [if_pos (by omega), and_high_zero _ hc]
      simp [u16]
    have b21 : byteAt (writeDirectoryEntry s e) (e.mem_location + 21) = 0 := by
      rw [byteAt_writeDirectoryEntry s e _ hloc]
      repeat rw [if_neg (by omega)]
      rw [if_pos (by omega), and_high_zero _ hc]
      simp [u16]
    have b26 : byteAt (writeDirectoryEntry s e) (e.mem_location + 26) = e.cluster % 256 := by
      rw [byteAt_writeDirectoryEntry s e _ hloc]
      repeat rw [if_neg (by omega)]
      rw [if_pos (by omega), and_low _ hc]
      have : e.mem_location + 26 - (e.mem_location + 26) = 0 := by omega
      rw [this, u16, Nat.mod_eq_of_lt hc]; simp
    have b27 : byteAt (writeDirectoryEntry s e) (e.mem_location + 27) = e.cluster / 256 % 256 := by
      rw [byteAt_writeDirectoryEntry s e _ hloc]
      repeat rw [if_neg (by omega)]
      rw [if_pos (by omega), and_low _ hc]
      have : e.mem_location + 27 - (e.mem_location + 26) = 1 := by omega
      rw [this, u16, Nat.mod_eq_of_lt hc]; simp
    rw [b20, b21, b26, b27]
    unfold formCluster u32
    simp only [Nat.mul_zero, Nat.add_zero, Nat.zero_shiftLeft, Nat.or_zero]
    omega

/-! ### Cluster chains and directory listings -/

theorem getClusterChain_fuel_pos (fuel : Nat) (s : FileSystem) (c : Nat) (chain : List Nat)
    (h : getClusterChain fuel s c = some chain) : 0 < fuel := by
  cases fuel with
  | zero => simp [getClusterChain] at h
  | succ n => exact Nat.succ_pos n

theorem getClusterChain_congr (fuel : Nat) (s t : FileSystem) (c : Nat) (chain : List Nat)
    (h : getClusterChain fuel s c = some chain)
    (hf : ∀ x ∈ chain, getFATEntry t x = getFATEntry s x) :
    getClusterChain fuel t c = some chain := by
  induction fuel generalizing c chain with
  | zero => simp [getClusterChain] at h
  | succ fuel ih =>
    rw [getClusterChain] at h ⊢
    by_cases hlt : getFATEntry s c < EOC
    · simp only [hlt, if_true] at h
      cases hr : getClusterChain fuel s (getFATEntry s c) with
      | none => rw [hr] at h; simp at h
      | some rest =>
        rw [hr] at h
        simp only [Option.map_some', Option.some.injEq] at h
        subst h
        have hc : getFATEntry t c = getFATEntry s c := hf c (List.mem_cons_self _ _)
        rw [hc, if_pos hlt, ih _ rest hr (fun x hx => hf x (List.mem_cons_of_mem _ hx))]
        rfl
    · simp only [hlt, if_false, Option.some.injEq] at h
      subst h
      have hc : getFATEntry t c = getFATEntry s c := hf c (List.mem_cons_self _ _)
      rw [hc, if_neg hlt]

theorem getClusterChain_fat (fuel : Nat) (s : FileSystem) (c : Nat) (chain : List Nat)
    (h : getClusterChain fuel s c = some chain) :
    ∀ x ∈ chain, EOC ≤ getFATEntry s x ∨ getFATEntry s x ∈ chain := by
  induction fuel generalizing c chain with
  | zero => simp [getClusterChain] at h
  | succ fuel ih =>
    rw [getClusterChain] at h
    by_cases hlt : getFATEntry s c < EOC
    · simp only [hlt, if_true] at h
      cases hr : getClusterChain fuel s (getFATEntry s c) with
      | none => rw [hr] at h; simp at h
      | some rest =>
        rw [hr] at h
        simp only [Option.map_some', Option.some.injEq] at h
        subst h
        have hhead : getFATEntry s c ∈ rest := by
          cases fuel with
          | zero => simp [getClusterChain] at hr
          | succ f =>
            rw [getClusterChain] at hr
            split_ifs at hr
            · cases hr2 : getClusterChain f s (getFATEntry s (getFATEntry s c)) with
              | none => rw [hr2] at hr; simp at hr
              | some r2 =>
                rw [hr2] at hr
                simp only [Option.map_some', Option.some.injEq] at hr
                rw [← hr]; exact List.mem_cons_self _ _
            · simp only [Option.some.injEq] at hr
              rw [← hr]; exact List.mem_cons_self _ _
        intro x hx
        rcases List.mem_cons.mp hx with rfl | hx
        · exact Or.inr (List.mem_cons_of_mem _ hhead)
        · rcases ih _ rest hr x hx with h1 | h1
          · exact Or.inl h1
          · exact Or.inr (List.mem_cons_of_mem _ h1)
    · simp only [hlt, if_false, Option.some.injEq] at h
      subst h
      intro x hx
      rw [List.mem_singleton] at hx
      subst hx
      exact Or.inl (by omega)

theorem getClusterChain_single (fuel : Nat) (s : FileSystem) (c : Nat) (hf : 0 < fuel)
    (h : EOC ≤ getFATEntry s c) : getClusterChain fuel s c = some [c] := by
  cases fuel with
  | zero => omega
  | succ n =>
    rw [getClusterChain]
    simp only [show ¬ getFATEntry s c < EOC by omega, if_false]

theorem foldl_push_front {α β : Type} (f : α → β) (p : β → Bool) (l : List α) (acc : List β) :
    l.foldl (fun acc i => if p (f i) then f i :: acc else acc) acc =
      (l.reverse.map f).filter p ++ acc := by
  induction l generalizing acc with
  | nil => simp
  | cons a l ih =>
    rw [List.foldl_cons, ih]
    by_cases hp : p (f a) = true
    · simp [hp, List.filter_append]
    · simp [hp, List.filter_append]

theorem clusterEntryList_eq (s : FileSystem) (x : Nat) :
    clusterEntryList s x =
      ((slotOffsets s).reverse.map
        (fun i => readDirectoryEntry s (u32 (clusterOffset s x + i)))).filter listed := by
  unfold clusterEntryList
  have h := foldl_push_front (fun i => readDirectoryEntry s (u32 (clusterOffset s x + i))) listed
    (slotOffsets s) []
  rw [List.append_nil] at h
  exact h

theorem getDirectoryEntries_of_chain (fuel : Nat) (s : FileSystem) (c : Nat) (chain : List Nat)
    (h : getClusterChain fuel s c = some chain) :
    getDirectoryEntries fuel s c = some ((chain.map (clusterEntryList s)).flatten) := by
  induction fuel generalizing c chain with
  | zero => simp [getClusterChain] at h
  | succ fuel ih =>
    rw [getClusterChain] at h
    rw [getDirectoryEntries]
    by_cases hlt : getFATEntry s c < EOC
    · simp only [hlt, if_true] at h ⊢
      cases hr : getClusterChain fuel s (getFATEntry s c) with
      | none => rw [hr] at h; simp at h
      | some rest =>
        rw [hr] at h
        simp only [Option.map_some', Option.some.injEq] at h
        subst h
        rw [ih _ rest hr]
        simp
    · simp only [hlt, if_false, Option.some.injEq] at h ⊢
      subst h
      simp

theorem flatten_map_filter {α : Type} (p : α → Bool) (ls : List (List α)) :
    (ls.map (fun l => l.filter p)).flatten = ls.flatten.filter p := by
  induction ls with
  | nil => rfl
  | cons l ls ih =>
    show l.filter p ++ (ls.map (fun l => l.filter p)).flatten = (l ++ ls.flatten).filter p
    rw [List.filter_append, ih]

theorem flatten_map_map {α β : Type} (f : α → β) (ls : List (List α)) :
    (ls.map (fun l => l.map f)).flatten = ls.flatten.map f := by
  induction ls with
  | nil => rfl
  | cons l ls ih =>
    show l.map f ++ (ls.map (fun l => l.map f)).flatten = (l ++ ls.flatten).map f
    rw [List.map_append, ih]

/-- The listing of a directory: the listed entries among the decoded slots, in the order
of the slot addresses. -/
theorem getDirectoryEntries_eq (fuel : Nat) (s : FileSystem) (c : Nat) (chain : List Nat)
    (h : getClusterChain fuel s c = some chain) :
    getDirectoryEntries fuel s c =
      some (((slotAddrs s chain).map (readDirectoryEntry s)).filter listed) := by
  rw [getDirectoryEntries_of_chain fuel s c chain h]
  congr 1
  unfold slotAddrs
  rw [← flatten_map_map, ← flatten_map_filter]
  simp only [List.map_map]
  congr 1
  apply List.map_congr_left
  intro x _
  simp only [Function.comp]
  rw [clusterEntryList_eq, List.map_map]
  rfl

theorem slotAddrs_congr (s t : FileSystem) (hg : SameGeometry s t) (chain : List Nat) :
    slotAddrs t chain = slotAddrs s chain := by
  obtain ⟨h1, h2, h3, _, _⟩ := hg
  unfold slotAddrs slotOffsets clusterOffset getFirstDataSector
  rw [h1, h2, h3]

theorem findFreeSlot_inner (s : FileSystem) (sector : Nat) (l : List Nat) (found : Option Nat)
    (loc : Nat)
    (h : l.foldl
      (fun found i =>
        if isFreeEntry (readDirectoryEntry s (u32 (sector + i))) then some (u32 (sector + i))
        else found) found = some loc) :
    found = some loc ∨
      (∃ i ∈ l, loc = u32 (sector + i) ∧ isFreeEntry (readDirectoryEntry s loc) = true) := by
  induction l generalizing found with
  | nil => left; simpa using h
  | cons a l ih =>
    rw [List.foldl_cons] at h
    rcases ih _ h with h1 | ⟨i, hi, h2⟩
    · by_cases hfree : isFreeEntry (readDirectoryEntry s (u32 (sector + a))) = true
      · rw [if_pos hfree] at h1
        simp only [Option.some.injEq] at h1
        right
        exact ⟨a, List.mem_cons_self _ _, h1.symm, by rw [← h1]; exact hfree⟩
      · rw [if_neg hfree] at h1
        left; exact h1
    · right
      exact ⟨i, List.mem_cons_of_mem _ hi, h2⟩

theorem findFreeSlot_outer (s : FileSystem) (chain : List Nat) (found : Option Nat) (loc : Nat)
    (h : chain.foldl
      (fun found c =>
        let sector := u32 (getFirstDataSector s c * s.m_bpb.bytes_per_sector)
        (slotOffsets s).foldl
          (fun found i =>
            if isFreeEntry (readDirectoryEntry s (u32 (sector + i))) then some (u32 (sector + i))
            else found)
          found) found = some loc) :
    found = some loc ∨
      (∃ x ∈ chain, ∃ i ∈ slotOffsets s, loc = u32 (clusterOffset s x + i) ∧
        isFreeEntry (readDirectoryEntry s loc) = true) := by
  induction chain generalizing found with
  | nil => left; simpa using h
  | cons c chain ih =>
    rw [List.foldl_cons] at h
    rcases ih _ h with h1 | ⟨x, hx, i, hi, h2⟩
    · rcases findFreeSlot_inner s _ _ _ _ h1 with h3 | ⟨i, hi, h3⟩
      · left; exact h3
      · right
        exact ⟨c, List.mem_cons_self _ _, i, hi, h3⟩
    · right
      exact ⟨x, List.mem_cons_of_mem _ hx, i, hi, h2⟩

theorem findFreeSlot_spec (s : FileSystem) (chain : List Nat) (loc : Nat)
    (h : findFreeSlot s chain = some loc) :
    ∃ x ∈ chain, ∃ i ∈ slotOffsets s, loc = u32 (clusterOffset s x + i) ∧
      isFreeEntry (readDirectoryEntry s loc) = true := by
  rcases findFreeSlot_outer s chain none loc h with h1 | h1
  · cases h1
  · exact h1

theorem mem_slotAddrs (s : FileSystem) (chain : List Nat) (a : Nat) :
    a ∈ slotAddrs s chain ↔
      ∃ x ∈ chain, ∃ i ∈ slotOffsets s, a = u32 (clusterOffset s x + i) := by
  unfold slotAddrs
  simp only [List.mem_flatten, List.mem_map, List.mem_reverse]
  constructor
  · rintro ⟨l, ⟨x, hx, rfl⟩, hl⟩
    simp only [List.mem_map, List.mem_reverse] at hl
    obtain ⟨i, hi, rfl⟩ := hl
    exact ⟨x, hx, i, hi, rfl⟩
  · rintro ⟨x, hx, i, hi, rfl⟩
    exact ⟨_, ⟨x, hx, rfl⟩, by simp only [List.mem_map, List.mem_reverse]; exact ⟨i, hi, rfl⟩⟩

theorem find_filter_map {α β : Type} (f : α → β) (q p : β → Bool) (l : List α) (loc : α)
    (hmem : loc ∈ l) (hq : q (f loc) = true) (hp : p (f loc) = true)
    (hother : ∀ a ∈ l, a ≠ loc → ¬ (q (f a) = true ∧ p (f a) = true)) :
    ((l.map f).filter q).find? p = some (f loc) := by
  induction l with
  | nil => cases hmem
  | cons a l ih =>
    by_cases ha : a = loc
    · subst ha
      simp [List.filter_cons, hq, List.find?_cons, hp]
    · have hmem' : loc ∈ l := by
        rcases List.mem_cons.mp hmem with h | h
        · exact absurd h.symm ha
        · exact h
      have ih' := ih hmem' (fun b hb => hother b (List.mem_cons_of_mem _ hb))
      have hno := hother a (List.mem_cons_self _ _) ha
      rw [List.map_cons, List.filter_cons]
      by_cases hqa : q (f a) = true
      · rw [if_pos hqa, List.find?_cons]
        have hpa : p (f a) = false := by
          cases hpa : p (f a)
          · rfl
          · exact absurd ⟨hqa, hpa⟩ hno
        rw [hpa]
        exact ih'
      · rw [if_neg hqa]
        exact ih'

/-! ### Slot addresses on a well-formed volume -/

theorem mem_slotOffsets (s : FileSystem) (i : Nat) (h : i ∈ slotOffsets s) :
    ∃ k, i + 32 * (k + 1) = s.m_bytes_per_cluster := by
  unfold slotOffsets DIR_ENTRY_SIZE at h
  rcases List.mem_map.mp h with ⟨k, hk, rfl⟩
  have hk' := List.mem_range.mp hk
  refine ⟨k, ?_⟩
  have : 32 * (s.m_bytes_per_cluster / 32) ≤ s.m_bytes_per_cluster := Nat.mul_div_le _ _
  omega

theorem slot_addr_eq (s : FileSystem) (hw : WellFormed s) (x i : Nat) (hx : InVolume s x)
    (hi : i ∈ slotOffsets s) :
    u32 (clusterOffset s x + i) =
        s.m_first_data_sector * s.m_bpb.bytes_per_sector + (x - 2) * s.m_bytes_per_cluster + i ∧
      s.m_first_data_sector * s.m_bpb.bytes_per_sector + (x - 2) * s.m_bytes_per_cluster +
          s.m_bytes_per_cluster ≤ s.m_bpb.total_sectors * s.m_bpb.bytes_per_sector := by
  obtain ⟨k, hk⟩ := mem_slotOffsets s i hi
  have htcc := total_cluster_count_eq s hw (by have := hx.2; omega)
  have h := cluster_addr_arith s.m_bpb.sectors_per_cluster s.m_bpb.bytes_per_sector
    s.m_first_data_sector s.m_bpb.total_sectors x hw.spc_pos hw.addressable hw.bps_pos
    (fds_pos s hw) hw.fds_le hx.1 (by rw [← htcc]; exact hx.2)
  rw [← hw.bpc_eq] at h
  unfold clusterOffset getFirstDataSector
  rw [h.1]
  have ha := hw.addressable
  exact ⟨u32_of_lt (by omega), h.2⟩

theorem slot_addr_disjoint (s : FileSystem) (hw : WellFormed s) (x i y j : Nat)
    (hx : InVolume s x) (hi : i ∈ slotOffsets s) (hy : InVolume s y) (hj : j ∈ slotOffsets s)
    (hne : u32 (clusterOffset s x + i) ≠ u32 (clusterOffset s y + j)) :
    u32 (clusterOffset s x + i) + 32 ≤ u32 (clusterOffset s y + j) ∨
      u32 (clusterOffset s y + j) + 32 ≤ u32 (clusterOffset s x + i) := by
  obtain ⟨ex, _⟩ := slot_addr_eq s hw x i hx hi
  obtain ⟨ey, _⟩ := slot_addr_eq s hw y j hy hj
  obtain ⟨k, hk⟩ := mem_slotOffsets s i hi
  obtain ⟨l, hl⟩ := mem_slotOffsets s j hj
  rw [ex, ey] at hne ⊢
  have hx2 := hx.1
  have hy2 := hy.1
  rcases Nat.lt_trichotomy x y with hlt | heq | hgt
  · have : (x - 2 + 1) * s.m_bytes_per_cluster ≤ (y - 2) * s.m_bytes_per_cluster :=
      Nat.mul_le_mul_right _ (by omega)
    rw [Nat.add_mul, Nat.one_mul] at this
    left; omega
  · subst heq
    omega
  · have : (y - 2 + 1) * s.m_bytes_per_cluster ≤ (x - 2) * s.m_bytes_per_cluster :=
      Nat.mul_le_mul_right _ (by omega)
    rw [Nat.add_mul, Nat.one_mul] at this
    right; omega

/-! ### The state after a creation in a free slot -/

theorem scanFreeCluster_spec (s : FileSystem) (n k : Nat) :
    scanFreeCluster s n k = 0 ∨
      (k ≤ scanFreeCluster s n k ∧ scanFreeCluster s n k < k + n ∧
        getFATEntry s (scanFreeCluster s n k) = 0) := by
  induction n generalizing k with
  | zero => left; rfl
  | succ n ih =>
    rw [scanFreeCluster]
    by_cases hf : isFreeCluster s k = true
    · rw [if_pos hf]
      right
      refine ⟨le_refl _, by omega, ?_⟩
      unfold isFreeCluster FREE_CLUSTER at hf
      simpa using hf
    · rw [if_neg hf]
      rcases ih (k + 1) with h | ⟨h1, h2, h3⟩
      · left; exact h
      · right; exact ⟨by omega, by omega, h3⟩

/-- The bytes that a creation in a free slot leaves alone: everything outside the FAT
region, the FSInfo count and the slot, and inside the FAT region everything outside the
entries of the allocated cluster. -/
theorem byteAt_created (s : FileSystem) (c cnt : Nat) (e : DirectoryEntry)
    (hloc : e.mem_location + 32 ≤ 4294967296) (a : Nat)
    (hfat : ∀ i < s.m_bpb.num_FATS,
      a < FAT_entry_location s c i ∨ FAT_entry_location s c i + 4 ≤ a)
    (hinfo : a < s.m_bpb.fsinfo * s.m_bpb.bytes_per_sector + 488 ∨
      s.m_bpb.fsinfo * s.m_bpb.bytes_per_sector + 492 ≤ a)
    (hslot : a < e.mem_location ∨ e.mem_location + 32 ≤ a) :
    byteAt (writeDirectoryEntry (setFreeClusterCount (setFATEntry s c EOC) cnt) e) a =
      byteAt s a := by
  rw [byteAt_writeDirectoryEntry_of_outside _ _ _ hloc hslot,
    byteAt_setFreeClusterCount_of_outside _ _ _ (by simpa using hinfo)]
  exact byteAt_setFATEntryLoop_of_outside c EOC _ s a hfat

theorem fat_loc_bounds (s : FileSystem) (hw : WellFormed s) (x i : Nat)
    (hx : x < total_cluster_count s) (hi : i < s.m_bpb.num_FATS) :
    s.m_bpb.reserved_sector_count * s.m_bpb.bytes_per_sector ≤ FAT_entry_location s x i ∧
      FAT_entry_location s x i + 4 ≤ s.m_first_data_sector * s.m_bpb.bytes_per_sector := by
  obtain ⟨e, b1, b2⟩ := FAT_entry_location_eq s hw x i hx hi
  rw [e]
  constructor
  · omega
  · omega

theorem getFATEntry_created_other (s : FileSystem) (hw : WellFormed s) (c cnt : Nat)
    (e : DirectoryEntry) (hc : c < total_cluster_count s)
    (hloc : e.mem_location + 32 ≤ 4294967296)
    (hdata : s.m_first_data_sector * s.m_bpb.bytes_per_sector ≤ e.mem_location)
    (x : Nat) (hx : x < total_cluster_count s) (hxc : x ≠ c) :
    getFATEntry (writeDirectoryEntry (setFreeClusterCount (setFATEntry s c EOC) cnt) e) x =
      getFATEntry s x := by
  apply getFATEntry_congr s _ x (by simp)
  intro k hk
  obtain ⟨ex, bx1, bx2⟩ := FAT_entry_location_eq s hw x 0 hx hw.fats_pos
  have hfr := hw.fsinfo_reserved
  apply byteAt_created s c cnt e hloc
  · intro i hi
    obtain ⟨ec, bc1, bc2⟩ := FAT_entry_location_eq s hw c i hc hi
    rw [ex, ec]
    simp only [Nat.zero_mul, Nat.add_zero, Nat.zero_add, Nat.one_mul] at bx1 ⊢
    rcases Nat.eq_zero_or_pos i with h0 | hpos
    · subst h0
      simp only [Nat.zero_mul, Nat.add_zero]
      omega
    · have : s.m_bpb.FATSz * s.m_bpb.bytes_per_sector ≤
          i * (s.m_bpb.FATSz * s.m_bpb.bytes_per_sector) := Nat.le_mul_of_pos_left _ hpos
      left; omega
  · rw [ex]; right; omega
  · rw [ex]
    simp only [Nat.zero_mul, Nat.add_zero, Nat.zero_add, Nat.one_mul] at bx1 bx2 ⊢
    left; omega

theorem getFATEntry_created_same (s : FileSystem) (hw : WellFormed s) (c cnt : Nat)
    (e : DirectoryEntry) (hc : c < total_cluster_count s)
    (hloc : e.mem_location + 32 ≤ 4294967296)
    (hdata : s.m_first_data_sector * s.m_bpb.bytes_per_sector ≤ e.mem_location) :
    getFATEntry (writeDirectoryEntry (setFreeClusterCount (setFATEntry s c EOC) cnt) e) c =
      EOC := by
  have h1 : getFATEntry (setFATEntry s c EOC) c = EOC := by
    rw [getFATEntry_setFATEntry_same s hw c EOC hc]; decide
  refine Eq.trans ?_ h1
  apply getFATEntry_congr (setFATEntry s c EOC) _ c (by simp)
  intro k hk
  rw [FAT_entry_location_congr s (setFATEntry s c EOC) (by simp)]
  obtain ⟨ec, bc1, bc2⟩ := FAT_entry_location_eq s hw c 0 hc hw.fats_pos
  have hfr := hw.fsinfo_reserved
  rw [byteAt_writeDirectoryEntry_of_outside _ _ _ hloc (by
      rw [ec]
      simp only [Nat.zero_mul, Nat.add_zero, Nat.zero_add, Nat.one_mul] at bc1 bc2 ⊢
      left; omega),
    byteAt_setFreeClusterCount_of_outside _ _ _ (by
      rw [ec]; simp only [setFATEntry_bpb]; right; omega)]

theorem readDirectoryEntry_created_other (s : FileSystem) (hw : WellFormed s) (c cnt : Nat)
    (e : DirectoryEntry) (hc : c < total_cluster_count s)
    (hloc : e.mem_location + 32 ≤ 4294967296) (a : Nat) (ha : a + 32 ≤ 4294967296)
    (hdata : s.m_first_data_sector * s.m_bpb.bytes_per_sector ≤ a)
    (hdis : a + 32 ≤ e.mem_location ∨ e.mem_location + 32 ≤ a) :
    readDirectoryEntry (writeDirectoryEntry (setFreeClusterCount (setFATEntry s c EOC) cnt) e) a =
      readDirectoryEntry s a := by
  apply readDirectoryEntry_congr _ _ _ ha
  intro k hk
  have hfr := hw.fsinfo_reserved
  have hfds : s.m_bpb.reserved_sector_count * s.m_bpb.bytes_per_sector ≤
      s.m_first_data_sector * s.m_bpb.bytes_per_sector := by
    apply Nat.mul_le_mul_right
    rw [hw.fds_eq]; omega
  apply byteAt_created s c cnt e hloc
  · intro i hi
    have := fat_loc_bounds s hw c i hc hi
    right; omega
  · right; omega
  · omega

/-! ### Create then remove -/

theorem setDirectoryEntryTime_fields (now : Tm) (e : DirectoryEntry) :
    (setDirectoryEntryTime now e).name = e.name ∧ (setDirectoryEntryTime now e).attr = e.attr ∧
      (setDirectoryEntryTime now e).cluster = e.cluster ∧
      (setDirectoryEntryTime now e).size = e.size ∧
      (setDirectoryEntryTime now e).mem_location = e.mem_location := by
  unfold setDirectoryEntryTime
  exact ⟨rfl, rfl, rfl, rfl, rfl⟩

theorem allocateCluster_zero (s : FileSystem) (hfree : 0 < s.m_fsinfo.free_cluster_count) :
    allocateCluster s 0 =
      some (setFreeClusterCount (setFATEntry s (nextFreeCluster s) EOC)
        (u32 (s.m_fsinfo.free_cluster_count + 4294967295)), nextFreeCluster s) := by
  unfold allocateCluster getFreeCluster nextFreeCluster
  rw [if_neg (by omega)]
  simp

theorem create_in_free_slot (fuel : Nat) (now : Tm) (s : FileSystem) (n : Str)
    (chain : List Nat) (loc : Nat)
    (hchain : getClusterChain fuel s s.m_current_directory_cluster = some chain)
    (hslot : findFreeSlot s chain = some loc)
    (hname : isValidEntryName n = true) (hchars : invalidNameChar n 0 = none)
    (hdots : ¬ (n = [0x2E] ∨ n = [0x2E, 0x2E])) (hlen : nameLengthError n = none)
    (hnew : directoryEntryExists fuel s n s.m_current_directory_cluster = some false)
    (hfree : 0 < s.m_fsinfo.free_cluster_count) :
    create fuel now s n = Result.returned (createdState now s n loc) Report.silent := by
  have hroot : n ≠ ROOT := by
    intro h
    unfold directoryEntryExists at hnew
    rw [if_pos h] at hnew
    cases hnew
  have hcde : createDirectoryEntry fuel now s n s.m_current_directory_cluster FILE =
      Result.returned (createdState now s n loc) () := by
    unfold createDirectoryEntry createLocation
    rw [if_pos hroot]
    simp only [hchain, hslot, allocateCluster_zero s hfree]
    have hfd : ¬ (FILE = DIRECTORY) := by decide
    simp only [hfd, false_and, if_false]
    rfl
  unfold create
  simp only [hname, hchars, hdots, hlen, hnew, hcde, Bool.not_true, Bool.false_eq_true, if_false]

theorem nextFreeCluster_lt (s : FileSystem) (h : 2 < total_cluster_count s) :
    nextFreeCluster s < total_cluster_count s ∧
      (nextFreeCluster s = 0 ∨ getFATEntry s (nextFreeCluster s) = 0) := by
  unfold nextFreeCluster
  rcases scanFreeCluster_spec s (total_cluster_count s - 2) 2 with h0 | ⟨h1, h2, h3⟩
  · rw [h0]; exact ⟨by omega, Or.inl rfl⟩
  · exact ⟨by omega, Or.inr h3⟩

theorem EOC_pos : 0 < EOC := by decide

theorem nextFreeCluster_not_mem (fuel : Nat) (s : FileSystem) (c0 : Nat) (chain : List Nat)
    (hchain : getClusterChain fuel s c0 = some chain) (hvol : ∀ x ∈ chain, InVolume s x)
    (htcc : 2 < total_cluster_count s) :
    nextFreeCluster s ∉ chain := by
  intro hmem
  rcases (nextFreeCluster_lt s htcc).2 with h0 | h0
  · have := (hvol _ hmem).1
    omega
  · rcases getClusterChain_fat fuel s c0 chain hchain _ hmem with h1 | h1
    · have := EOC_pos; omega
    · rw [h0] at h1
      have := (hvol _ h1).1
      omega

theorem isFile_of_attr (e : DirectoryEntry) (h : e.attr = 0x20) : isFile e = true := by
  unfold isFile ATTR_DIRECTORY
  rw [h]; decide

theorem not_isLongName_of_attr (e : DirectoryEntry) (h : e.attr = 0x20) : isLongName e = false := by
  unfold isLongName
  rw [h]; decide

theorem not_isFreeEntry_of_kept (e : DirectoryEntry) (hne : e.name ≠ [])
    (hk : ∀ c ∈ e.name, keptByte c = true) : isFreeEntry e = false := by
  cases hn : e.name with
  | nil => exact absurd hn hne
  | cons h t =>
    have hh : keptByte h = true := hk h (by rw [hn]; exact List.mem_cons_self _ _)
    have hlt := keptByte_lt h hh
    have hpos : 0 < h := by
      unfold keptByte isspace ispunct isalnum at hh
      simp only [Bool.or_eq_true, Bool.and_eq_true, decide_eq_true_eq, beq_iff_eq] at hh
      omega
    unfold isFreeEntry charToInt LAST_FREE_DIR_ENTRY FREE_DIR_ENTRY
    rw [hn]
    simp only [List.headD_cons]
    have hm : h % 256 = h := Nat.mod_eq_of_lt (by omega)
    rw [hm, if_pos hlt]
    simp only [Bool.or_eq_false_iff, beq_eq_false_iff_ne, ne_eq]
    constructor <;> omega

/-- Removal of a file whose first cluster is marked end-of-chain gives one cluster back. -/
theorem deleteDirectoryEntry_single (fuel : Nat) (t : FileSystem) (f : DirectoryEntry)
    (hf : 0 < fuel) (h : EOC ≤ getFATEntry t f.cluster) :
    ∃ t2, deleteDirectoryEntry fuel t f = some t2 ∧
      t2.m_fsinfo.free_cluster_count = u32 (t.m_fsinfo.free_cluster_count + 1) := by
  unfold deleteDirectoryEntry
  rw [getClusterChain_single fuel t f.cluster hf h]
  refine ⟨_, rfl, ?_⟩
  simp [freeClusters]

theorem getFATEntry_with_table (t : FileSystem) (tab : List (DirectoryEntry × Str)) (c : Nat) :
    getFATEntry { t with m_open_file_table := tab } c = getFATEntry t c := rfl

/-- The function `rm` on a name that is found as a file whose first cluster is marked
end-of-chain: it returns, and the free count has grown by one. -/
theorem rm_found_file (fuel : Nat) (s1 : FileSystem) (n : Str) (f : DirectoryEntry)
    (hname : isValidEntryName n = true)
    (hfde : findDirectoryEntry fuel s1 n s1.m_current_directory_cluster = some (some f))
    (hfile : isFile f = true) (hfuel : 0 < fuel) (hfat : EOC ≤ getFATEntry s1 f.cluster) :
    ∃ s2, rm fuel s1 n = Result.returned s2 Report.silent ∧
      s2.m_fsinfo.free_cluster_count = u32 (s1.m_fsinfo.free_cluster_count + 1) := by
  unfold rm
  simp only [hname, hfde, Bool.not_true, Bool.false_eq_true, if_false, hfile, if_true]
  by_cases htab : (tableFind s1.m_open_file_table f).isSome = true
  · rw [if_pos htab]
    obtain ⟨t2, ht2, hcnt⟩ := deleteDirectoryEntry_single fuel
      { s1 with m_open_file_table := tableErase s1.m_open_file_table f } f hfuel
      (by rw [getFATEntry_with_table]; exact hfat)
    exact ⟨t2, by rw [ht2], hcnt⟩
  · rw [if_neg htab]
    obtain ⟨t2, ht2, hcnt⟩ := deleteDirectoryEntry_single fuel s1 f hfuel hfat
    exact ⟨t2, by rw [ht2], hcnt⟩

theorem create_rm_restores (fuel : Nat) (now : Tm) (s : FileSystem) (n : Str)
    (chain : List Nat) (loc : Nat)
    (hw : WellFormed s) (hsmall : total_cluster_count s ≤ 65536)
    (hchain : getClusterChain fuel s s.m_current_directory_cluster = some chain)
    (hvol : ∀ x ∈ chain, InVolume s x)
    (hslot : findFreeSlot s chain = some loc)
    (hname : isValidEntryName n = true) (hchars : invalidNameChar n 0 = none)
    (hdots : ¬ (n = [0x2E] ∨ n = [0x2E, 0x2E])) (hlen : nameLengthError n = none)
    (hkept : ∀ c ∈ n, keptByte c = true) (hlower : ∀ c ∈ n, ¬ (0x41 ≤ c ∧ c ≤ 0x5A))
    (hdot : ∀ d, findDot n = some d → d < 8 ∧ d + 1 < n.length)
    (hne : n ≠ []) (hcur : n ≠ s.m_current_directory_name)
    (hnew : directoryEntryExists fuel s n s.m_current_directory_cluster = some false)
    (hfree : 0 < s.m_fsinfo.free_cluster_count) :
    ∃ s1 s2, create fuel now s n = Result.returned s1 Report.silent ∧
      rm fuel s1 n = Result.returned s2 Report.silent ∧
      s2.m_fsinfo.free_cluster_count = s.m_fsinfo.free_cluster_count := by
  refine ⟨createdState now s n loc, ?_⟩
  have hcreate := create_in_free_slot fuel now s n chain loc hchain hslot hname hchars hdots hlen
    hnew hfree
  -- the directory chain is not empty and lies in the volume
  have hfuel := getClusterChain_fuel_pos fuel s _ chain hchain
  obtain ⟨x0, hx0, i0, hi0, hloc0, hfreeslot⟩ := findFreeSlot_spec s chain loc hslot
  have htcc : 2 < total_cluster_count s := by have := hvol x0 hx0; unfold InVolume at this; omega
  obtain ⟨hc, _⟩ := nextFreeCluster_lt s htcc
  have hcmem := nextFreeCluster_not_mem fuel s _ chain hchain hvol htcc
  -- the slot
  obtain ⟨eloc, bloc⟩ := slot_addr_eq s hw x0 i0 (hvol x0 hx0) hi0
  obtain ⟨k0, hk0⟩ := mem_slotOffsets s i0 hi0
  have haddr := hw.addressable
  have hlocdata : s.m_first_data_sector * s.m_bpb.bytes_per_sector ≤ loc := by
    rw [hloc0, eloc]; omega
  have hloc32 : loc + 32 ≤ 4294967296 := by rw [hloc0, eloc]; omega
  -- the entry written
  have he := setDirectoryEntryTime_fields now
    { name := n, attr := ATTR_ARCHIVE, write_time := 0, write_date := 0,
      cluster := nextFreeCluster s, size := 0, mem_location := loc }
  obtain ⟨hen, hea, hec, _, hel⟩ := he
  have hen' : (newFileEntry now n (nextFreeCluster s) loc).name = n := hen
  have hea' : (newFileEntry now n (nextFreeCluster s) loc).attr = 0x20 := hea
  have hec' : (newFileEntry now n (nextFreeCluster s) loc).cluster = nextFreeCluster s := hec
  have hel' : (newFileEntry now n (nextFreeCluster s) loc).mem_location = loc := hel
  -- what the new slot decodes to
  have hread := readDirectoryEntry_writeDirectoryEntry
    (setFreeClusterCount (setFATEntry s (nextFreeCluster s) EOC)
      (u32 (s.m_fsinfo.free_cluster_count + 4294967295)))
    (newFileEntry now n (nextFreeCluster s) loc) (by rw [hel']; exact hloc32)
    (by rw [hen']; exact hkept) (by rw [hec']; omega)
  rw [hel', hen', hea', hec'] at hread
  have hsp : ∀ c ∈ n, c ≠ 0x20 := fun c hc h =>
    not_invalid_of_invalidNameChar n 0 hchars c hc (by rw [h]; decide)
  have hrt : convertFromShortName (convertToShortName n) = n :=
    name_round_trip n hchars hlen hlower (fun d hd => Or.inr (Or.inr (hdot d hd)))
  rw [hrt] at hread
  obtain ⟨hrn, hra, hrc⟩ := hread
  have hs1 : createdState now s n loc = writeDirectoryEntry
      (setFreeClusterCount (setFATEntry s (nextFreeCluster s) EOC)
        (u32 (s.m_fsinfo.free_cluster_count + 4294967295)))
      (newFileEntry now n (nextFreeCluster s) loc) := rfl
  rw [← hs1] at hrn hra hrc
  -- geometry is unchanged
  have hgeo : SameGeometry s (createdState now s n loc) := by
    rw [hs1]; unfold SameGeometry; simp
  have hcount : (createdState now s n loc).m_fsinfo.free_cluster_count =
      u32 (s.m_fsinfo.free_cluster_count + 4294967295) := by
    rw [hs1]; simp
  -- the chain of the directory is unchanged
  have hchain1 : getClusterChain fuel (createdState now s n loc) s.m_current_directory_cluster =
      some chain := by
    apply getClusterChain_congr fuel s _ _ chain hchain
    intro x hx
    rw [hs1]
    exact getFATEntry_created_other s hw _ _ _ hc (by rw [hel']; exact hloc32)
      (by rw [hel']; exact hlocdata) x (hvol x hx).2 (fun h => hcmem (h ▸ hx))
  -- the listing after the creation
  have hlist1 := getDirectoryEntries_eq fuel (createdState now s n loc) _ chain hchain1
  rw [slotAddrs_congr s _ hgeo] at hlist1
  have hlist0 := getDirectoryEntries_eq fuel s _ chain hchain
  have hnone : ∀ a ∈ slotAddrs s chain, listed (readDirectoryEntry s a) = true →
      (readDirectoryEntry s a).name ≠ n := by
    intro a ha hl hn
    unfold directoryEntryExists at hnew
    rw [if_neg (by intro h; rw [h] at hchars; exact absurd hchars (by decide)), hlist0] at hnew
    simp only [Option.map_some', Option.some.injEq, List.any_eq_false] at hnew
    have := hnew (readDirectoryEntry s a)
      (List.mem_filter.mpr ⟨List.mem_map.mpr ⟨a, ha, rfl⟩, hl⟩)
    simp [hn] at this
  have hlocmem : loc ∈ slotAddrs s chain := (mem_slotAddrs s chain loc).mpr ⟨x0, hx0, i0, hi0, hloc0⟩
  have hlisted : listed (readDirectoryEntry (createdState now s n loc) loc) = true := by
    unfold listed
    rw [not_isLongName_of_attr _ hra, not_isFreeEntry_of_kept _ (by rw [hrn]; exact hne)
      (by rw [hrn]; exact hkept)]
    rfl
  have hfind : (((slotAddrs s chain).map (readDirectoryEntry (createdState now s n loc))).filter
      listed).find? (fun e => e.name == n) =
      some (readDirectoryEntry (createdState now s n loc) loc) := by
    apply find_filter_map _ _ _ _ loc hlocmem hlisted (by simp [hrn])
    intro a ha hane
    obtain ⟨x, hx, i, hi, ha'⟩ := (mem_slotAddrs s chain a).mp ha
    have hdis := slot_addr_disjoint s hw x i x0 i0 (hvol x hx) hi (hvol x0 hx0) hi0
      (by rw [← ha', ← hloc0]; exact hane)
    rw [← ha', ← hloc0] at hdis
    obtain ⟨ea, ba⟩ := slot_addr_eq s hw x i (hvol x hx) hi
    obtain ⟨ka, hka⟩ := mem_slotOffsets s i hi
    have hadata : s.m_first_data_sector * s.m_bpb.bytes_per_sector ≤ a := by
      rw [ha', ea]; omega
    have ha32 : a + 32 ≤ 4294967296 := by rw [ha', ea]; omega
    have hsame : readDirectoryEntry (createdState now s n loc) a = readDirectoryEntry s a := by
      rw [hs1]
      exact readDirectoryEntry_created_other s hw _ _ _ hc (by rw [hel']; exact hloc32) a ha32
        hadata (by rw [hel']; exact hdis)
    rw [hsame]
    rintro ⟨h1, h2⟩
    exact hnone a ha h1 (by simpa using h2)
  -- the removal
  have hfat1 : getFATEntry (createdState now s n loc) (nextFreeCluster s) = EOC := by
    rw [hs1]
    exact getFATEntry_created_same s hw _ _ _ hc (by rw [hel']; exact hloc32)
      (by rw [hel']; exact hlocdata)
  obtain ⟨hg1, hg2, hg3, hg4, hg5⟩ := hgeo
  have hfde : findDirectoryEntry fuel (createdState now s n loc) n
      (createdState now s n loc).m_current_directory_cluster =
      some (some (readDirectoryEntry (createdState now s n loc) loc)) := by
    unfold findDirectoryEntry
    rw [if_neg (by
      rintro (h | h | h)
      · rw [h] at hchars; exact absurd hchars (by decide)
      · exact hdots (Or.inl h)
      · exact hdots (Or.inr h)), hg5, if_neg hcur, hg4, hlist1]
    simp only [Option.map_some', hfind]
  have hcount0 := hw.count_lt
  have hfinal : u32 (u32 (s.m_fsinfo.free_cluster_count + 4294967295) + 1) =
      s.m_fsinfo.free_cluster_count := by
    unfold u32; omega
  obtain ⟨s2, hrm, hcnt⟩ := rm_found_file fuel (createdState now s n loc) n
    (readDirectoryEntry (createdState now s n loc) loc) hname hfde (isFile_of_attr _ hra) hfuel
    (by rw [hrc]; exact le_of_eq hfat1.symm)
  exact ⟨s2, hcreate, hrm, by rw [hcnt, hcount, hfinal]⟩

/-! ### Allocation without free clusters -/

theorem chain_of_entries (fuel : Nat) (s : FileSystem) (cluster : Nat) (l : List DirectoryEntry)
    (h : getDirectoryEntries fuel s cluster = some l) :
    ∃ chain, getClusterChain fuel s cluster = some chain := by
  induction fuel generalizing cluster l with
  | zero => simp [getDirectoryEntries] at h
  | succ fuel ih =>
    rw [getDirectoryEntries] at h
    rw [getClusterChain]
    split_ifs at h ⊢ with hlt
    · cases hr : getDirectoryEntries fuel s (getFATEntry s cluster) with
      | none => rw [hr] at h; simp at h
      | some r =>
        obtain ⟨chain, hc⟩ := ih _ r hr
        exact ⟨cluster :: chain, by rw [hc]; rfl⟩
    · exact ⟨[cluster], rfl⟩

theorem allocateCluster_none (s : FileSystem) (cluster : Nat)
    (h : s.m_fsinfo.free_cluster_count = 0) : allocateCluster s cluster = none := by
  unfold allocateCluster getFreeCluster
  simp [h]

theorem createDirectoryEntry_exception (fuel : Nat) (now : Tm) (s : FileSystem) (n : Str)
    (cluster entry_type : Nat) (chain : List Nat)
    (hchain : getClusterChain fuel s cluster = some chain)
    (hfree : s.m_fsinfo.free_cluster_count = 0) :
    createDirectoryEntry fuel now s n cluster entry_type = Result.exception s := by
  unfold createDirectoryEntry createLocation
  by_cases hroot : n = ROOT
  · simp [hroot, allocateCluster_none s _ hfree]
  · simp only [ne_eq, hroot, not_false_eq_true, if_true, hchain]
    cases hslot : findFreeSlot s chain with
    | some loc => simp [allocateCluster_none s _ hfree]
    | none => simp [allocateCluster_none s _ hfree]

/-! ### Mode tests of read and write -/

theorem Result.returned_of_value {α : Type} (r : Result α) (a : α) (h : r.value = some a) :
    ∃ s, r = Result.returned s a := by
  cases r with
  | returned s b =>
    simp only [Result.value, Option.some.injEq] at h
    exact ⟨s, by rw [h]⟩
  | exception s => simp [Result.value] at h
  | diverged => simp [Result.value] at h

theorem write_rejected (fuel : Nat) (s : FileSystem) (file_name : Str) (start_pos : Nat)
    (quoted_data : Str)
    (h : tableLookup s.m_open_file_table file_name = none ∨
      ∃ file mode, tableLookup s.m_open_file_table file_name = some (file, mode) ∧
        mode ≠ WRITE ∧ mode ≠ READ_WRITE) :
    write fuel s file_name start_pos quoted_data = Result.returned s Report.invalidEntryName ∨
    write fuel s file_name start_pos quoted_data = Result.returned s Report.notInOpenFileTable ∨
    write fuel s file_name start_pos quoted_data = Result.returned s Report.notOpenForWriting := by
  unfold write
  by_cases hv : isValidEntryName file_name = true
  · simp only [hv, Bool.not_true, Bool.false_eq_true, if_false]
    rcases h with h | ⟨file, mode, h, h1, h2⟩
    · right; left; rw [h]
    · right; right; rw [h]; simp only [h1, h2, ne_eq, not_false_eq_true, and_self, if_true]
  · left
    simp [hv]

theorem read_rejected (fuel : Nat) (s : FileSystem) (file_name : Str) (start_pos num_bytes : Nat)
    (h : tableLookup s.m_open_file_table file_name = none ∨
      ∃ file mode, tableLookup s.m_open_file_table file_name = some (file, mode) ∧
        mode ≠ READ ∧ mode ≠ READ_WRITE) :
    read fuel s file_name start_pos num_bytes = Result.returned s Report.invalidEntryName ∨
    read fuel s file_name start_pos num_bytes = Result.returned s Report.notInOpenFileTable ∨
    read fuel s file_name start_pos num_bytes = Result.returned s Report.notOpenForReading := by
  unfold read
  by_cases hv : isValidEntryName file_name = true
  · simp only [hv, Bool.not_true, Bool.false_eq_true, if_false]
    rcases h with h | ⟨file, mode, h, h1, h2⟩
    · right; left; rw [h]
    · right; right; rw [h]; simp only [h1, h2, ne_eq, not_false_eq_true, and_self, if_true]
  · left
    simp [hv]

theorem write_proceeds_only (fuel : Nat) (s : FileSystem) (file_name : Str) (start_pos : Nat)
    (quoted_data : Str) (s1 : FileSystem)
    (h : write fuel s file_name start_pos quoted_data = Result.returned s1 Report.wrote) :
    ∃ file mode, tableLookup s.m_open_file_table file_name = some (file, mode) ∧
      (mode = WRITE ∨ mode = READ_WRITE) := by
  cases hl : tableLookup s.m_open_file_table file_name with
  | none =>
    rcases write_rejected fuel s file_name start_pos quoted_data (Or.inl hl) with e | e | e <;>
      · rw [e] at h; cases h
  | some p =>
    obtain ⟨file, mode⟩ := p
    by_cases hm : mode = WRITE ∨ mode = READ_WRITE
    · exact ⟨file, mode, rfl, hm⟩
    · have hm' : mode ≠ WRITE ∧ mode ≠ READ_WRITE := by
        constructor
        · intro e; exact hm (Or.inl e)
        · intro e; exact hm (Or.inr e)
      rcases write_rejected fuel s file_name start_pos quoted_data
          (Or.inr ⟨file, mode, hl, hm'.1, hm'.2⟩) with e | e | e <;>
        · rw [e] at h; cases h

theorem read_proceeds_only (fuel : Nat) (s : FileSystem) (file_name : Str)
    (start_pos num_bytes : Nat) (s1 : FileSystem) (bytes : List Nat)
    (h : read fuel s file_name start_pos num_bytes = Result.returned s1 (Report.readData bytes)) :
    ∃ file mode, tableLookup s.m_open_file_table file_name = some (file, mode) ∧
      (mode = READ ∨ mode = READ_WRITE) := by
  cases hl : tableLookup s.m_open_file_table file_name with
  | none =>
    rcases read_rejected fuel s file_name start_pos num_bytes (Or.inl hl) with e | e | e <;>
      · rw [e] at h; cases h
  | some p =>
    obtain ⟨file, mode⟩ := p
    by_cases hm : mode = READ ∨ mode = READ_WRITE
    · exact ⟨file, mode, rfl, hm⟩
    · have hm' : mode ≠ READ ∧ mode ≠ READ_WRITE := by
        constructor
        · intro e; exact hm (Or.inl e)
        · intro e; exact hm (Or.inr e)
      rcases read_rejected fuel s file_name start_pos num_bytes
          (Or.inr ⟨file, mode, hl, hm'.1, hm'.2⟩) with e | e | e <;>
        · rw [e] at h; cases h

/-! ### Invalid characters in names -/

theorem mem_INVALID_CHAR_LIST_iff (c : Nat) :
    c ∈ INVALID_CHAR_LIST ↔
      (c ≤ 0x04 ∨ (0x06 ≤ c ∧ c ≤ 0x09) ∨ (0x10 ≤ c ∧ c ≤ 0x19) ∨ c = 0x20 ∨ c = 0x22 ∨
        (0x2A ≤ c ∧ c ≤ 0x2C) ∨ c = 0x2F ∨ (0x3A ≤ c ∧ c ≤ 0x3F) ∨ (0x5B ≤ c ∧ c ≤ 0x5D) ∨
        c = 0x7C) := by
  unfold INVALID_CHAR_LIST
  simp only [List.mem_cons, List.mem_singleton, List.not_mem_nil, or_false]
  omega

theorem invalidNameChar_of_mem (n : Str) (i c : Nat) (hc : c ∈ n) (hl : c ∈ INVALID_CHAR_LIST) :
    invalidNameChar n i ≠ none := by
  induction n generalizing i with
  | nil => cases hc
  | cons d rest ih =>
    rw [invalidNameChar]
    split_ifs with h1 h2
    · simp
    · simp
    · rcases List.mem_cons.mp hc with e | e
      · subst e; exact absurd hl h2
      · exact ih (i + 1) e

theorem invalidNameChar_of_special (n : Str) (i j : Nat) (hj : n.get? j = some SPECIAL_INVALID_CHAR)
    (hpos : 0 < i + j) : invalidNameChar n i ≠ none := by
  induction n generalizing i j with
  | nil => simp at hj
  | cons d rest ih =>
    rw [invalidNameChar]
    split_ifs with h1 h2
    · simp
    · simp
    · cases j with
      | zero =>
        simp only [List.get?_cons_zero, Option.some.injEq] at hj
        exact absurd ⟨hj, by omega⟩ h1
      | succ j =>
        simp only [List.get?_cons_succ] at hj
        exact ih (i + 1) j hj (by omega)

theorem create_mkdir_reject_invalid (fuel : Nat) (now : Tm) (s : FileSystem) (n : Str)
    (h : invalidNameChar n 0 ≠ none) :
    (create fuel now s n = Result.returned s Report.invalidEntryName ∨
      ∃ c, create fuel now s n = Result.returned s (Report.cannotContain c)) ∧
    (mkdir fuel now s n = Result.returned s Report.invalidEntryName ∨
      ∃ c, mkdir fuel now s n = Result.returned s (Report.cannotContain c)) := by
  obtain ⟨c, hc⟩ := Option.ne_none_iff_exists'.mp h
  unfold create mkdir
  by_cases hv : isValidEntryName n = true
  · simp only [hv, hc, Bool.not_true, Bool.false_eq_true, if_false]
    exact ⟨Or.inr ⟨c, rfl⟩, Or.inr ⟨c, rfl⟩⟩
  · simp [hv]

/-! ### The cluster field of a directory entry -/

theorem and_high_eq (c : Nat) (h : c < 4294967296) : c &&& 0xFFFF0000 = c / 65536 * 65536 := by
  have h1 : c &&& 0xFFFFFFFF = c := by
    have : c &&& (2 ^ 32 - 1) = c % 2 ^ 32 := Nat.and_pow_two_sub_one_eq_mod c 32
    rw [Nat.mod_eq_of_lt (by simpa using h)] at this
    exact this
  have h2 : (0xFFFFFFFF : Nat) = 0xFFFF0000 ||| 0xFFFF := by decide
  rw [h2, Nat.and_or_distrib_left] at h1
  have h3 : (c &&& 0xFFFF0000) % 2 ^ 16 = 0 := by
    rw [← Nat.and_pow_two_sub_one_eq_mod, Nat.and_assoc]
    have : (0xFFFF0000 : Nat) &&& (2 ^ 16 - 1) = 0 := by decide
    rw [this, Nat.and_zero]
  have h4 : c &&& 0xFFFF = c % 2 ^ 16 := Nat.and_pow_two_sub_one_eq_mod c 16
  have h5 : c &&& 0xFFFF0000 = 2 ^ 16 * ((c &&& 0xFFFF0000) / 2 ^ 16) := by
    have := Nat.div_add_mod (c &&& 0xFFFF0000) (2 ^ 16)
    omega
  have h6 : c % 2 ^ 16 < 2 ^ 16 := Nat.mod_lt _ (by decide)
  rw [h4, h5, ← Nat.mul_add_lt_is_or h6] at h1
  rw [h5]
  norm_num at h1 ⊢
  omega

theorem stored_high_half (c : Nat) (h : c < 4294967296) :
    u16 ((c &&& 0xFFFF0000) >>> 4) = c / 65536 * 4096 % 65536 := by
  rw [and_high_eq c h, Nat.shiftRight_eq_div_pow, u16]
  congr 1
  omega

theorem stored_low_half (c : Nat) : u16 (c &&& 0x0000FFFF) = c % 65536 := by
  have : c &&& (2 ^ 16 - 1) = c % 2 ^ 16 := Nat.and_pow_two_sub_one_eq_mod c 16
  norm_num at this
  rw [this, u16]
  omega

theorem half_bytes (w : Nat) (h : w < 65536) : w / 256 ^ 0 % 256 + 256 * (w / 256 ^ 1 % 256) = w := by
  norm_num
  omega

/-- The two halves of the cluster field read back from the slot just written. -/
theorem cluster_halves_written (s : FileSystem) (e : DirectoryEntry)
    (hloc : e.mem_location + 32 ≤ 4294967296) (hc : e.cluster < 4294967296) :
    readFromFileSystem (writeDirectoryEntry s e) 16 (e.mem_location + 20) 2 =
        e.cluster / 65536 * 4096 % 65536 ∧
      readFromFileSystem (writeDirectoryEntry s e) 16 (e.mem_location + 26) 2 =
        e.cluster % 65536 := by
  have hH : e.cluster / 65536 * 4096 % 65536 < 65536 := Nat.mod_lt _ (by decide)
  have hL : e.cluster % 65536 < 65536 := Nat.mod_lt _ (by decide)
  constructor
  · rw [readFromFileSystem_16_2, byteAt_writeDirectoryEntry s e _ hloc,
      byteAt_writeDirectoryEntry s e _ hloc]
    repeat rw [if_neg (by omega)]
    rw [if_pos (by omega)]
    repeat rw [if_neg (by omega)]
    rw [if_pos (by omega)]
    have e0 : e.mem_location + 20 - (e.mem_location + 20) = 0 := by omega
    have e1 : e.mem_location + 20 + 1 - (e.mem_location + 20) = 1 := by omega
    rw [e0, e1, stored_high_half _ hc]
    exact half_bytes _ hH
  · rw [readFromFileSystem_16_2, byteAt_writeDirectoryEntry s e _ hloc,
      byteAt_writeDirectoryEntry s e _ hloc]
    repeat rw [if_neg (by omega)]
    rw [if_pos (by omega)]
    repeat rw [if_neg (by omega)]
    rw [if_pos (by omega)]
    have e0 : e.mem_location + 26 - (e.mem_location + 26) = 0 := by omega
    have e1 : e.mem_location + 26 + 1 - (e.mem_location + 26) = 1 := by omega
    rw [e0, e1, stored_low_half]
    exact half_bytes _ hL

/-- The cluster field decoded from the slot just written. -/
theorem cluster_read_back (s : FileSystem) (e : DirectoryEntry)
    (hloc : e.mem_location + 32 ≤ 4294967296) (hc : e.cluster < 4294967296) :
    (readDirectoryEntry (writeDirectoryEntry s e) e.mem_location).cluster =
      e.cluster % 65536 + 65536 * (e.cluster / 65536 * 4096 % 65536) := by
  obtain ⟨h1, h2⟩ := cluster_halves_written s e hloc hc
  have hL : e.cluster % 65536 < 2 ^ 16 := Nat.mod_lt _ (by decide)
  have hH : e.cluster / 65536 * 4096 % 65536 < 65536 := Nat.mod_lt _ (by decide)
  show formCluster (readFromFileSystem _ 16 (u32 (e.mem_location + 20)) 2)
    (readFromFileSystem _ 16 (u32 (e.mem_location + 26)) 2) = _
  rw [u32_of_lt (show e.mem_location + 20 < 4294967296 by omega),
    u32_of_lt (show e.mem_location + 26 < 4294967296 by omega), h1, h2]
  unfold formCluster
  rw [or_shift_eq_add _ _ 16 hL]
  apply u32_of_lt
  norm_num
  omega

theorem cluster_codec (s : FileSystem) (e : DirectoryEntry)
    (hloc : e.mem_location + 32 ≤ 4294967296) (hc : e.cluster < 4294967296) :
    ((readDirectoryEntry (writeDirectoryEntry s e) e.mem_location).cluster = e.cluster ↔
      e.cluster ≤ 65535) ∧
    (65535 < e.cluster →
      readFromFileSystem (writeDirectoryEntry s e) 16 (e.mem_location + 20) 2 ≠ e.cluster >>> 16 ∧
      (readDirectoryEntry (writeDirectoryEntry s e) e.mem_location).cluster ≠ e.cluster) := by
  rw [cluster_read_back s e hloc hc, (cluster_halves_written s e hloc hc).1,
    Nat.shiftRight_eq_div_pow]
  norm_num
  constructor
  · omega
  · intro h
    constructor <;> omega

/-! ### The words setFATEntry writes -/

theorem fatEntryOffset_eq (s : FileSystem) (x i : Nat) :
    fatEntryOffset s x i =
      s.m_bpb.reserved_sector_count * s.m_bpb.bytes_per_sector +
        i * (s.m_bpb.FATSz * s.m_bpb.bytes_per_sector) + 4 * x := by
  unfold fatEntryOffset
  have h := Nat.div_add_mod (4 * x) s.m_bpb.bytes_per_sector
  calc (s.m_bpb.reserved_sector_count + 4 * x / s.m_bpb.bytes_per_sector + i * s.m_bpb.FATSz) *
      s.m_bpb.bytes_per_sector + 4 * x % s.m_bpb.bytes_per_sector
      = s.m_bpb.reserved_sector_count * s.m_bpb.bytes_per_sector +
        i * (s.m_bpb.FATSz * s.m_bpb.bytes_per_sector) +
        (s.m_bpb.bytes_per_sector * (4 * x / s.m_bpb.bytes_per_sector) +
          4 * x % s.m_bpb.bytes_per_sector) := by ring
    _ = _ := by rw [h]

theorem fatEntryOffset_eq_location (s : FileSystem) (hw : WellFormed s) (x i : Nat)
    (hx : x < total_cluster_count s) (hi : i < s.m_bpb.num_FATS) :
    fatEntryOffset s x i = FAT_entry_location s x i := by
  rw [fatEntryOffset_eq, (FAT_entry_location_eq s hw x i hx hi).1]

/-- The entries of one cluster in two mirrors do not overlap: the lower mirror ends first. -/
theorem mirror_order (s : FileSystem) (hw : WellFormed s) (x y i j : Nat)
    (hx : x < total_cluster_count s) (hy : y < total_cluster_count s)
    (hj : j < s.m_bpb.num_FATS) (hij : i < j) :
    FAT_entry_location s x i + 4 ≤ FAT_entry_location s y j := by
  obtain ⟨ei, bi, _⟩ := FAT_entry_location_eq s hw x i hx (by omega)
  obtain ⟨ej, _, _⟩ := FAT_entry_location_eq s hw y j hy hj
  rw [ei, ej]
  have : (i + 1) * (s.m_bpb.FATSz * s.m_bpb.bytes_per_sector) ≤
      j * (s.m_bpb.FATSz * s.m_bpb.bytes_per_sector) := Nat.mul_le_mul_right _ hij
  omega

theorem read32_congr (s t : FileSystem) (a : Nat)
    (h : ∀ k < 4, byteAt t (a + k) = byteAt s (a + k)) :
    readFromFileSystem t 32 a 4 = readFromFileSystem s 32 a 4 := by
  rw [readFromFileSystem_32_4, readFromFileSystem_32_4]
  have h0 := h 0 (by decide)
  rw [Nat.add_zero] at h0
  rw [h0, h 1 (by decide), h 2 (by decide), h 3 (by decide)]

theorem fat_word_lt (old v : Nat) :
    (old &&& 0xF0000000) ||| (v &&& FAT_MASK) < 4294967296 := by
  have h1 : (old &&& 0xF0000000) ||| (v &&& FAT_MASK) < 2 ^ 32 :=
    Nat.or_lt_two_pow (Nat.and_lt_two_pow _ (by decide)) (Nat.and_lt_two_pow _ (by decide))
  simpa using h1

/-- After the loop over the mirrors `0 .. n-1` the word of `x` in each of them is the old
word with its low 28 bits replaced. -/
theorem read32_setFATEntryLoop (s : FileSystem) (hw : WellFormed s) (x v : Nat)
    (hx : x < total_cluster_count s) (n : Nat) (hn : n ≤ s.m_bpb.num_FATS) (i : Nat) (hi : i < n) :
    readFromFileSystem (setFATEntryLoop x v n s) 32 (FAT_entry_location s x i) 4 =
      (readFromFileSystem s 32 (FAT_entry_location s x i) 4 &&& 0xF0000000) ||| (v &&& FAT_MASK) := by
  induction n with
  | zero => omega
  | succ n ih =>
    rw [setFATEntryLoop, setFATEntryAt_eq,
      FAT_entry_location_congr s _ (setFATEntryLoop_fields x v n s).1]
    rcases Nat.lt_succ_iff_lt_or_eq.mp hi with hlt | heq
    · rw [read32_congr (setFATEntryLoop x v n s) _ _ ?_]
      · exact ih (by omega) hlt
      · intro k hk
        apply byteAt_writeToFileSystem_of_outside
        have := mirror_order s hw x x i n hx hx (by omega) hlt
        omega
    · subst heq
      rw [read32_write32, Nat.mod_eq_of_lt (fat_word_lt _ _)]
      congr 2
      apply read32_congr
      intro k hk
      apply byteAt_setFATEntryLoop_of_outside
      intro j hj
      have := mirror_order s hw x x j i hx hx (by omega) hj
      omega

theorem getFATEntry_setFATEntry_other (s : FileSystem) (hw : WellFormed s) (x v y : Nat)
    (hx : x < total_cluster_count s) (hy : y < total_cluster_count s) (hne : y ≠ x) :
    getFATEntry (setFATEntry s x v) y = getFATEntry s y := by
  apply getFATEntry_congr s _ y (setFATEntry_bpb s x v)
  intro k hk
  unfold setFATEntry
  apply byteAt_setFATEntryLoop_of_outside
  intro i hi
  rcases Nat.eq_zero_or_pos i with h0 | hpos
  · subst h0
    obtain ⟨ex, _, _⟩ := FAT_entry_location_eq s hw x 0 hx hw.fats_pos
    obtain ⟨ey, _, _⟩ := FAT_entry_location_eq s hw y 0 hy hw.fats_pos
    rw [ex, ey]
    omega
  · have := mirror_order s hw y x 0 i hy hx hi hpos
    omega

theorem setFATEntry_spec (s : FileSystem) (hw : WellFormed s) (c v : Nat)
    (hc : c < total_cluster_count s) :
    (∀ i, i < s.m_bpb.num_FATS → FAT_entry_location s c i = fatEntryOffset s c i) ∧
    (∀ i, i < s.m_bpb.num_FATS →
      readFromFileSystem (setFATEntry s c v) 32 (fatEntryOffset s c i) 4 =
        (readFromFileSystem s 32 (fatEntryOffset s c i) 4 &&& 0xF0000000) ||| (v &&& 0x0FFFFFFF)) ∧
    (∀ a, (∀ i, i < s.m_bpb.num_FATS → a < fatEntryOffset s c i ∨ fatEntryOffset s c i + 4 ≤ a) →
      byteAt (setFATEntry s c v) a = byteAt s a) ∧
    getFATEntry (setFATEntry s c v) c = v &&& 0x0FFFFFFF ∧
    (∀ c', c' < total_cluster_count s → c' ≠ c →
      getFATEntry (setFATEntry s c v) c' = getFATEntry s c') := by
  refine ⟨?_, ?_, ?_, ?_, ?_⟩
  · intro i hi
    exact (fatEntryOffset_eq_location s hw c i hc hi).symm
  · intro i hi
    rw [fatEntryOffset_eq_location s hw c i hc hi]
    exact read32_setFATEntryLoop s hw c v hc _ (le_refl _) i hi
  · intro a h
    unfold setFATEntry
    apply byteAt_setFATEntryLoop_of_outside
    intro i hi
    rw [← fatEntryOffset_eq_location s hw c i hc hi]
    exact h i hi
  · exact getFATEntry_setFATEntry_same s hw c v hc
  · intro c' hc' hne
    exact getFATEntry_setFATEntry_other s hw c v c' hc hc' hne

/-! ### The scan for a free cluster -/

theorem scanFreeCluster_first (s : FileSystem) (n k : Nat)
    (h : ∃ c, k ≤ c ∧ c < k + n ∧ getFATEntry s c = 0) :
    k ≤ scanFreeCluster s n k ∧ scanFreeCluster s n k < k + n ∧
      getFATEntry s (scanFreeCluster s n k) = 0 ∧
      ∀ c, k ≤ c → c < scanFreeCluster s n k → getFATEntry s c ≠ 0 := by
  induction n generalizing k with
  | zero =>
    obtain ⟨c, h1, h2, _⟩ := h
    omega
  | succ n ih =>
    rw [scanFreeCluster]
    by_cases hk : getFATEntry s k = 0
    · have hf : isFreeCluster s k = true := by
        unfold isFreeCluster FREE_CLUSTER
        simp [hk]
      rw [if_pos hf]
      exact ⟨le_refl _, by omega, hk, fun c h1 h2 => by omega⟩
    · have hf : ¬ (isFreeCluster s k = true) := by
        unfold isFreeCluster FREE_CLUSTER
        simpa using hk
      rw [if_neg hf]
      obtain ⟨c, h1, h2, h3⟩ := h
      have hck : c ≠ k := fun e => hk (e ▸ h3)
      obtain ⟨a1, a2, a3, a4⟩ := ih (k + 1) ⟨c, by omega, by omega, h3⟩
      refine ⟨by omega, by omega, a3, ?_⟩
      intro d hd1 hd2
      by_cases hdk : d = k
      · rw [hdk]; exact hk
      · exact a4 d (by omega) hd2

theorem getFreeCluster_spec (s : FileSystem) :
    (0 < s.m_fsinfo.free_cluster_count →
      (∃ c, 2 ≤ c ∧ c < total_cluster_count s ∧ getFATEntry s c = 0) →
      ∃ r, getFreeCluster s = some r ∧ 2 ≤ r ∧ r < total_cluster_count s ∧
        getFATEntry s r = 0 ∧ ∀ c, 2 ≤ c → c < r → getFATEntry s c ≠ 0) ∧
    (s.m_fsinfo.free_cluster_count = 0 → getFreeCluster s = none) := by
  constructor
  · intro hpos ⟨c, h1, h2, h3⟩
    have hne : s.m_fsinfo.free_cluster_count ≠ 0 := by omega
    unfold getFreeCluster
    rw [if_neg hne]
    obtain ⟨a1, a2, a3, a4⟩ := scanFreeCluster_first s (total_cluster_count s - 2) 2
      ⟨c, h1, by omega, h3⟩
    exact ⟨_, rfl, a1, by omega, a3, a4⟩
  · intro h0
    unfold getFreeCluster
    rw [if_pos h0]

/-! ### Cluster chains -/

theorem clusterOffset_exact (s : FileSystem) (hw : WellFormed s) (c : Nat) (hc : InVolume s c) :
    getFirstDataSector s c = (c - 2) * s.m_bpb.sectors_per_cluster + s.m_first_data_sector ∧
    clusterOffset s c =
      ((c - 2) * s.m_bpb.sectors_per_cluster + s.m_first_data_sector) * s.m_bpb.bytes_per_sector ∧
    ((c - 2) * s.m_bpb.sectors_per_cluster + s.m_first_data_sector) * s.m_bpb.bytes_per_sector <
      4294967296 := by
  obtain ⟨h2, hlt⟩ := hc
  have htcc := total_cluster_count_eq s hw (by omega)
  obtain ⟨e1, e2⟩ := cluster_addr_arith s.m_bpb.sectors_per_cluster s.m_bpb.bytes_per_sector
    s.m_first_data_sector s.m_bpb.total_sectors c hw.spc_pos hw.addressable hw.bps_pos
    (fds_pos s hw) hw.fds_le h2 (by omega)
  have hadd := hw.addressable
  have hring : ((c - 2) * s.m_bpb.sectors_per_cluster + s.m_first_data_sector) *
      s.m_bpb.bytes_per_sector =
      s.m_first_data_sector * s.m_bpb.bytes_per_sector +
        (c - 2) * (s.m_bpb.bytes_per_sector * s.m_bpb.sectors_per_cluster) := by ring
  have hpos : 0 < s.m_bpb.bytes_per_sector * s.m_bpb.sectors_per_cluster :=
    Nat.mul_pos hw.bps_pos hw.spc_pos
  have hlt2 : ((c - 2) * s.m_bpb.sectors_per_cluster + s.m_first_data_sector) *
      s.m_bpb.bytes_per_sector < 4294967296 := by
    rw [hring]
    exact lt_of_le_of_lt (le_trans (Nat.le_add_right _ _) e2) hadd
  have hsec : (c - 2) * s.m_bpb.sectors_per_cluster + s.m_first_data_sector < 4294967296 :=
    lt_of_le_of_lt (Nat.le_mul_of_pos_right _ hw.bps_pos) hlt2
  have hc32 : c < 4294967296 := by
    have : total_cluster_count s < 4294967296 := Nat.mod_lt _ (by decide)
    omega
  have hg : getFirstDataSector s c =
      (c - 2) * s.m_bpb.sectors_per_cluster + s.m_first_data_sector := by
    unfold getFirstDataSector
    rw [sub32_of_le h2 hc32]
    exact u32_of_lt hsec
  refine ⟨hg, ?_, hlt2⟩
  unfold clusterOffset
  rw [hg]
  exact u32_of_lt hlt2

/-! ### The loop of resizeClusterChain -/

theorem sub64_of_le {a b : Nat} (hb : b ≤ a) (ha : a < 18446744073709551616) : sub64 a b = a - b := by
  unfold sub64
  omega

theorem allocateCluster_some (s : FileSystem) (cluster : Nat)
    (h : 0 < s.m_fsinfo.free_cluster_count) :
    ∃ s1 a, allocateCluster s cluster = some (s1, a) ∧
      s1.m_fsinfo.free_cluster_count = u32 (s.m_fsinfo.free_cluster_count + 4294967295) := by
  have hne : s.m_fsinfo.free_cluster_count ≠ 0 := by omega
  unfold allocateCluster getFreeCluster
  rw [if_neg hne]
  refine ⟨_, _, rfl, ?_⟩
  by_cases hc : cluster ≠ 0
  · simp [hc]
  · simp [hc]

theorem dropLast_append_getLastD (l : List Nat) (h : l ≠ []) : l.dropLast ++ [l.getLastD 0] = l := by
  rw [List.getLastD_eq_getLast?, List.getLast?_eq_getLast _ h, Option.getD_some]
  exact List.dropLast_append_getLast h

theorem resizeLoop_spec (size : Nat) (hsize : size < 4294967296) :
    ∀ (n i : Nat) (s : FileSystem) (chain : List Nat), chain ≠ [] → chain.length ≤ size →
      (size - chain.length - i + 1) / 2 < n →
      (size - chain.length - i + 1) / 2 ≤ s.m_fsinfo.free_cluster_count →
      s.m_fsinfo.free_cluster_count < 4294967296 →
      ∃ s1 added, resizeLoop size n i s chain = Result.returned s1 (chain ++ added) ∧
        added.length = (size - chain.length - i + 1) / 2 ∧
        s1.m_fsinfo.free_cluster_count + (size - chain.length - i + 1) / 2 =
          s.m_fsinfo.free_cluster_count := by
  intro n
  induction n with
  | zero => intro i s chain _ _ h; omega
  | succ n ih =>
    intro i s chain hne hlen hfuel hcnt hlt
    rw [resizeLoop, sub64_of_le hlen (by omega)]
    by_cases hi : i < size - chain.length
    · rw [if_pos hi]
      have hpos : 0 < s.m_fsinfo.free_cluster_count := by omega
      obtain ⟨s1, a, ha, hc1⟩ := allocateCluster_some s (chain.getLastD 0) hpos
      dsimp only
      rw [ha, dropLast_append_getLastD chain hne]
      have hc1' : s1.m_fsinfo.free_cluster_count = s.m_fsinfo.free_cluster_count - 1 := by
        rw [hc1]; unfold u32; omega
      have hl1 : (chain ++ [a]).length = chain.length + 1 := by simp
      obtain ⟨s2, added, hr, hal, hcn⟩ := ih (i + 1) s1 (chain ++ [a]) (by simp)
        (by rw [hl1]; omega) (by rw [hl1]; omega) (by rw [hl1, hc1']; omega) (by omega)
      refine ⟨s2, a :: added, ?_, ?_, ?_⟩
      · show resizeLoop size n (i + 1) s1 (chain ++ [a]) = _
        rw [hr, List.append_assoc]
        rfl
      · rw [List.length_cons, hal, hl1]; omega
      · rw [hl1] at hcn; omega
    · rw [if_neg hi]
      refine ⟨s, [], by rw [List.append_nil], ?_, ?_⟩
      · simp only [List.length_nil]; omega
      · omega

theorem resizeClusterChain_spec (s : FileSystem) (size : Nat) (chain : List Nat)
    (hhead : chain.headD 0 ≠ 0) (hgt : chain.length < size) (hsize : size < 4294967296)
    (hcnt : (size - chain.length + 1) / 2 ≤ s.m_fsinfo.free_cluster_count)
    (hlt : s.m_fsinfo.free_cluster_count < 4294967296) :
    ∃ s1 added, resizeClusterChain s size chain = Result.returned s1 (chain ++ added) ∧
      added.length = (size - chain.length + 1) / 2 ∧
      (chain ++ added).length = chain.length + (size - chain.length + 1) / 2 ∧
      (chain ++ added).length ≤ size ∧
      s1.m_fsinfo.free_cluster_count + (size - chain.length + 1) / 2 =
        s.m_fsinfo.free_cluster_count := by
  have hne : chain ≠ [] := by
    intro e; rw [e] at hhead; exact hhead rfl
  unfold resizeClusterChain
  rw [if_neg (by omega), if_neg hhead]
  obtain ⟨s1, added, hr, hal, hcn⟩ := resizeLoop_spec size hsize (size + 1) 0 s chain hne
    (by omega) (by omega) (by simpa using hcnt) hlt
  refine ⟨s1, added, hr, by simpa using hal, ?_, ?_, by simpa using hcn⟩
  · rw [List.length_append, hal]; simp
  · rw [List.length_append, hal]; omega

/-! ### Well-formedness is a property of the geometry -/

theorem total_cluster_count_congr (s t : FileSystem) (hb : t.m_bpb = s.m_bpb)
    (hfds : t.m_first_data_sector = s.m_first_data_sector) :
    total_cluster_count t = total_cluster_count s := by
  unfold total_cluster_count
  rw [hb, hfds]

theorem wellFormed_congr (s t : FileSystem) (hw : WellFormed s) (hb : t.m_bpb = s.m_bpb)
    (hbpc : t.m_bytes_per_cluster = s.m_bytes_per_cluster)
    (hfds : t.m_first_data_sector = s.m_first_data_sector)
    (hcnt : t.m_fsinfo.free_cluster_count < 4294967296) : WellFormed t := by
  have htcc := total_cluster_count_congr s t hb hfds
  constructor
  · rw [hb]; exact hw.bps_pos
  · rw [hb]; exact hw.spc_pos
  · rw [hb, hbpc]; exact hw.bpc_eq
  · rw [hb, hfds]; exact hw.fds_eq
  · rw [hb]; exact hw.fats_pos
  · rw [hb]; exact hw.fsinfo_reserved
  · rw [hb, hfds]; exact hw.fds_le
  · rw [hb]; exact hw.addressable
  · rw [hb, htcc]; exact hw.fat_covers
  · exact hcnt

/-! ### FAT words and the FSInfo count -/

theorem fsinfo_below_fat (s : FileSystem) (hw : WellFormed s) (x i : Nat)
    (hx : x < total_cluster_count s) (hi : i < s.m_bpb.num_FATS) :
    s.m_bpb.fsinfo * s.m_bpb.bytes_per_sector + 492 ≤ FAT_entry_location s x i := by
  have h1 := (fat_loc_bounds s hw x i hx hi).1
  have h2 := hw.fsinfo_reserved
  omega

theorem read32_setFreeClusterCount_fat (s : FileSystem) (hw : WellFormed s) (cnt x i : Nat)
    (hx : x < total_cluster_count s) (hi : i < s.m_bpb.num_FATS) :
    readFromFileSystem (setFreeClusterCount s cnt) 32 (FAT_entry_location s x i) 4 =
      readFromFileSystem s 32 (FAT_entry_location s x i) 4 := by
  apply read32_congr
  intro k hk
  apply byteAt_setFreeClusterCount_of_outside
  have := fsinfo_below_fat s hw x i hx hi
  omega

theorem read32_setFreeClusterCount_same (s : FileSystem) (cnt : Nat) :
    readFromFileSystem (setFreeClusterCount s cnt) 32
      (s.m_bpb.fsinfo * s.m_bpb.bytes_per_sector + 488) 4 = cnt % 4294967296 := by
  unfold setFreeClusterCount
  exact read32_write32 _ _ _

theorem read32_setFATEntry_fsinfo (s : FileSystem) (hw : WellFormed s) (x v : Nat)
    (hx : x < total_cluster_count s) :
    readFromFileSystem (setFATEntry s x v) 32
        (s.m_bpb.fsinfo * s.m_bpb.bytes_per_sector + 488) 4 =
      readFromFileSystem s 32 (s.m_bpb.fsinfo * s.m_bpb.bytes_per_sector + 488) 4 := by
  apply read32_congr
  intro k hk
  unfold setFATEntry
  apply byteAt_setFATEntryLoop_of_outside
  intro i hi
  have := fsinfo_below_fat s hw x i hx hi
  omega

/-- The word of `x` in mirror `i` is not touched by `setFATEntry` on another cluster. -/
theorem read32_setFATEntry_other (s : FileSystem) (hw : WellFormed s) (x y v i : Nat)
    (hx : x < total_cluster_count s) (hy : y < total_cluster_count s) (hne : x ≠ y)
    (hi : i < s.m_bpb.num_FATS) :
    readFromFileSystem (setFATEntry s y v) 32 (FAT_entry_location s x i) 4 =
      readFromFileSystem s 32 (FAT_entry_location s x i) 4 := by
  apply read32_congr
  intro k hk
  unfold setFATEntry
  apply byteAt_setFATEntryLoop_of_outside
  intro j hj
  rcases Nat.lt_trichotomy i j with hlt | heq | hgt
  · have := mirror_order s hw x y i j hx hy hj hlt
    omega
  · subst heq
    obtain ⟨ex, _, _⟩ := FAT_entry_location_eq s hw x i hx hi
    obtain ⟨ey, _, _⟩ := FAT_entry_location_eq s hw y i hy hi
    rw [ex, ey]
    omega
  · have := mirror_order s hw y x j i hy hx hi hgt
    omega

theorem read32_setFATEntry_same (s : FileSystem) (hw : WellFormed s) (x v i : Nat)
    (hx : x < total_cluster_count s) (hi : i < s.m_bpb.num_FATS) :
    readFromFileSystem (setFATEntry s x v) 32 (FAT_entry_location s x i) 4 =
      (readFromFileSystem s 32 (FAT_entry_location s x i) 4 &&& 0xF0000000) ||| (v &&& FAT_MASK) :=
  read32_setFATEntryLoop s hw x v hx _ (le_refl _) i hi

theorem getFATEntry_setFreeClusterCount (s : FileSystem) (hw : WellFormed s) (cnt x : Nat)
    (hx : x < total_cluster_count s) :
    getFATEntry (setFreeClusterCount s cnt) x = getFATEntry s x := by
  rw [getFATEntry_loc, getFATEntry_loc,
    FAT_entry_location_congr s _ (setFreeClusterCount_bpb s cnt),
    read32_setFreeClusterCount_fat s hw cnt x 0 hx hw.fats_pos]

theorem and_FAT_MASK_of_lt (n : Nat) (h : n < 268435456) : n &&& FAT_MASK = n := by
  have h1 : FAT_MASK = 2 ^ 28 - 1 := by decide
  rw [h1, Nat.and_pow_two_sub_one_eq_mod]
  exact Nat.mod_eq_of_lt (by simpa using h)

/-! ### allocateCluster on a volume with a free cluster -/

theorem allocateCluster_spec (s : FileSystem) (hw : WellFormed s)
    (h28 : total_cluster_count s ≤ 268435456) (prev : Nat)
    (hprev : prev = 0 ∨ (prev < total_cluster_count s ∧ getFATEntry s prev ≠ 0))
    (hfree : ∃ c, 2 ≤ c ∧ c < total_cluster_count s ∧ getFATEntry s c = 0)
    (hcnt : 0 < s.m_fsinfo.free_cluster_count) :
    ∃ s1 n, allocateCluster s prev = some (s1, n) ∧
      (2 ≤ n ∧ n < total_cluster_count s ∧ getFATEntry s n = 0) ∧
      getFATEntry s1 n = EOC ∧
      (prev ≠ 0 → getFATEntry s1 prev = n) ∧
      (∀ x, x < total_cluster_count s → x ≠ n → (prev = 0 ∨ x ≠ prev) →
        getFATEntry s1 x = getFATEntry s x) ∧
      s1.m_fsinfo.free_cluster_count = s.m_fsinfo.free_cluster_count - 1 ∧
      readFromFileSystem s1 32 (s.m_bpb.fsinfo * s.m_bpb.bytes_per_sector + 488) 4 =
        s.m_fsinfo.free_cluster_count - 1 := by
  obtain ⟨n, hn, h2, hlt, hz, _⟩ := (getFreeCluster_spec s).1 hcnt hfree
  have hclt := hw.count_lt
  have hu : u32 (s.m_fsinfo.free_cluster_count + 4294967295) =
      s.m_fsinfo.free_cluster_count - 1 := by unfold u32; omega
  have hE : EOC &&& FAT_MASK = EOC := by decide
  unfold allocateCluster
  rw [hn]
  by_cases hp : prev = 0
  · -- nothing is linked
    have hif : (if prev ≠ 0 then setFATEntry s prev n else s) = s := by rw [if_neg (by simpa using hp)]
    simp only [hif, setFATEntry_fsinfo, hu]
    have hw2 : WellFormed (setFATEntry s n EOC) :=
      wellFormed_congr s _ hw (by simp) (by simp) (by simp) (by simpa using hclt)
    have ht2 : total_cluster_count (setFATEntry s n EOC) = total_cluster_count s :=
      total_cluster_count_congr s _ (by simp) (by simp)
    refine ⟨_, _, rfl, ⟨h2, hlt, hz⟩, ?_, ?_, ?_, ?_, ?_⟩
    · rw [getFATEntry_setFreeClusterCount _ hw2 _ _ (by rw [ht2]; exact hlt),
        getFATEntry_setFATEntry_same s hw n EOC hlt, hE]
    · intro h; exact absurd hp h
    · intro x hx hxn _
      rw [getFATEntry_setFreeClusterCount _ hw2 _ _ (by rw [ht2]; exact hx),
        getFATEntry_setFATEntry_other s hw n EOC x hlt hx hxn]
    · simp
    · have := read32_setFreeClusterCount_same (setFATEntry s n EOC)
        (s.m_fsinfo.free_cluster_count - 1)
      rw [setFATEntry_bpb] at this
      rw [this]
      exact Nat.mod_eq_of_lt (by omega)
  · -- the previous tail is linked to the new cluster
    obtain ⟨hplt, hpz⟩ : prev < total_cluster_count s ∧ getFATEntry s prev ≠ 0 := by
      rcases hprev with h | h
      · exact absurd h hp
      · exact h
    have hpn : prev ≠ n := fun e => hpz (e ▸ hz)
    have hif : (if prev ≠ 0 then setFATEntry s prev n else s) = setFATEntry s prev n := by
      rw [if_pos hp]
    simp only [hif, setFATEntry_fsinfo, hu]
    have hw1 : WellFormed (setFATEntry s prev n) :=
      wellFormed_congr s _ hw (by simp) (by simp) (by simp) (by simpa using hclt)
    have ht1 : total_cluster_count (setFATEntry s prev n) = total_cluster_count s :=
      total_cluster_count_congr s _ (by simp) (by simp)
    have hw2 : WellFormed (setFATEntry (setFATEntry s prev n) n EOC) :=
      wellFormed_congr s _ hw (by simp) (by simp) (by simp) (by simpa using hclt)
    have ht2 : total_cluster_count (setFATEntry (setFATEntry s prev n) n EOC) =
        total_cluster_count s := total_cluster_count_congr s _ (by simp) (by simp)
    refine ⟨_, _, rfl, ⟨h2, hlt, hz⟩, ?_, ?_, ?_, ?_, ?_⟩
    · rw [getFATEntry_setFreeClusterCount _ hw2 _ _ (by rw [ht2]; exact hlt),
        getFATEntry_setFATEntry_same _ hw1 n EOC (by rw [ht1]; exact hlt), hE]
    · intro _
      rw [getFATEntry_setFreeClusterCount _ hw2 _ _ (by rw [ht2]; exact hplt),
        getFATEntry_setFATEntry_other _ hw1 n EOC prev (by rw [ht1]; exact hlt)
          (by rw [ht1]; exact hplt) hpn,
        getFATEntry_setFATEntry_same s hw prev n hplt]
      exact and_FAT_MASK_of_lt n (by omega)
    · intro x hx hxn hxp
      have hxp' : x ≠ prev := by
        rcases hxp with h | h
        · exact absurd h hp
        · exact h
      rw [getFATEntry_setFreeClusterCount _ hw2 _ _ (by rw [ht2]; exact hx),
        getFATEntry_setFATEntry_other _ hw1 n EOC x (by rw [ht1]; exact hlt)
          (by rw [ht1]; exact hx) hxn,
        getFATEntry_setFATEntry_other s hw prev n x hplt hx hxp']
    · simp
    · have := read32_setFreeClusterCount_same (setFATEntry (setFATEntry s prev n) n EOC)
        (s.m_fsinfo.free_cluster_count - 1)
      rw [setFATEntry_bpb, setFATEntry_bpb] at this
      rw [this]
      exact Nat.mod_eq_of_lt (by omega)

/-! ### Releasing a chain -/

theorem getClusterChain_ne_nil (fuel : Nat) (s : FileSystem) (c : Nat) (chain : List Nat)
    (h : getClusterChain fuel s c = some chain) : chain ≠ [] := by
  cases fuel with
  | zero => rw [getClusterChain] at h; cases h
  | succ f =>
    rw [getClusterChain] at h
    by_cases hlt : getFATEntry s c < EOC
    · rw [if_pos hlt] at h
      cases hg : getClusterChain f s (getFATEntry s c) with
      | none => rw [hg] at h; cases h
      | some r =>
        rw [hg, Option.map_some'] at h
        injection h with h
        rw [← h]
        exact List.cons_ne_nil _ _
    · rw [if_neg hlt] at h
      injection h with h
      rw [← h]
      exact List.cons_ne_nil _ _


theorem freeClusters_cons (c : Nat) (rest : List Nat) (s : FileSystem) :
    freeClusters (c :: rest) s =
      freeClusters rest (setFreeClusterCount (setFATEntry s c FREE_CLUSTER)
        (u32 (s.m_fsinfo.free_cluster_count + 1))) := by
  rw [freeClusters]
  simp only [setFATEntry_fsinfo]

theorem masked_cleared_word (old : Nat) :
    ((old &&& 0xF0000000) ||| (FREE_CLUSTER &&& FAT_MASK)) &&& FAT_MASK = 0 := by
  have h := fat_word_masked old FREE_CLUSTER
  rw [Nat.mod_eq_of_lt (fat_word_lt old FREE_CLUSTER)] at h
  rw [Nat.and_comm, h]
  decide

/-- The state after the loop of `deleteDirectoryEntry` over clusters of the volume: the
geometry is kept, the count has grown by the number of clusters, the word of a listed
cluster has its low 28 bits cleared in every mirror, the other words are kept, and FSInfo
holds the new count. -/
theorem freeClusters_spec (l : List Nat) :
    ∀ (s : FileSystem), WellFormed s → (∀ x ∈ l, x < total_cluster_count s) →
      s.m_fsinfo.free_cluster_count + l.length < 4294967296 →
      ((freeClusters l s).m_bpb = s.m_bpb ∧
        (freeClusters l s).m_bytes_per_cluster = s.m_bytes_per_cluster ∧
        (freeClusters l s).m_first_data_sector = s.m_first_data_sector) ∧
      (freeClusters l s).m_fsinfo.free_cluster_count = s.m_fsinfo.free_cluster_count + l.length ∧
      (∀ x i, x < total_cluster_count s → i < s.m_bpb.num_FATS → x ∉ l →
        readFromFileSystem (freeClusters l s) 32 (FAT_entry_location s x i) 4 =
          readFromFileSystem s 32 (FAT_entry_location s x i) 4) ∧
      (∀ x i, x ∈ l → i < s.m_bpb.num_FATS →
        readFromFileSystem (freeClusters l s) 32 (FAT_entry_location s x i) 4 &&& FAT_MASK = 0) ∧
      (l ≠ [] →
        readFromFileSystem (freeClusters l s) 32
          (s.m_bpb.fsinfo * s.m_bpb.bytes_per_sector + 488) 4 =
            s.m_fsinfo.free_cluster_count + l.length) := by
  induction l with
  | nil =>
    intro s _ _ _
    refine ⟨⟨rfl, rfl, rfl⟩, rfl, fun _ _ _ _ _ => rfl, ?_, fun h => absurd rfl h⟩
    intro x i hx
    cases hx
  | cons c rest ih =>
    intro s hw hvol hcnt
    rw [List.length_cons] at hcnt
    have hc : c < total_cluster_count s := hvol c (List.mem_cons_self _ _)
    have hu : u32 (s.m_fsinfo.free_cluster_count + 1) = s.m_fsinfo.free_cluster_count + 1 :=
      u32_of_lt (by omega)
    rw [freeClusters_cons, hu]
    -- the state after one step
    have hwA : WellFormed (setFATEntry s c FREE_CLUSTER) :=
      wellFormed_congr s _ hw (by simp) (by simp) (by simp) (by simpa using hw.count_lt)
    have htA : total_cluster_count (setFATEntry s c FREE_CLUSTER) = total_cluster_count s :=
      total_cluster_count_congr s _ (by simp) (by simp)
    have hw1 : WellFormed (setFreeClusterCount (setFATEntry s c FREE_CLUSTER)
        (s.m_fsinfo.free_cluster_count + 1)) :=
      wellFormed_congr s _ hw (by simp) (by simp) (by simp) (by simp; omega)
    have ht1 : total_cluster_count (setFreeClusterCount (setFATEntry s c FREE_CLUSTER)
        (s.m_fsinfo.free_cluster_count + 1)) = total_cluster_count s :=
      total_cluster_count_congr s _ (by simp) (by simp)
    have hloc : ∀ x i, FAT_entry_location (setFreeClusterCount (setFATEntry s c FREE_CLUSTER)
        (s.m_fsinfo.free_cluster_count + 1)) x i = FAT_entry_location s x i :=
      fun x i => FAT_entry_location_congr s _ (by simp) x i
    have hlocA : ∀ x i, FAT_entry_location (setFATEntry s c FREE_CLUSTER) x i =
        FAT_entry_location s x i := fun x i => FAT_entry_location_congr s _ (by simp) x i
    -- the words after one step
    have hstep_other : ∀ x i, x < total_cluster_count s → i < s.m_bpb.num_FATS → x ≠ c →
        readFromFileSystem (setFreeClusterCount (setFATEntry s c FREE_CLUSTER)
          (s.m_fsinfo.free_cluster_count + 1)) 32 (FAT_entry_location s x i) 4 =
          readFromFileSystem s 32 (FAT_entry_location s x i) 4 := by
      intro x i hx hi hne
      have h1 := read32_setFreeClusterCount_fat _ hwA (s.m_fsinfo.free_cluster_count + 1) x i
        (by rw [htA]; exact hx) (by simpa using hi)
      rw [hlocA] at h1
      rw [h1, read32_setFATEntry_other s hw x c FREE_CLUSTER i hx hc hne hi]
    have hstep_same : ∀ i, i < s.m_bpb.num_FATS →
        readFromFileSystem (setFreeClusterCount (setFATEntry s c FREE_CLUSTER)
          (s.m_fsinfo.free_cluster_count + 1)) 32 (FAT_entry_location s c i) 4 &&& FAT_MASK = 0 := by
      intro i hi
      have h1 := read32_setFreeClusterCount_fat _ hwA (s.m_fsinfo.free_cluster_count + 1) c i
        (by rw [htA]; exact hc) (by simpa using hi)
      rw [hlocA] at h1
      rw [h1, read32_setFATEntry_same s hw c FREE_CLUSTER i hc hi]
      exact masked_cleared_word _
    obtain ⟨⟨g1, g2, g3⟩, hcount, hother, hsame, hinfo⟩ :=
      ih _ hw1 (fun x hx => by rw [ht1]; exact hvol x (List.mem_cons_of_mem _ hx))
        (by simp; omega)
    simp only [setFreeClusterCount_bpb, setFATEntry_bpb, setFreeClusterCount_bpc, setFATEntry_bpc,
      setFreeClusterCount_fds, setFATEntry_fds] at g1 g2 g3
    simp only [setFreeClusterCount_count] at hcount
    simp only [setFreeClusterCount_bpb, setFATEntry_bpb, ht1, hloc] at hother hsame
    simp only [setFreeClusterCount_bpb, setFATEntry_bpb, setFreeClusterCount_count] at hinfo
    refine ⟨⟨g1, g2, g3⟩, by rw [hcount, List.length_cons]; omega, ?_, ?_, ?_⟩
    · intro x i hx hi hnot
      rw [hother x i hx hi (fun h => hnot (List.mem_cons_of_mem _ h))]
      exact hstep_other x i hx hi (fun h => hnot (h ▸ List.mem_cons_self _ _))
    · intro x i hx hi
      by_cases hr : x ∈ rest
      · exact hsame x i hr hi
      · have hxc : x = c := by
          rcases List.mem_cons.mp hx with h | h
          · exact h
          · exact absurd h hr
        subst hxc
        rw [hother x i hc hi hr]
        exact hstep_same i hi
    · intro _
      by_cases hr : rest = []
      · subst hr
        rw [freeClusters]
        have := read32_setFreeClusterCount_same (setFATEntry s c FREE_CLUSTER)
          (s.m_fsinfo.free_cluster_count + 1)
        rw [setFATEntry_bpb] at this
        rw [this, List.length_cons, List.length_nil]
        exact Nat.mod_eq_of_lt (by omega)
      · rw [hinfo hr, List.length_cons]; omega

theorem convertToShortName_deleted :
    (convertToShortName [LAST_FREE_DIR_ENTRY]).getD 0 0 % 256 = 0 := by decide

/-- The function `deleteDirectoryEntry` on an entry of the data region whose chain lies in
the volume. -/
theorem deleteDirectoryEntry_spec (fuel : Nat) (s : FileSystem) (e : DirectoryEntry)
    (chain : List Nat) (hw : WellFormed s)
    (hchain : getClusterChain fuel s e.cluster = some chain)
    (hvol : ∀ x ∈ chain, x < total_cluster_count s)
    (hcnt : s.m_fsinfo.free_cluster_count + chain.length < 4294967296)
    (hdata : s.m_first_data_sector * s.m_bpb.bytes_per_sector ≤ e.mem_location)
    (hloc : e.mem_location + 32 ≤ 4294967296) :
    ∃ s1, deleteDirectoryEntry fuel s e = some s1 ∧
      (∀ x i, x ∈ chain → i < s.m_bpb.num_FATS →
        readFromFileSystem s1 32 (FAT_entry_location s x i) 4 &&& FAT_MASK = 0) ∧
      (∀ x, x ∈ chain → getFATEntry s1 x = 0) ∧
      s1.m_fsinfo.free_cluster_count = s.m_fsinfo.free_cluster_count + chain.length ∧
      readFromFileSystem s1 32 (s.m_bpb.fsinfo * s.m_bpb.bytes_per_sector + 488) 4 =
        s.m_fsinfo.free_cluster_count + chain.length ∧
      byteAt s1 e.mem_location = LAST_FREE_DIR_ENTRY ∧
      (∀ x i, x < total_cluster_count s → i < s.m_bpb.num_FATS → x ∉ chain →
        readFromFileSystem s1 32 (FAT_entry_location s x i) 4 =
          readFromFileSystem s 32 (FAT_entry_location s x i) 4) ∧
      (∀ x, x < total_cluster_count s → x ∉ chain → getFATEntry s1 x = getFATEntry s x) := by
  have hne : chain ≠ [] := getClusterChain_ne_nil fuel s _ chain hchain
  obtain ⟨⟨g1, g2, g3⟩, hcount, hother, hsame, hinfo⟩ := freeClusters_spec chain.reverse s hw
    (fun x hx => hvol x (List.mem_reverse.mp hx)) (by rw [List.length_reverse]; exact hcnt)
  rw [List.length_reverse] at hcount hinfo
  have hne' : chain.reverse ≠ [] := by
    intro h; exact hne (List.reverse_eq_nil_iff.mp h)
  unfold deleteDirectoryEntry
  rw [hchain]
  -- the slot lies above the FAT region and the FSInfo sector
  have hframe : ∀ a, a + 4 ≤ s.m_first_data_sector * s.m_bpb.bytes_per_sector →
      readFromFileSystem (writeDirectoryEntry (freeClusters chain.reverse s)
        { e with name := [LAST_FREE_DIR_ENTRY] }) 32 a 4 =
      readFromFileSystem (freeClusters chain.reverse s) 32 a 4 := by
    intro a ha
    apply read32_congr
    intro k hk
    exact byteAt_writeDirectoryEntry_of_outside (freeClusters chain.reverse s)
      { e with name := [LAST_FREE_DIR_ENTRY] } (a + k) hloc
      (Or.inl (show a + k < e.mem_location by omega))
  have hfatloc : ∀ x i, x < total_cluster_count s → i < s.m_bpb.num_FATS →
      FAT_entry_location s x i + 4 ≤ s.m_first_data_sector * s.m_bpb.bytes_per_sector :=
    fun x i hx hi => (fat_loc_bounds s hw x i hx hi).2
  have hinfoloc : s.m_bpb.fsinfo * s.m_bpb.bytes_per_sector + 488 + 4 ≤
      s.m_first_data_sector * s.m_bpb.bytes_per_sector := by
    have h1 := hw.fsinfo_reserved
    have h2 := (fat_loc_bounds s hw 0 0 (by
      have := hvol _ (List.getLast_mem hne); omega) hw.fats_pos).1
    have h3 := hfatloc 0 0 (by have := hvol _ (List.getLast_mem hne); omega) hw.fats_pos
    omega
  have hgl : ∀ x, getFATEntry (writeDirectoryEntry (freeClusters chain.reverse s)
        { e with name := [LAST_FREE_DIR_ENTRY] }) x = FAT_MASK &&&
      readFromFileSystem (writeDirectoryEntry (freeClusters chain.reverse s)
        { e with name := [LAST_FREE_DIR_ENTRY] }) 32 (FAT_entry_location s x 0) 4 := by
    intro x
    rw [getFATEntry_loc, FAT_entry_location_congr s _ (by rw [writeDirectoryEntry_bpb, g1])]
  refine ⟨_, rfl, ?_, ?_, ?_, ?_, ?_, ?_, ?_⟩
  · intro x i hx hi
    rw [hframe _ (hfatloc x i (hvol x hx) hi)]
    exact hsame x i (List.mem_reverse.mpr hx) hi
  · intro x hx
    rw [hgl, hframe _ (hfatloc x 0 (hvol x hx) hw.fats_pos), Nat.and_comm]
    exact hsame x 0 (List.mem_reverse.mpr hx) hw.fats_pos
  · rw [writeDirectoryEntry_fsinfo, hcount]
  · rw [hframe _ hinfoloc]
    exact hinfo hne'
  · rw [byteAt_writeDirectoryEntry (freeClusters chain.reverse s)
      { e with name := [LAST_FREE_DIR_ENTRY] } e.mem_location hloc]
    repeat rw [if_neg (by simp only []; omega)]
    rw [if_pos (by simp only []; omega)]
    simp only [Nat.sub_self]
    exact convertToShortName_deleted
  · intro x i hx hi hnot
    rw [hframe _ (hfatloc x i hx hi)]
    exact hother x i hx hi (fun h => hnot (List.mem_reverse.mp h))
  · intro x hx hnot
    rw [hgl, hframe _ (hfatloc x 0 hx hw.fats_pos),
      hother x 0 hx hw.fats_pos (fun h => hnot (List.mem_reverse.mp h)), getFATEntry_loc]

/-! ## New entries, the open-file table, files without a cluster, short names -/

/-! ### The bytes of a short name -/

theorem padUpper_getD (k : Nat) (str : Str) (i : Nat) (hi : i < k) :
    (padUpper k str).getD i 0 = if i < str.length then toupper (str.getD i 0) else 0x20 := by
  unfold padUpper
  rw [List.getD_eq_getElem _ _ (by rw [List.length_map, List.length_range]; exact hi)]
  simp only [List.getElem_map, List.getElem_range]

theorem padUpper_length (k : Nat) (str : Str) : (padUpper k str).length = k := by
  unfold padUpper
  rw [List.length_map, List.length_range]

theorem findDot_lt (n : Str) (d : Nat) (h : findDot n = some d) : d < n.length := by
  unfold findDot at h
  split_ifs at h with hlt
  cases h
  exact hlt

theorem convertToShortName_bytes (n : Str) :
    (convertToShortName n).length = 11 ∧
    (n = [0x2E] → convertToShortName n = 0x2E :: List.replicate 10 0x20) ∧
    (n = [0x2E, 0x2E] → convertToShortName n = 0x2E :: 0x2E :: List.replicate 9 0x20) ∧
    (n ≠ [0x2E] → n ≠ [0x2E, 0x2E] → ∀ d, findDot n = some d →
      (∀ i, i < 8 → (convertToShortName n).getD i 0 =
        if i < d then toupper (n.getD i 0) else 0x20) ∧
      (∀ j, j < 3 → (convertToShortName n).getD (8 + j) 0 =
        if d + 1 + j < n.length then toupper (n.getD (d + 1 + j) 0) else 0x20)) ∧
    (n ≠ [0x2E] → n ≠ [0x2E, 0x2E] → findDot n = none →
      ∀ i, i < 11 → (convertToShortName n).getD i 0 =
        if i < n.length then toupper (n.getD i 0) else 0x20) := by
  refine ⟨convertToShortName_length n, ?_, ?_, ?_, ?_⟩
  · intro h
    unfold convertToShortName
    rw [if_pos h]
  · intro h
    have h1 : n ≠ [0x2E] := by rw [h]; decide
    unfold convertToShortName
    rw [if_neg h1, if_pos h]
  · intro h1 h2 d hd
    have hdl := findDot_lt n d hd
    have hcs : convertToShortName n = padUpper 8 (n.take d) ++ padUpper 3 (n.drop (d + 1)) := by
      unfold convertToShortName
      rw [if_neg h1, if_neg h2, hd]
    have htl : (n.take d).length = d := by rw [List.length_take]; omega
    have hdl2 : (n.drop (d + 1)).length = n.length - (d + 1) := List.length_drop _ _
    constructor
    · intro i hi
      rw [hcs, List.getD_append _ _ _ _ (by rw [padUpper_length]; exact hi), padUpper_getD _ _ _ hi,
        htl]
      by_cases hid : i < d
      · rw [if_pos hid, if_pos hid]
        congr 1
        rw [List.getD_eq_getElem _ _ (by omega), List.getD_eq_getElem _ _ (by omega)]
        exact List.getElem_take _
      · rw [if_neg hid, if_neg hid]
    · intro j hj
      rw [hcs, List.getD_append_right _ _ _ _ (by rw [padUpper_length]; omega), padUpper_length,
        show 8 + j - 8 = j by omega, padUpper_getD _ _ _ hj, hdl2]
      by_cases hjd : d + 1 + j < n.length
      · rw [if_pos (by omega), if_pos hjd]
        congr 1
        rw [List.getD_eq_getElem _ _ (by omega), List.getD_eq_getElem _ _ hjd]
        exact List.getElem_drop _
      · rw [if_neg (by omega), if_neg hjd]
  · intro h1 h2 hd i hi
    have hcs : convertToShortName n = padUpper 11 n := by
      unfold convertToShortName
      rw [if_neg h1, if_neg h2, hd]
    rw [hcs, padUpper_getD _ _ _ hi]

/-! ### Removing a file without a cluster -/

theorem two_le_total_cluster_count (s : FileSystem) (hw : WellFormed s) :
    2 ≤ total_cluster_count s := by
  have hT : s.m_bpb.total_sectors < 4294967296 :=
    lt_of_le_of_lt (Nat.le_mul_of_pos_right _ hw.bps_pos) hw.addressable
  have hadd := hw.addressable
  have hfr := hw.fsinfo_reserved
  have hle := hw.fds_le
  have hfds := hw.fds_eq
  have hdiv : (s.m_bpb.total_sectors - s.m_first_data_sector) / s.m_bpb.sectors_per_cluster ≤
      s.m_bpb.total_sectors - s.m_first_data_sector := Nat.div_le_self _ _
  have hD : 2 ≤ s.m_first_data_sector ∨ s.m_bpb.total_sectors < 2147483648 := by
    by_cases hb : s.m_bpb.bytes_per_sector = 1
    · left
      rw [hb] at hfr
      omega
    · right
      have h2 : 2 ≤ s.m_bpb.bytes_per_sector := by have := hw.bps_pos; omega
      have : s.m_bpb.total_sectors * 2 ≤ s.m_bpb.total_sectors * s.m_bpb.bytes_per_sector :=
        Nat.mul_le_mul_left _ h2
      omega
  unfold total_cluster_count
  rw [sub32_of_le hw.fds_le hT, u32_of_lt (by omega)]
  exact Nat.le_add_left 2 _

theorem getClusterChain_zero_loop (s : FileSystem) (h : getFATEntry s 0 = 0) :
    ∀ fuel, getClusterChain fuel s 0 = none := by
  intro fuel
  induction fuel with
  | zero => rfl
  | succ f ih =>
    rw [getClusterChain, h, if_pos (by decide), ih]
    rfl

/-- The function `deleteDirectoryEntry` on an entry with the cluster field 0 when the FAT
entry 0 is at least EOC: the chain is `[0]`. -/
theorem deleteDirectoryEntry_sentinel (fuel : Nat) (t : FileSystem) (f : DirectoryEntry)
    (hw : WellFormed t) (hcl : f.cluster = 0) (hfat : EOC ≤ getFATEntry t 0) (hfuel : 0 < fuel)
    (hcnt : t.m_fsinfo.free_cluster_count + 1 < 4294967296)
    (hdata : t.m_first_data_sector * t.m_bpb.bytes_per_sector ≤ f.mem_location)
    (hloc : f.mem_location + 32 ≤ 4294967296) :
    ∃ s2, deleteDirectoryEntry fuel t f = some s2 ∧
      (∀ i, i < t.m_bpb.num_FATS →
        readFromFileSystem s2 32 (FAT_entry_location t 0 i) 4 &&& FAT_MASK = 0) ∧
      s2.m_fsinfo.free_cluster_count = t.m_fsinfo.free_cluster_count + 1 ∧
      readFromFileSystem s2 32 (t.m_bpb.fsinfo * t.m_bpb.bytes_per_sector + 488) 4 =
        t.m_fsinfo.free_cluster_count + 1 ∧
      getFATEntry s2 0 = 0 ∧
      (∀ x, x < total_cluster_count t → x ≠ 0 → getFATEntry s2 x = getFATEntry t x) ∧
      (∀ fuel1, getClusterChain fuel1 s2 0 = none) ∧
      (∀ m, getFATEntry s2 ((getFATEntry s2)^[m] 0) < EOC) ∧
      s2.m_open_file_table = t.m_open_file_table := by
  have htcc := two_le_total_cluster_count t hw
  have hchain : getClusterChain fuel t f.cluster = some [0] := by
    rw [hcl]; exact getClusterChain_single fuel t 0 hfuel hfat
  obtain ⟨s2, hdel, hmir, hz, hc, hinfo, _, _, hother⟩ := deleteDirectoryEntry_spec fuel t f [0] hw
    hchain (fun x hx => by rw [List.mem_singleton] at hx; omega) (by simpa using hcnt) hdata hloc
  have hz0 : getFATEntry s2 0 = 0 := hz 0 (List.mem_singleton.mpr rfl)
  refine ⟨s2, hdel, fun i hi => hmir 0 i (List.mem_singleton.mpr rfl) hi, by simpa using hc,
    by simpa using hinfo, hz0, ?_, getClusterChain_zero_loop s2 hz0, ?_, ?_⟩
  · intro x hx hne
    exact hother x hx (by rw [List.mem_singleton]; exact hne)
  · intro m
    rw [Function.iterate_fixed hz0 m, hz0]
    decide
  · unfold deleteDirectoryEntry at hdel
    rw [hchain] at hdel
    injection hdel with hdel
    rw [← hdel]
    simp [freeClusters]

/-- The function `rm` on a name found as a file with the cluster field 0. -/
theorem rm_sentinel_file (fuel : Nat) (s : FileSystem) (n : Str) (f : DirectoryEntry)
    (hw : WellFormed s) (hname : isValidEntryName n = true)
    (hfde : findDirectoryEntry fuel s n s.m_current_directory_cluster = some (some f))
    (hfile : isFile f = true) (hcl : f.cluster = 0) (hfat : EOC ≤ getFATEntry s 0)
    (hfuel : 0 < fuel) (hcnt : s.m_fsinfo.free_cluster_count + 1 < 4294967296)
    (hdata : s.m_first_data_sector * s.m_bpb.bytes_per_sector ≤ f.mem_location)
    (hloc : f.mem_location + 32 ≤ 4294967296) :
    ∃ s2, rm fuel s n = Result.returned s2 Report.silent ∧
      (∀ i, i < s.m_bpb.num_FATS →
        readFromFileSystem s2 32 (FAT_entry_location s 0 i) 4 &&& FAT_MASK = 0) ∧
      s2.m_fsinfo.free_cluster_count = s.m_fsinfo.free_cluster_count + 1 ∧
      readFromFileSystem s2 32 (s.m_bpb.fsinfo * s.m_bpb.bytes_per_sector + 488) 4 =
        s.m_fsinfo.free_cluster_count + 1 ∧
      getFATEntry s2 0 = 0 ∧
      (∀ x, x < total_cluster_count s → x ≠ 0 → getFATEntry s2 x = getFATEntry s x) ∧
      (∀ fuel1, getClusterChain fuel1 s2 0 = none) ∧
      (∀ m, getFATEntry s2 ((getFATEntry s2)^[m] 0) < EOC) := by
  unfold rm
  simp only [hname, hfde, Bool.not_true, Bool.false_eq_true, if_false, hfile, if_true]
  by_cases htab : (tableFind s.m_open_file_table f).isSome = true
  · rw [if_pos htab]
    have hw1 : WellFormed { s with m_open_file_table := tableErase s.m_open_file_table f } :=
      wellFormed_congr s _ hw rfl rfl rfl hw.count_lt
    obtain ⟨s2, hdel, h1, h2, h3, h4, h5, h6, h7, _⟩ := deleteDirectoryEntry_sentinel fuel
      { s with m_open_file_table := tableErase s.m_open_file_table f } f hw1 hcl
      (by rw [getFATEntry_with_table]; exact hfat) hfuel hcnt hdata hloc
    exact ⟨s2, by rw [hdel], h1, h2, h3, h4, h5, h6, h7⟩
  · rw [if_neg htab]
    obtain ⟨s2, hdel, h1, h2, h3, h4, h5, h6, h7, _⟩ := deleteDirectoryEntry_sentinel fuel s f hw hcl
      hfat hfuel hcnt hdata hloc
    exact ⟨s2, by rw [hdel], h1, h2, h3, h4, h5, h6, h7⟩

/-! ### The open-file table -/

theorem tableFind_eq_none (t : List (DirectoryEntry × Str)) (key : DirectoryEntry) :
    tableFind t key = none ↔ ∀ p ∈ t, p.1.name ≠ key.name := by
  unfold tableFind
  rw [List.find?_eq_none]
  constructor
  · intro h p hp e
    exact h p hp (by simpa using e)
  · intro h p hp e
    exact h p hp (by simpa using e)

theorem mem_tableErase (t : List (DirectoryEntry × Str)) (key : DirectoryEntry)
    (p : DirectoryEntry × Str) :
    p ∈ tableErase t key ↔ p ∈ t ∧ p.1.name ≠ key.name := by
  unfold tableErase
  rw [List.mem_filter]
  simp

theorem uniqueNames_tableErase (t : List (DirectoryEntry × Str)) (key : DirectoryEntry)
    (h : uniqueNames t) : uniqueNames (tableErase t key) := by
  unfold uniqueNames tableErase at *
  exact List.Nodup.sublist (List.Sublist.map _ (List.filter_sublist t)) h

theorem tableInsert_perm (t : List (DirectoryEntry × Str)) (key : DirectoryEntry) (mode : Str) :
    List.Perm (tableInsert t key mode) ((key, mode) :: t) := by
  induction t with
  | nil => exact List.Perm.refl _
  | cons p rest ih =>
    rw [tableInsert]
    split_ifs
    · exact List.Perm.refl _
    · exact List.Perm.trans (List.Perm.cons p ih) (List.Perm.swap _ _ _)

theorem uniqueNames_tableInsert (t : List (DirectoryEntry × Str)) (key : DirectoryEntry)
    (mode : Str) (h : uniqueNames t) (hnew : ∀ p ∈ t, p.1.name ≠ key.name) :
    uniqueNames (tableInsert t key mode) := by
  unfold uniqueNames at *
  have hp := List.Perm.map (fun p : DirectoryEntry × Str => p.1.name) (tableInsert_perm t key mode)
  rw [List.Perm.nodup_iff hp, List.map_cons, List.nodup_cons]
  refine ⟨?_, h⟩
  intro hmem
  obtain ⟨p, hp1, hp2⟩ := List.mem_map.mp hmem
  exact hnew p hp1 hp2

theorem uniqueNames_tableAssign (t : List (DirectoryEntry × Str)) (key : DirectoryEntry)
    (mode : Str) (h : uniqueNames t) : uniqueNames (tableAssign t key mode) := by
  unfold tableAssign
  split_ifs with hf
  · unfold uniqueNames at *
    rw [List.map_map]
    have : ((fun p : DirectoryEntry × Str => p.1.name) ∘
        fun p : DirectoryEntry × Str => if (p.1.name == key.name) = true then (p.1, mode) else p) =
        fun p => p.1.name := by
      funext p
      simp only [Function.comp]
      split_ifs <;> rfl
    rw [this]
    exact h
  · have hnone : tableFind t key = none := by
      cases hq : tableFind t key with
      | none => rfl
      | some q => rw [hq] at hf; simp at hf
    exact uniqueNames_tableInsert t key mode h ((tableFind_eq_none t key).mp hnone)

theorem tableEraseFirst_sublist (t : List (DirectoryEntry × Str)) (n : Str) :
    List.Sublist (tableEraseFirst t n) t := by
  induction t with
  | nil => exact List.Sublist.refl _
  | cons p rest ih =>
    rw [tableEraseFirst]
    split_ifs
    · exact List.sublist_cons_self _ _
    · exact List.Sublist.cons₂ _ ih

theorem uniqueNames_tableEraseFirst (t : List (DirectoryEntry × Str)) (n : Str)
    (h : uniqueNames t) : uniqueNames (tableEraseFirst t n) := by
  unfold uniqueNames at *
  exact List.Nodup.sublist (List.Sublist.map _ (tableEraseFirst_sublist t n)) h

/-! ### The table is not touched by the FAT and directory code -/

theorem freeClusters_table (l : List Nat) :
    ∀ s : FileSystem, (freeClusters l s).m_open_file_table = s.m_open_file_table := by
  induction l with
  | nil => intro s; rfl
  | cons c rest ih =>
    intro s
    rw [freeClusters, ih]
    simp

theorem deleteDirectoryEntry_table (fuel : Nat) (s : FileSystem) (e : DirectoryEntry)
    (s2 : FileSystem) (h : deleteDirectoryEntry fuel s e = some s2) :
    s2.m_open_file_table = s.m_open_file_table := by
  unfold deleteDirectoryEntry at h
  cases hc : getClusterChain fuel s e.cluster with
  | none => rw [hc] at h; cases h
  | some chain =>
    rw [hc] at h
    injection h with h
    rw [← h, writeDirectoryEntry_table, freeClusters_table]

theorem allocateCluster_table (s : FileSystem) (prev : Nat) (s1 : FileSystem) (n : Nat)
    (h : allocateCluster s prev = some (s1, n)) :
    s1.m_open_file_table = s.m_open_file_table := by
  unfold allocateCluster at h
  cases hf : getFreeCluster s with
  | none => rw [hf] at h; cases h
  | some c =>
    rw [hf] at h
    injection h with h
    injection h with h1 h2
    rw [← h1]
    by_cases hp : prev ≠ 0
    · simp [hp]
    · simp [hp]

theorem resizeLoop_table (size : Nat) :
    ∀ (n i : Nat) (s : FileSystem) (chain : List Nat) (s1 : FileSystem),
      (resizeLoop size n i s chain).state = some s1 →
      s1.m_open_file_table = s.m_open_file_table := by
  intro n
  induction n with
  | zero =>
    intro i s chain s1 h
    rw [resizeLoop] at h
    cases h
  | succ n ih =>
    intro i s chain s1 h
    rw [resizeLoop] at h
    split_ifs at h with hi
    · cases ha : allocateCluster s (chain.getLastD 0) with
      | none =>
        simp only [ha] at h
        cases h
        rfl
      | some p =>
        obtain ⟨s2, a⟩ := p
        simp only [ha] at h
        rw [ih _ _ _ _ h, allocateCluster_table s _ s2 a ha]
    · cases h
      rfl

theorem resizeClusterChain_table (s : FileSystem) (size : Nat) (chain : List Nat)
    (s1 : FileSystem) (h : (resizeClusterChain s size chain).state = some s1) :
    s1.m_open_file_table = s.m_open_file_table := by
  unfold resizeClusterChain at h
  split_ifs at h with h1 h2
  · cases h; rfl
  · cases ha : allocateCluster s 0 with
    | none =>
      simp only [ha] at h
      cases h
      rfl
    | some p =>
      obtain ⟨s2, a⟩ := p
      simp only [ha] at h
      rw [resizeLoop_table _ _ _ _ _ _ h, allocateCluster_table s 0 s2 a ha]
  · exact resizeLoop_table _ _ _ _ _ _ h

theorem writeInner_table (quoted_data : Str) (cluster_end : Nat) :
    ∀ (n j bw : Nat) (s : FileSystem),
      (writeInner quoted_data cluster_end n j bw s).1.m_open_file_table = s.m_open_file_table := by
  intro n
  induction n with
  | zero => intro j bw s; rfl
  | succ n ih =>
    intro j bw s
    rw [writeInner]
    split_ifs
    · rw [ih]; simp
    · rfl

theorem writeOuter_table (start_pos : Nat) (quoted_data : Str) (chain : List Nat) :
    ∀ (n i bw : Nat) (s : FileSystem),
      (writeOuter start_pos quoted_data chain n i bw s).m_open_file_table =
        s.m_open_file_table := by
  intro n
  induction n with
  | zero => intro i bw s; rfl
  | succ n ih =>
    intro i bw s
    rw [writeOuter]
    by_cases hc : i < chain.length ∧ bw < quoted_data.length
    · rw [if_pos hc]
      dsimp only
      rw [ih, writeInner_table]
    · rw [if_neg hc]

theorem updateFile_table (s : FileSystem) (file : DirectoryEntry) (sz : Nat) (chain : List Nat) :
    ∃ new_file mode, new_file.name = file.name ∧ new_file.size = sz ∧
      (updateFile s file sz chain).m_open_file_table =
        tableAssign (tableErase s.m_open_file_table file) new_file mode := by
  refine ⟨{ file with
      attr := u8 (file.attr ||| ATTR_ARCHIVE)
      cluster := formCluster (u16 (chain.headD 0 >>> 16)) (u16 (chain.headD 0 &&& 0x0000FFFF))
      size := sz },
    ((tableFind s.m_open_file_table file).map (fun p => p.2)).getD [], rfl, rfl, ?_⟩
  unfold updateFile
  simp only [writeToFileSystem_table]

theorem uniqueNames_writeData (s : FileSystem) (file : DirectoryEntry) (start_pos : Nat)
    (quoted_data : Str) (sz : Nat) (chain : List Nat) (h : uniqueNames s.m_open_file_table) :
    uniqueNames (writeData s file start_pos quoted_data sz chain).m_open_file_table := by
  unfold writeData
  simp only []
  rw [writeOuter_table]
  split_ifs
  · obtain ⟨nf, mode, _, _, ht⟩ := updateFile_table s file sz chain
    rw [ht]
    exact uniqueNames_tableAssign _ _ _ (uniqueNames_tableErase _ _ h)
  · exact h


/-! ### The table after the public functions -/

theorem findDirectoryEntry_file_name (fuel : Nat) (s : FileSystem) (n : Str) (c : Nat)
    (f : DirectoryEntry) (h : findDirectoryEntry fuel s n c = some (some f))
    (hfile : isFile f = true) : f.name = n := by
  unfold findDirectoryEntry at h
  split_ifs at h with h1 h2
  · injection h with h
    injection h with h
    rw [← h] at hfile
    simp [isFile, DirectoryEntry.blank, ATTR_DIRECTORY] at hfile
  · injection h with h
    injection h with h
    rw [← h] at hfile
    simp [isFile, DirectoryEntry.blank, ATTR_DIRECTORY] at hfile
  · cases hl : getDirectoryEntries fuel s c with
    | none => rw [hl] at h; cases h
    | some l =>
      rw [hl, Option.map_some'] at h
      injection h with h
      have := List.find?_some h
      simpa using this

theorem rm_table (fuel : Nat) (s : FileSystem) (n : Str) (s2 : FileSystem)
    (h : rm fuel s n = Result.returned s2 Report.silent) :
    (∀ p ∈ s2.m_open_file_table, p.1.name ≠ n) ∧
    (∀ p : DirectoryEntry × Str, p.1.name ≠ n →
      (p ∈ s2.m_open_file_table ↔ p ∈ s.m_open_file_table)) ∧
    (uniqueNames s.m_open_file_table → uniqueNames s2.m_open_file_table) := by
  unfold rm at h
  split_ifs at h with hv
  · cases h
  · cases hf : findDirectoryEntry fuel s n s.m_current_directory_cluster with
    | none => rw [hf] at h; cases h
    | some o =>
      cases o with
      | none => rw [hf] at h; cases h
      | some file =>
        rw [hf] at h
        dsimp only at h
        by_cases hfile : isFile file = true
        · rw [if_pos hfile] at h
          have hname := findDirectoryEntry_file_name fuel s n _ file hf hfile
          by_cases htab : (tableFind s.m_open_file_table file).isSome = true
          · rw [if_pos htab] at h
            cases hd : deleteDirectoryEntry fuel
                { s with m_open_file_table := tableErase s.m_open_file_table file } file with
            | none => rw [hd] at h; cases h
            | some s3 =>
              rw [hd] at h
              injection h with h1 h2
              have ht := deleteDirectoryEntry_table fuel _ file s3 hd
              rw [← h1, ht]
              refine ⟨?_, ?_, ?_⟩
              · intro p hp
                rw [← hname]
                exact ((mem_tableErase _ _ _).mp hp).2
              · intro p hp
                show p ∈ tableErase s.m_open_file_table file ↔ _
                rw [mem_tableErase, hname]
                exact ⟨fun hh => hh.1, fun hh => ⟨hh, hp⟩⟩
              · exact uniqueNames_tableErase _ _
          · rw [if_neg htab] at h
            cases hd : deleteDirectoryEntry fuel s file with
            | none => rw [hd] at h; cases h
            | some s3 =>
              rw [hd] at h
              injection h with h1 h2
              have ht := deleteDirectoryEntry_table fuel _ file s3 hd
              rw [← h1, ht]
              have hnone : tableFind s.m_open_file_table file = none := by
                cases hq : tableFind s.m_open_file_table file with
                | none => rfl
                | some q => rw [hq] at htab; simp at htab
              refine ⟨?_, fun p _ => Iff.rfl, fun hu => hu⟩
              intro p hp
              rw [← hname]
              exact (tableFind_eq_none _ _).mp hnone p hp
        · rw [if_neg hfile] at h
          cases h

theorem uniqueNames_rm (fuel : Nat) (s : FileSystem) (n : Str) (s1 : FileSystem)
    (hu : uniqueNames s.m_open_file_table) (h : (rm fuel s n).state = some s1) :
    uniqueNames s1.m_open_file_table := by
  cases hr : rm fuel s n with
  | diverged => rw [hr] at h; cases h
  | exception s2 =>
    exfalso
    unfold rm at hr
    split_ifs at hr
    cases hf : findDirectoryEntry fuel s n s.m_current_directory_cluster with
    | none => rw [hf] at hr; cases hr
    | some o =>
      cases o with
      | none => rw [hf] at hr; cases hr
      | some file =>
        rw [hf] at hr
        dsimp only at hr
        split_ifs at hr <;>
          first
          | cases hr
          | (revert hr
             cases deleteDirectoryEntry fuel _ file <;> intro hr <;> cases hr)
  | returned s2 r =>
    rw [hr] at h
    injection h with h
    subst h
    by_cases hs : r = Report.silent
    · subst hs
      exact (rm_table fuel s n s2 hr).2.2 hu
    · -- every other message leaves the engine as it was
      have hsame : s2 = s := by
        unfold rm at hr
        split_ifs at hr with hv
        · injection hr with h1 h2; exact h1.symm
        · cases hf : findDirectoryEntry fuel s n s.m_current_directory_cluster with
          | none => rw [hf] at hr; cases hr
          | some o =>
            cases o with
            | none => rw [hf] at hr; injection hr with h1 h2; exact h1.symm
            | some file =>
              rw [hf] at hr
              dsimp only at hr
              by_cases hfile : isFile file = true
              · rw [if_pos hfile] at hr
                revert hr
                cases deleteDirectoryEntry fuel _ file with
                | none => intro hr; cases hr
                | some s3 =>
                  intro hr
                  injection hr with h1 h2
                  exact absurd h2.symm hs
              · rw [if_neg hfile] at hr
                injection hr with h1 h2
                exact h1.symm
      rw [hsame]
      exact hu

theorem state_returned {α : Type} (s s1 : FileSystem) (a : α)
    (h : (Result.returned s a).state = some s1) : s1 = s := by
  injection h with h
  exact h.symm

theorem state_exception {α : Type} (s s1 : FileSystem)
    (h : (Result.exception s : Result α).state = some s1) : s1 = s := by
  injection h with h
  exact h.symm

theorem uniqueNames_openFile (fuel : Nat) (s : FileSystem) (n mode : Str) (s1 : FileSystem)
    (hu : uniqueNames s.m_open_file_table) (h : (openFile fuel s n mode).state = some s1) :
    uniqueNames s1.m_open_file_table := by
  unfold openFile at h
  by_cases h1 : (!isValidEntryName n) = true
  · rw [if_pos h1] at h
    rw [state_returned _ _ _ h]; exact hu
  · rw [if_neg h1] at h
    by_cases h2 : ¬ (mode = READ ∨ mode = WRITE ∨ mode = READ_WRITE)
    · rw [if_pos h2] at h
      rw [state_returned _ _ _ h]; exact hu
    · rw [if_neg h2] at h
      cases hf : findDirectoryEntry fuel s n s.m_current_directory_cluster with
      | none => rw [hf] at h; cases h
      | some o =>
        cases o with
        | none =>
          rw [hf] at h
          rw [state_returned _ _ _ h]; exact hu
        | some file =>
          rw [hf] at h
          dsimp only at h
          by_cases h3 : isFile file = true
          · rw [if_pos h3] at h
            by_cases h4 : (tableFind s.m_open_file_table file).isNone = true
            · rw [if_pos h4] at h
              rw [state_returned _ _ _ h]
              exact uniqueNames_tableAssign _ _ _ hu
            · rw [if_neg h4] at h
              rw [state_returned _ _ _ h]; exact hu
          · rw [if_neg h3] at h
            rw [state_returned _ _ _ h]; exact hu

theorem uniqueNames_close (s : FileSystem) (n : Str) (hu : uniqueNames s.m_open_file_table) :
    uniqueNames (close s n).1.m_open_file_table := by
  unfold close
  split_ifs
  · exact hu
  · cases tableLookup s.m_open_file_table n with
    | none => exact hu
    | some p => exact uniqueNames_tableEraseFirst _ _ hu

theorem uniqueNames_write (fuel : Nat) (s : FileSystem) (n : Str) (start_pos : Nat)
    (quoted_data : Str) (s1 : FileSystem) (hu : uniqueNames s.m_open_file_table)
    (h : (write fuel s n start_pos quoted_data).state = some s1) :
    uniqueNames s1.m_open_file_table := by
  unfold write at h
  by_cases hv : (!isValidEntryName n) = true
  · rw [if_pos hv] at h
    rw [state_returned _ _ _ h]; exact hu
  · rw [if_neg hv] at h
    cases hl : tableLookup s.m_open_file_table n with
    | none =>
      rw [hl] at h
      rw [state_returned _ _ _ h]; exact hu
    | some p =>
      obtain ⟨file, file_mode⟩ := p
      rw [hl] at h
      dsimp only at h
      by_cases hm : file_mode ≠ WRITE ∧ file_mode ≠ READ_WRITE
      · rw [if_pos hm] at h
        rw [state_returned _ _ _ h]; exact hu
      · rw [if_neg hm] at h
        cases hc : getClusterChain fuel s file.cluster with
        | none => rw [hc] at h; cases h
        | some chain =>
          rw [hc] at h
          dsimp only at h
          by_cases hgt : u32 (start_pos + quoted_data.length) >
              u32 (chain.length * s.m_bytes_per_cluster)
          · rw [if_pos hgt] at h
            by_cases hfree : s.m_fsinfo.free_cluster_count <
                ceilDiv (u32 (start_pos + quoted_data.length) -
                  u32 (chain.length * s.m_bytes_per_cluster)) s.m_bytes_per_cluster
            · rw [if_pos hfree] at h
              rw [state_returned _ _ _ h]; exact hu
            · rw [if_neg hfree] at h
              cases hr : resizeClusterChain s
                  (u32 (chain.length + ceilDiv (u32 (start_pos + quoted_data.length) -
                    u32 (chain.length * s.m_bytes_per_cluster)) s.m_bytes_per_cluster)) chain with
              | diverged => rw [hr] at h; cases h
              | exception s2 =>
                rw [hr] at h
                rw [state_exception _ _ h]
                have := resizeClusterChain_table s _ chain s2 (by rw [hr]; rfl)
                rw [this]; exact hu
              | returned s2 chain1 =>
                rw [hr] at h
                rw [state_returned _ _ _ h]
                apply uniqueNames_writeData
                have := resizeClusterChain_table s _ chain s2 (by rw [hr]; rfl)
                rw [this]; exact hu
          · rw [if_neg hgt] at h
            rw [state_returned _ _ _ h]
            exact uniqueNames_writeData _ _ _ _ _ _ hu

/-! ### The slot chosen by `createDirectoryEntry` -/

theorem foldl_last_match (P : Nat → Bool) (g : Nat → Nat) (l : List Nat) (init : Option Nat) :
    (∃ l1 i l2, l = l1 ++ i :: l2 ∧ P i = true ∧ (∀ j ∈ l2, P j = false) ∧
      l.foldl (fun found i => if P i = true then some (g i) else found) init = some (g i)) ∨
    ((∀ j ∈ l, P j = false) ∧
      l.foldl (fun found i => if P i = true then some (g i) else found) init = init) := by
  induction l generalizing init with
  | nil => right; exact ⟨by simp, rfl⟩
  | cons h t ih =>
    rw [List.foldl_cons]
    rcases ih (if P h = true then some (g h) else init) with
      ⟨l1, i, l2, e, hp, hl2, hr⟩ | ⟨hall, hr⟩
    · left
      exact ⟨h :: l1, i, l2, by rw [e]; rfl, hp, hl2, hr⟩
    · by_cases hp : P h = true
      · left
        refine ⟨[], h, t, rfl, hp, hall, ?_⟩
        rw [hr, if_pos hp]
      · right
        refine ⟨?_, ?_⟩
        · intro j hj
          rcases List.mem_cons.mp hj with rfl | hj
          · simpa using hp
          · exact hall j hj
        · rw [hr, if_neg hp]

theorem slotOffsets_pairwise (s : FileSystem) :
    (slotOffsets s).Pairwise (fun a b => b < a) := by
  unfold slotOffsets DIR_ENTRY_SIZE
  rw [List.pairwise_map]
  refine (List.pairwise_lt_range _).imp_of_mem ?_
  intro a b _ hb hab
  have hb' := List.mem_range.mp hb
  have : 32 * (s.m_bytes_per_cluster / 32) ≤ s.m_bytes_per_cluster := Nat.mul_div_le _ _
  omega

theorem slotOffsets_below (s : FileSystem) (l1 l2 : List Nat) (i : Nat)
    (h : slotOffsets s = l1 ++ i :: l2) : ∀ j ∈ slotOffsets s, j < i → j ∈ l2 := by
  intro j hj hlt
  have hp := slotOffsets_pairwise s
  rw [h] at hp hj
  obtain ⟨_, _, h3⟩ := List.pairwise_append.mp hp
  rcases List.mem_append.mp hj with h1 | h1
  · have := h3 j h1 i (List.mem_cons_self _ _)
    omega
  · rcases List.mem_cons.mp h1 with rfl | h2
    · omega
    · exact h2

/-- The scan of one cluster: the lowest free slot of the cluster if it has one. -/
theorem findFreeSlot_cluster (s : FileSystem) (x : Nat) (found : Option Nat) :
    (∃ i ∈ slotOffsets s, slotFree s x i = true ∧
      (∀ j ∈ slotOffsets s, j < i → slotFree s x j = false) ∧
      (slotOffsets s).foldl
        (fun found i => if slotFree s x i = true then some (u32 (clusterOffset s x + i)) else found)
        found = some (u32 (clusterOffset s x + i))) ∨
    ((∀ j ∈ slotOffsets s, slotFree s x j = false) ∧
      (slotOffsets s).foldl
        (fun found i => if slotFree s x i = true then some (u32 (clusterOffset s x + i)) else found)
        found = found) := by
  rcases foldl_last_match (fun i => slotFree s x i) (fun i => u32 (clusterOffset s x + i))
    (slotOffsets s) found with ⟨l1, i, l2, e, hp, hl2, hr⟩ | ⟨hall, hr⟩
  · left
    refine ⟨i, by rw [e]; simp, hp, ?_, hr⟩
    intro j hj hlt
    exact hl2 j (slotOffsets_below s l1 l2 i e j hj hlt)
  · right
    exact ⟨hall, hr⟩

theorem findFreeSlot_chain (s : FileSystem) (chain : List Nat) (found : Option Nat) :
    (∃ pre x post i, chain = pre ++ x :: post ∧ i ∈ slotOffsets s ∧ slotFree s x i = true ∧
      (∀ j ∈ slotOffsets s, j < i → slotFree s x j = false) ∧
      (∀ y ∈ post, ∀ j ∈ slotOffsets s, slotFree s y j = false) ∧
      chain.foldl
        (fun found c =>
          (slotOffsets s).foldl
            (fun found i =>
              if slotFree s c i = true then some (u32 (clusterOffset s c + i)) else found)
            found)
        found = some (u32 (clusterOffset s x + i))) ∨
    ((∀ y ∈ chain, ∀ j ∈ slotOffsets s, slotFree s y j = false) ∧
      chain.foldl
        (fun found c =>
          (slotOffsets s).foldl
            (fun found i =>
              if slotFree s c i = true then some (u32 (clusterOffset s c + i)) else found)
            found)
        found = found) := by
  induction chain generalizing found with
  | nil => right; exact ⟨by simp, rfl⟩
  | cons c rest ih =>
    rw [List.foldl_cons]
    rcases ih ((slotOffsets s).foldl
        (fun found i => if slotFree s c i = true then some (u32 (clusterOffset s c + i)) else found)
        found) with ⟨pre, x, post, i, e, hi, hp, hlow, hpost, hr⟩ | ⟨hall, hr⟩
    · left
      exact ⟨c :: pre, x, post, i, by rw [e]; rfl, hi, hp, hlow, hpost, hr⟩
    · rcases findFreeSlot_cluster s c found with ⟨i, hi, hp, hlow, hc⟩ | ⟨hnone, hc⟩
      · left
        refine ⟨[], c, rest, i, rfl, hi, hp, hlow, hall, ?_⟩
        rw [hr, hc]
      · right
        refine ⟨?_, ?_⟩
        · intro y hy
          rcases List.mem_cons.mp hy with rfl | hy
          · exact hnone
          · exact hall y hy
        · rw [hr, hc]

/-- The slot `createDirectoryEntry` finds: the lowest free slot of the last cluster of the
chain that has a free slot; none when no cluster of the chain has one. -/
theorem findFreeSlot_last (s : FileSystem) (chain : List Nat) :
    (∃ pre x post i, chain = pre ++ x :: post ∧ i ∈ slotOffsets s ∧ slotFree s x i = true ∧
      (∀ j ∈ slotOffsets s, j < i → slotFree s x j = false) ∧
      (∀ y ∈ post, ∀ j ∈ slotOffsets s, slotFree s y j = false) ∧
      findFreeSlot s chain = some (u32 (clusterOffset s x + i))) ∨
    ((∀ y ∈ chain, ∀ j ∈ slotOffsets s, slotFree s y j = false) ∧
      findFreeSlot s chain = none) :=
  findFreeSlot_chain s chain none

/-! ### What an allocation leaves alone -/

theorem byteAt_setFATEntry_data (t : FileSystem) (hw : WellFormed t) (x v a : Nat)
    (hx : x < total_cluster_count t)
    (ha : t.m_first_data_sector * t.m_bpb.bytes_per_sector ≤ a) :
    byteAt (setFATEntry t x v) a = byteAt t a := by
  unfold setFATEntry
  apply byteAt_setFATEntryLoop_of_outside
  intro i hi
  have := (fat_loc_bounds t hw x i hx hi).2
  right; omega

theorem byteAt_setFreeClusterCount_data (t : FileSystem) (hw : WellFormed t) (cnt a : Nat)
    (ha : t.m_first_data_sector * t.m_bpb.bytes_per_sector ≤ a) :
    byteAt (setFreeClusterCount t cnt) a = byteAt t a := by
  apply byteAt_setFreeClusterCount_of_outside
  right
  have h1 := hw.fsinfo_reserved
  have h2 : t.m_bpb.reserved_sector_count * t.m_bpb.bytes_per_sector ≤
      t.m_first_data_sector * t.m_bpb.bytes_per_sector := by
    rw [hw.fds_eq]; exact Nat.mul_le_mul_right _ (Nat.le_add_right _ _)
  omega

theorem wellFormed_setFATEntry (t : FileSystem) (hw : WellFormed t) (x v : Nat) :
    WellFormed (setFATEntry t x v) :=
  wellFormed_congr t _ hw (setFATEntry_bpb t x v) (setFATEntry_bpc t x v) (setFATEntry_fds t x v)
    (by rw [setFATEntry_fsinfo]; exact hw.count_lt)

theorem allocateCluster_geometry (s : FileSystem) (hw : WellFormed s) (prev : Nat)
    (hprev : prev < total_cluster_count s) (s1 : FileSystem) (n : Nat)
    (hn : n < total_cluster_count s) (h : allocateCluster s prev = some (s1, n)) :
    s1.m_bpb = s.m_bpb ∧ s1.m_bytes_per_cluster = s.m_bytes_per_cluster ∧
    s1.m_first_data_sector = s.m_first_data_sector ∧
    s1.m_fsinfo.free_cluster_count < 4294967296 ∧
    (∀ a, s.m_first_data_sector * s.m_bpb.bytes_per_sector ≤ a → byteAt s1 a = byteAt s a) := by
  unfold allocateCluster at h
  cases hg : getFreeCluster s with
  | none => rw [hg] at h; cases h
  | some r =>
    rw [hg] at h
    dsimp only at h
    simp only [Option.some.injEq, Prod.mk.injEq] at h
    obtain ⟨h1, h2⟩ := h
    subst h2
    -- the state after the optional link
    have ht : ∃ t, (if prev ≠ 0 then setFATEntry s prev r else s) = t ∧ WellFormed t ∧
        t.m_bpb = s.m_bpb ∧ t.m_bytes_per_cluster = s.m_bytes_per_cluster ∧
        t.m_first_data_sector = s.m_first_data_sector ∧
        (∀ a, s.m_first_data_sector * s.m_bpb.bytes_per_sector ≤ a → byteAt t a = byteAt s a) := by
      by_cases hp : prev ≠ 0
      · rw [if_pos hp]
        exact ⟨_, rfl, wellFormed_setFATEntry s hw prev r, setFATEntry_bpb _ _ _,
          setFATEntry_bpc _ _ _, setFATEntry_fds _ _ _,
          fun a ha => byteAt_setFATEntry_data s hw prev r a hprev ha⟩
      · rw [if_neg hp]
        exact ⟨s, rfl, hw, rfl, rfl, rfl, fun _ _ => rfl⟩
    obtain ⟨t, et, hwt, b1, b2, b3, b4⟩ := ht
    rw [et] at h1
    subst h1
    have htcc := total_cluster_count_congr s t b1 b3
    have hw2 := wellFormed_setFATEntry t hwt r EOC
    refine ⟨?_, ?_, ?_, ?_, ?_⟩
    · rw [setFreeClusterCount_bpb, setFATEntry_bpb, b1]
    · rw [setFreeClusterCount_bpc, setFATEntry_bpc, b2]
    · rw [setFreeClusterCount_fds, setFATEntry_fds, b3]
    · rw [setFreeClusterCount_count]
      exact Nat.mod_lt _ (by decide)
    · intro a ha
      have ha2 : t.m_first_data_sector * t.m_bpb.bytes_per_sector ≤ a := by rw [b1, b3]; exact ha
      rw [byteAt_setFreeClusterCount_data _ hw2 _ a
          (by rw [setFATEntry_bpb, setFATEntry_fds]; exact ha2),
        byteAt_setFATEntry_data t hwt r EOC a (by rw [htcc]; exact hn) ha2]
      exact b4 a ha

/-- An allocation on a well-formed volume with a free cluster: the cluster returned was free
and lies in the volume, the links are as `allocateCluster` sets them, the geometry and every
byte of the data region are left alone. -/
theorem allocateCluster_full (s : FileSystem) (hw : WellFormed s)
    (h28 : total_cluster_count s ≤ 268435456) (prev : Nat)
    (hprev : prev = 0 ∨ (prev < total_cluster_count s ∧ getFATEntry s prev ≠ 0))
    (hfree : ∃ c, 2 ≤ c ∧ c < total_cluster_count s ∧ getFATEntry s c = 0)
    (s1 : FileSystem) (n : Nat) (h : allocateCluster s prev = some (s1, n)) :
    InVolume s n ∧ getFATEntry s n = 0 ∧ WellFormed s1 ∧
    s1.m_bpb = s.m_bpb ∧ s1.m_bytes_per_cluster = s.m_bytes_per_cluster ∧
    s1.m_first_data_sector = s.m_first_data_sector ∧
    getFATEntry s1 n = EOC ∧
    (prev ≠ 0 → getFATEntry s1 prev = n) ∧
    (∀ x, x < total_cluster_count s → x ≠ n → (prev = 0 ∨ x ≠ prev) →
      getFATEntry s1 x = getFATEntry s x) ∧
    (∀ a, s.m_first_data_sector * s.m_bpb.bytes_per_sector ≤ a → byteAt s1 a = byteAt s a) := by
  have hcnt : 0 < s.m_fsinfo.free_cluster_count := by
    by_contra hc
    have h0 : s.m_fsinfo.free_cluster_count = 0 := by omega
    have hnone := (getFreeCluster_spec s).2 h0
    unfold allocateCluster at h
    rw [hnone] at h
    cases h
  obtain ⟨s1', n', e, ⟨a1, a2, a3⟩, a4, a5, a6, _, _⟩ :=
    allocateCluster_spec s hw h28 prev hprev hfree hcnt
  rw [h] at e
  simp only [Option.some.injEq, Prod.mk.injEq] at e
  obtain ⟨e1, e2⟩ := e
  subst e1
  subst e2
  have hp : prev < total_cluster_count s := by
    rcases hprev with h0 | h0
    · omega
    · exact h0.1
  obtain ⟨g1, g2, g3, g4, g5⟩ := allocateCluster_geometry s hw prev hp s1 n a2 h
  exact ⟨⟨a1, a2⟩, a3, wellFormed_congr s s1 hw g1 g2 g3 g4, g1, g2, g3, a4, a5, a6, g5⟩

/-! ### The regions of the clusters -/

theorem cluster_region (s : FileSystem) (hw : WellFormed s) (x : Nat) (hx : InVolume s x) :
    clusterOffset s x =
        s.m_first_data_sector * s.m_bpb.bytes_per_sector + (x - 2) * s.m_bytes_per_cluster ∧
      s.m_first_data_sector * s.m_bpb.bytes_per_sector + (x - 2) * s.m_bytes_per_cluster +
          s.m_bytes_per_cluster ≤ s.m_bpb.total_sectors * s.m_bpb.bytes_per_sector := by
  have htcc := total_cluster_count_eq s hw (by have := hx.2; omega)
  have h := cluster_addr_arith s.m_bpb.sectors_per_cluster s.m_bpb.bytes_per_sector
    s.m_first_data_sector s.m_bpb.total_sectors x hw.spc_pos hw.addressable hw.bps_pos
    (fds_pos s hw) hw.fds_le hx.1 (by rw [← htcc]; exact hx.2)
  rw [← hw.bpc_eq] at h
  unfold clusterOffset getFirstDataSector
  exact h

theorem region_arith (D B x y : Nat) (hx : 2 ≤ x) (hy : 2 ≤ y) (hne : x ≠ y) :
    D + (x - 2) * B + B ≤ D + (y - 2) * B ∨ D + (y - 2) * B + B ≤ D + (x - 2) * B := by
  rcases Nat.lt_or_gt_of_ne hne with hlt | hgt
  · left
    have h : (x - 2 + 1) * B ≤ (y - 2) * B := Nat.mul_le_mul_right _ (by omega)
    rw [Nat.add_mul, Nat.one_mul] at h
    omega
  · right
    have h : (y - 2 + 1) * B ≤ (x - 2) * B := Nat.mul_le_mul_right _ (by omega)
    rw [Nat.add_mul, Nat.one_mul] at h
    omega

/-- The 32 bytes of a slot lie in the region of its cluster. -/
theorem slot_in_region (s : FileSystem) (hw : WellFormed s) (x i : Nat) (hx : InVolume s x)
    (hi : i ∈ slotOffsets s) :
    clusterOffset s x ≤ u32 (clusterOffset s x + i) ∧
      u32 (clusterOffset s x + i) + 32 ≤ clusterOffset s x + s.m_bytes_per_cluster := by
  obtain ⟨k, hk⟩ := mem_slotOffsets s i hi
  obtain ⟨e1, _⟩ := slot_addr_eq s hw x i hx hi
  obtain ⟨e2, _⟩ := cluster_region s hw x hx
  rw [e1, e2]
  omega

/-- A cluster of a chain that lies in the volume is not free. -/
theorem chain_not_free (fuel : Nat) (s : FileSystem) (c0 : Nat) (chain : List Nat)
    (hchain : getClusterChain fuel s c0 = some chain) (hvol : ∀ x ∈ chain, InVolume s x) :
    ∀ x ∈ chain, getFATEntry s x ≠ 0 := by
  intro x hx h0
  rcases getClusterChain_fat fuel s c0 chain hchain x hx with h1 | h1
  · have := EOC_pos; omega
  · rw [h0] at h1
    have := (hvol _ h1).1
    omega

theorem chain_last_mem (fuel : Nat) (s : FileSystem) (c0 : Nat) (chain : List Nat)
    (hchain : getClusterChain fuel s c0 = some chain) : chain.getLastD 0 ∈ chain := by
  have hne := getClusterChain_ne_nil fuel s c0 chain hchain
  rw [List.getLastD_eq_getLast?, List.getLast?_eq_getLast _ hne, Option.getD_some]
  exact List.getLast_mem hne

theorem newEntry_fields (now : Tm) (n : Str) (t c loc : Nat) :
    (newEntry now n t c loc).name = n ∧ (newEntry now n t c loc).cluster = c ∧
      (newEntry now n t c loc).mem_location = loc := by
  unfold newEntry
  obtain ⟨h1, _, h3, _, h5⟩ := setDirectoryEntryTime_fields now
    { name := n, attr := if t = DIRECTORY then ATTR_DIRECTORY else ATTR_ARCHIVE,
      write_time := 0, write_date := 0, cluster := c, size := 0, mem_location := loc }
  exact ⟨h1, h3, h5⟩

/-- The two ways `createDirectoryEntry` returns: the entry goes to the slot the scan found,
or to the start of a cluster allocated behind the last cluster of the chain. -/
theorem createDirectoryEntry_cases (fuel : Nat) (now : Tm) (s : FileSystem) (n : Str)
    (cluster t : Nat) (chain : List Nat) (s' : FileSystem) (hroot : n ≠ ROOT)
    (hchain : getClusterChain fuel s cluster = some chain)
    (h : createDirectoryEntry fuel now s n cluster t = Result.returned s' ()) :
    (∃ loc s2 c, findFreeSlot s chain = some loc ∧ allocateCluster s 0 = some (s2, c) ∧
      s' = newEntryState now s2 n cluster t c loc) ∨
    (findFreeSlot s chain = none ∧
      ∃ s1 p s2 c, allocateCluster s (chain.getLastD 0) = some (s1, p) ∧
        allocateCluster s1 0 = some (s2, c) ∧
        s' = newEntryState now s2 n cluster t c (clusterOffset s1 p)) := by
  unfold createDirectoryEntry createLocation at h
  rw [if_pos hroot, hchain] at h
  dsimp only at h
  cases hslot : findFreeSlot s chain with
  | some loc =>
    rw [hslot] at h
    dsimp only at h
    cases ha : allocateCluster s 0 with
    | none => rw [ha] at h; cases h
    | some r =>
      obtain ⟨s2, c⟩ := r
      rw [ha] at h
      dsimp only at h
      left
      refine ⟨loc, s2, c, rfl, rfl, ?_⟩
      unfold newEntryState newEntry
      dsimp only
      by_cases hd : t = DIRECTORY ∧ n ≠ ROOT
      · rw [if_pos hd] at h ⊢
        injection h with h1
        exact h1.symm
      · rw [if_neg hd] at h ⊢
        injection h with h1
        exact h1.symm
  | none =>
    rw [hslot] at h
    dsimp only at h
    cases ha1 : allocateCluster s (chain.getLastD 0) with
    | none => rw [ha1] at h; cases h
    | some r1 =>
      obtain ⟨s1, p⟩ := r1
      rw [ha1] at h
      dsimp only at h
      cases ha : allocateCluster s1 0 with
      | none => rw [ha] at h; cases h
      | some r =>
        obtain ⟨s2, c⟩ := r
        rw [ha] at h
        dsimp only at h
        right
        refine ⟨rfl, s1, p, s2, c, rfl, ha, ?_⟩
        unfold newEntryState newEntry clusterOffset
        dsimp only
        by_cases hd : t = DIRECTORY ∧ n ≠ ROOT
        · rw [if_pos hd] at h ⊢
          injection h with h1
          exact h1.symm
        · rw [if_neg hd] at h ⊢
          injection h with h1
          exact h1.symm

theorem writeDotEntries_fields (s : FileSystem) (e : DirectoryEntry) (cluster : Nat) :
    (writeDotEntries s e cluster).m_bpb = s.m_bpb ∧
      (writeDotEntries s e cluster).m_bytes_per_cluster = s.m_bytes_per_cluster ∧
      (writeDotEntries s e cluster).m_first_data_sector = s.m_first_data_sector := by
  unfold writeDotEntries
  simp

theorem byteAt_writeDotEntries_of_outside (s : FileSystem) (e : DirectoryEntry)
    (cluster a : Nat) (hC : clusterOffset s e.cluster + 64 ≤ 4294967296)
    (h : a < clusterOffset s e.cluster ∨ clusterOffset s e.cluster + 64 ≤ a) :
    byteAt (writeDotEntries s e cluster) a = byteAt s a := by
  unfold clusterOffset at hC h
  have hu : u32 (u32 (getFirstDataSector s e.cluster * s.m_bpb.bytes_per_sector) + 32) =
      u32 (getFirstDataSector s e.cluster * s.m_bpb.bytes_per_sector) + 32 :=
    u32_of_lt (by omega)
  unfold writeDotEntries
  dsimp only
  rw [byteAt_writeDirectoryEntry_of_outside _ _ a (by dsimp only; rw [hu]; omega)
      (by dsimp only; rw [hu]; omega),
    byteAt_writeDirectoryEntry_of_outside _ _ a (by dsimp only; omega) (by dsimp only; omega)]

theorem byteAt_writeDirectoryEntry_name (s : FileSystem) (e : DirectoryEntry) (j : Nat)
    (hloc : e.mem_location + 32 ≤ 4294967296) (hj : j < 11) :
    byteAt (writeDirectoryEntry s e) (e.mem_location + j) =
      (convertToShortName e.name).getD j 0 % 256 := by
  rw [byteAt_writeDirectoryEntry s e _ hloc]
  repeat rw [if_neg (by omega)]
  rw [if_pos (by omega), Nat.add_sub_cancel_left]

theorem clusterOffset_congr (s t : FileSystem) (x : Nat) (hb : t.m_bpb = s.m_bpb)
    (hfds : t.m_first_data_sector = s.m_first_data_sector) :
    clusterOffset t x = clusterOffset s x := by
  unfold clusterOffset getFirstDataSector
  rw [hb, hfds]

theorem newEntryState_fields (now : Tm) (s2 : FileSystem) (n : Str) (cluster t c loc : Nat) :
    (newEntryState now s2 n cluster t c loc).m_bpb = s2.m_bpb ∧
      (newEntryState now s2 n cluster t c loc).m_bytes_per_cluster = s2.m_bytes_per_cluster ∧
      (newEntryState now s2 n cluster t c loc).m_first_data_sector = s2.m_first_data_sector := by
  unfold newEntryState
  dsimp only
  by_cases hd : t = DIRECTORY ∧ n ≠ ROOT
  · rw [if_pos hd]
    obtain ⟨h1, h2, h3⟩ := writeDotEntries_fields
      (writeDirectoryEntry s2 (newEntry now n t c loc)) (newEntry now n t c loc) cluster
    rw [h1, h2, h3]
    simp
  · rw [if_neg hd]
    simp

theorem byteAt_newEntryState_of_outside (now : Tm) (s2 : FileSystem) (n : Str)
    (cluster t c loc a : Nat) (hloc : loc + 32 ≤ 4294967296)
    (hC : clusterOffset s2 c + 64 ≤ 4294967296)
    (h1 : a < loc ∨ loc + 32 ≤ a)
    (h2 : a < clusterOffset s2 c ∨ clusterOffset s2 c + 64 ≤ a) :
    byteAt (newEntryState now s2 n cluster t c loc) a = byteAt s2 a := by
  obtain ⟨_, f2, f3⟩ := newEntry_fields now n t c loc
  have hco : clusterOffset (writeDirectoryEntry s2 (newEntry now n t c loc))
      (newEntry now n t c loc).cluster = clusterOffset s2 c := by
    rw [f2]
    exact clusterOffset_congr s2 _ c (writeDirectoryEntry_bpb _ _) (writeDirectoryEntry_fds _ _)
  have hw1 : byteAt (writeDirectoryEntry s2 (newEntry now n t c loc)) a = byteAt s2 a :=
    byteAt_writeDirectoryEntry_of_outside s2 (newEntry now n t c loc) a
      (by rw [f3]; exact hloc) (by rw [f3]; exact h1)
  unfold newEntryState
  dsimp only
  by_cases hd : t = DIRECTORY ∧ n ≠ ROOT
  · rw [if_pos hd,
      byteAt_writeDotEntries_of_outside (writeDirectoryEntry s2 (newEntry now n t c loc))
        (newEntry now n t c loc) cluster a (by rw [hco]; exact hC) (by rw [hco]; exact h2)]
    exact hw1
  · rw [if_neg hd]
    exact hw1

theorem byteAt_newEntryState_name (now : Tm) (s2 : FileSystem) (n : Str)
    (cluster t c loc j : Nat) (hloc : loc + 32 ≤ 4294967296)
    (hC : clusterOffset s2 c + 64 ≤ 4294967296)
    (hdis : loc + 32 ≤ clusterOffset s2 c ∨ clusterOffset s2 c + 64 ≤ loc) (hj : j < 11) :
    byteAt (newEntryState now s2 n cluster t c loc) (loc + j) =
      (convertToShortName n).getD j 0 % 256 := by
  obtain ⟨f1, f2, f3⟩ := newEntry_fields now n t c loc
  have hco : clusterOffset (writeDirectoryEntry s2 (newEntry now n t c loc))
      (newEntry now n t c loc).cluster = clusterOffset s2 c := by
    rw [f2]
    exact clusterOffset_congr s2 _ c (writeDirectoryEntry_bpb _ _) (writeDirectoryEntry_fds _ _)
  have hw1 : byteAt (writeDirectoryEntry s2 (newEntry now n t c loc)) (loc + j) =
      (convertToShortName n).getD j 0 % 256 := by
    have := byteAt_writeDirectoryEntry_name s2 (newEntry now n t c loc) j
      (by rw [f3]; exact hloc) hj
    rw [f1, f3] at this
    exact this
  unfold newEntryState
  dsimp only
  by_cases hd : t = DIRECTORY ∧ n ≠ ROOT
  · rw [if_pos hd,
      byteAt_writeDotEntries_of_outside (writeDirectoryEntry s2 (newEntry now n t c loc))
        (newEntry now n t c loc) cluster (loc + j) (by rw [hco]; exact hC)
        (by rw [hco]; omega)]
    exact hw1
  · rw [if_neg hd]
    exact hw1

/-- The writes of the new entry on a well-formed volume, for a location in the data region
that does not meet the first 64 bytes of the entry's own cluster: the name is at the
location, no FAT entry changes, and every other byte is left alone. -/
theorem newEntryState_frame (now : Tm) (s2 : FileSystem) (n : Str) (cluster t c loc : Nat)
    (hw2 : WellFormed s2) (hc : InVolume s2 c) (h64 : 64 ≤ s2.m_bytes_per_cluster)
    (hl1 : s2.m_first_data_sector * s2.m_bpb.bytes_per_sector ≤ loc)
    (hl2 : loc + 32 ≤ s2.m_bpb.total_sectors * s2.m_bpb.bytes_per_sector)
    (hdis : loc + 32 ≤ clusterOffset s2 c ∨ clusterOffset s2 c + 64 ≤ loc) :
    (∀ j, j < 11 → byteAt (newEntryState now s2 n cluster t c loc) (loc + j) =
      (convertToShortName n).getD j 0 % 256) ∧
    (∀ x, x < total_cluster_count s2 →
      getFATEntry (newEntryState now s2 n cluster t c loc) x = getFATEntry s2 x) ∧
    (∀ a, (a < loc ∨ loc + 32 ≤ a) → (a < clusterOffset s2 c ∨ clusterOffset s2 c + 64 ≤ a) →
      byteAt (newEntryState now s2 n cluster t c loc) a = byteAt s2 a) := by
  have hadd := hw2.addressable
  obtain ⟨r1, r2⟩ := cluster_region s2 hw2 c hc
  have hloc : loc + 32 ≤ 4294967296 := by omega
  have hC : clusterOffset s2 c + 64 ≤ 4294967296 := by omega
  have hC1 : s2.m_first_data_sector * s2.m_bpb.bytes_per_sector ≤ clusterOffset s2 c := by omega
  refine ⟨?_, ?_, ?_⟩
  · intro j hj
    exact byteAt_newEntryState_name now s2 n cluster t c loc j hloc hC hdis hj
  · intro x hx
    apply getFATEntry_congr s2 _ x (newEntryState_fields now s2 n cluster t c loc).1
    intro k hk
    have hb := (fat_loc_bounds s2 hw2 x 0 hx hw2.fats_pos).2
    exact byteAt_newEntryState_of_outside now s2 n cluster t c loc _ hloc hC
      (Or.inl (by omega)) (Or.inl (by omega))
  · intro a h1 h2
    exact byteAt_newEntryState_of_outside now s2 n cluster t c loc a hloc hC h1 h2

/-- The slot that receives the entry of a `createDirectoryEntry` that returns, on a
well-formed volume whose directory chain lies in the volume and whose allocations find
free clusters. -/
theorem createDirectoryEntry_slot (fuel : Nat) (now : Tm) (s : FileSystem) (n : Str)
    (cluster t : Nat) (chain : List Nat) (s' : FileSystem)
    (hw : WellFormed s) (h28 : total_cluster_count s ≤ 268435456)
    (h64 : 64 ≤ s.m_bytes_per_cluster) (hroot : n ≠ ROOT)
    (hchain : getClusterChain fuel s cluster = some chain)
    (hvol : ∀ x ∈ chain, InVolume s x)
    (hfree : ∃ c, InVolume s c ∧ getFATEntry s c = 0 ∧
      (findFreeSlot s chain = none → ∃ c2, c2 ≠ c ∧ InVolume s c2 ∧ getFATEntry s c2 = 0))
    (h : createDirectoryEntry fuel now s n cluster t = Result.returned s' ()) :
    ∃ loc,
      (∀ j, j < 11 → byteAt s' (loc + j) = (convertToShortName n).getD j 0 % 256) ∧
      ((∃ pre x post i, chain = pre ++ x :: post ∧ i ∈ slotOffsets s ∧
          loc = u32 (clusterOffset s x + i) ∧ slotFree s x i = true ∧
          (∀ j ∈ slotOffsets s, j < i → slotFree s x j = false) ∧
          (∀ y ∈ post, ∀ j ∈ slotOffsets s, slotFree s y j = false)) ∨
        ((∀ y ∈ chain, ∀ j ∈ slotOffsets s, slotFree s y j = false) ∧
          ∃ p, InVolume s p ∧ getFATEntry s p = 0 ∧ loc = clusterOffset s p ∧
            getFATEntry s' (chain.getLastD 0) = p ∧ getFATEntry s' p = EOC)) ∧
      (∀ a ∈ slotAddrs s chain, a ≠ loc →
        ∀ k, k < 32 → byteAt s' (a + k) = byteAt s (a + k)) := by
  have hnf := chain_not_free fuel s cluster chain hchain hvol
  obtain ⟨c0, hc0, hz0, hsecond⟩ := hfree
  rcases createDirectoryEntry_cases fuel now s n cluster t chain s' hroot hchain h with
    ⟨loc, s2, c, hslot, ha, rfl⟩ | ⟨hslot, s1, p, s2, c, ha1, ha, rfl⟩
  · -- the scan found a slot
    rcases findFreeSlot_last s chain with
      ⟨pre, x, post, i, e, hi, hp, hlow, hpost, hr⟩ | ⟨_, hr⟩
    swap
    · rw [hr] at hslot; cases hslot
    rw [hr] at hslot
    simp only [Option.some.injEq] at hslot
    subst hslot
    have hx : x ∈ chain := by rw [e]; simp
    have hxv := hvol x hx
    obtain ⟨hcv, hcz, hw2, g1, g2, g3, _, _, _, hbytes⟩ :=
      allocateCluster_full s hw h28 0 (Or.inl rfl) ⟨c0, hc0.1, hc0.2, hz0⟩ s2 c ha
    have hcx : ∀ y ∈ chain, y ≠ c := by
      intro y hy hyc
      apply hnf y hy
      rw [hyc]; exact hcz
    obtain ⟨sx1, sx2⟩ := slot_in_region s hw x i hxv hi
    obtain ⟨rx1, rx2⟩ := cluster_region s hw x hxv
    obtain ⟨rc1, rc2⟩ := cluster_region s hw c hcv
    have hco : clusterOffset s2 c = clusterOffset s c := clusterOffset_congr s s2 c g1 g3
    have hcv2 : InVolume s2 c := by
      unfold InVolume
      rw [total_cluster_count_congr s s2 g1 g3]
      exact hcv
    have hreg := region_arith (s.m_first_data_sector * s.m_bpb.bytes_per_sector)
      s.m_bytes_per_cluster x c hxv.1 hcv.1 (hcx x hx)
    obtain ⟨F1, _, F3⟩ := newEntryState_frame now s2 n cluster t c
      (u32 (clusterOffset s x + i)) hw2 hcv2 (by rw [g2]; exact h64)
      (by rw [g1, g3]; omega) (by rw [g1]; omega) (by rw [hco]; omega)
    refine ⟨_, F1, Or.inl ⟨pre, x, post, i, e, hi, rfl, hp, hlow, hpost⟩, ?_⟩
    intro a ha' hne k hk
    obtain ⟨y, hy, j, hj, rfl⟩ := (mem_slotAddrs s chain a).mp ha'
    have hyv := hvol y hy
    obtain ⟨sy1, sy2⟩ := slot_in_region s hw y j hyv hj
    obtain ⟨ry1, ry2⟩ := cluster_region s hw y hyv
    have hregy := region_arith (s.m_first_data_sector * s.m_bpb.bytes_per_sector)
      s.m_bytes_per_cluster y c hyv.1 hcv.1 (hcx y hy)
    have hd := slot_addr_disjoint s hw y j x i hyv hj hxv hi hne
    rw [F3 (u32 (clusterOffset s y + j) + k) (by omega) (by rw [hco]; omega)]
    exact hbytes _ (by omega)
  · -- the directory is extended
    rcases findFreeSlot_last s chain with
      ⟨pre, x, post, i, e, hi, hp, hlow, hpost, hr⟩ | ⟨hall, _⟩
    · rw [hr] at hslot; cases hslot
    obtain ⟨c2, hne2, hc2, hz2⟩ := hsecond hslot
    have htail := chain_last_mem fuel s cluster chain hchain
    have htv := hvol _ htail
    have htz := hnf _ htail
    obtain ⟨hpv, hpz, hw1, g1, g2, g3, hpE, hlink, hfat1, hbytes1⟩ :=
      allocateCluster_full s hw h28 (chain.getLastD 0) (Or.inr ⟨htv.2, htz⟩)
        ⟨c0, hc0.1, hc0.2, hz0⟩ s1 p ha1
    have htcc1 := total_cluster_count_congr s s1 g1 g3
    have ht0 : chain.getLastD 0 ≠ 0 := by have := htv.1; omega
    have hlink' := hlink ht0
    have hfree1 : ∃ c, 2 ≤ c ∧ c < total_cluster_count s1 ∧ getFATEntry s1 c = 0 := by
      by_cases hpc : p = c0
      · refine ⟨c2, hc2.1, by rw [htcc1]; exact hc2.2, ?_⟩
        rw [hfat1 c2 hc2.2 (by rw [hpc]; exact hne2)
          (Or.inr (fun e => htz (by rw [← e]; exact hz2)))]
        exact hz2
      · refine ⟨c0, hc0.1, by rw [htcc1]; exact hc0.2, ?_⟩
        rw [hfat1 c0 hc0.2 (fun e => hpc e.symm)
          (Or.inr (fun e => htz (by rw [← e]; exact hz0)))]
        exact hz0
    obtain ⟨hcv1, hcz1, hw2, k1, k2, k3, _, _, hfat2, hbytes2⟩ :=
      allocateCluster_full s1 hw1 (by rw [htcc1]; exact h28) 0 (Or.inl rfl) hfree1 s2 c ha
    have hcv : InVolume s c := by
      unfold InVolume at hcv1 ⊢
      rw [htcc1] at hcv1
      exact hcv1
    have hE : EOC ≠ 0 := by decide
    have hcp : c ≠ p := by
      intro e
      rw [e, hpE] at hcz1
      exact hE hcz1
    have hpx : ∀ y ∈ chain, y ≠ p := by
      intro y hy hyp
      apply hnf y hy
      rw [hyp]; exact hpz
    have hcx : ∀ y ∈ chain, y ≠ c := by
      intro y hy hyc
      by_cases hyt : y = chain.getLastD 0
      · rw [← hyc, hyt, hlink'] at hcz1
        have := hpv.1
        omega
      · rw [← hyc, hfat1 y (hvol y hy).2 (hpx y hy) (Or.inr hyt)] at hcz1
        exact hnf y hy hcz1
    have b1 : s2.m_bpb = s.m_bpb := k1.trans g1
    have b2 : s2.m_bytes_per_cluster = s.m_bytes_per_cluster := k2.trans g2
    have b3 : s2.m_first_data_sector = s.m_first_data_sector := k3.trans g3
    have htcc2 := total_cluster_count_congr s s2 b1 b3
    have hco : clusterOffset s2 c = clusterOffset s c := clusterOffset_congr s s2 c b1 b3
    have hlocp : clusterOffset s1 p = clusterOffset s p := clusterOffset_congr s s1 p g1 g3
    rw [hlocp]
    have hcv2 : InVolume s2 c := by
      unfold InVolume
      rw [htcc2]
      exact hcv
    obtain ⟨rp1, rp2⟩ := cluster_region s hw p hpv
    obtain ⟨rc1, rc2⟩ := cluster_region s hw c hcv
    have hreg := region_arith (s.m_first_data_sector * s.m_bpb.bytes_per_sector)
      s.m_bytes_per_cluster p c hpv.1 hcv.1 (fun e => hcp e.symm)
    obtain ⟨F1, F2, F3⟩ := newEntryState_frame now s2 n cluster t c
      (clusterOffset s p) hw2 hcv2 (by rw [b2]; exact h64)
      (by rw [b1, b3]; omega) (by rw [b1]; omega) (by rw [hco]; omega)
    refine ⟨_, F1, Or.inr ⟨hall, p, hpv, hpz, rfl, ?_, ?_⟩, ?_⟩
    · rw [F2 _ (by rw [htcc2]; exact htv.2),
        hfat2 _ (by rw [htcc1]; exact htv.2) (hcx _ htail) (Or.inl rfl)]
      exact hlink'
    · rw [F2 _ (by rw [htcc2]; exact hpv.2),
        hfat2 _ (by rw [htcc1]; exact hpv.2) (fun e => hcp e.symm) (Or.inl rfl)]
      exact hpE
    · intro a ha' _ k hk
      obtain ⟨y, hy, j, hj, rfl⟩ := (mem_slotAddrs s chain a).mp ha'
      have hyv := hvol y hy
      obtain ⟨sy1, sy2⟩ := slot_in_region s hw y j hyv hj
      obtain ⟨ry1, ry2⟩ := cluster_region s hw y hyv
      have hregc := region_arith (s.m_first_data_sector * s.m_bpb.bytes_per_sector)
        s.m_bytes_per_cluster y c hyv.1 hcv.1 (hcx y hy)
      have hregp := region_arith (s.m_first_data_sector * s.m_bpb.bytes_per_sector)
        s.m_bytes_per_cluster y p hyv.1 hpv.1 (hpx y hy)
      rw [F3 (u32 (clusterOffset s y + j) + k) (by omega) (by rw [hco]; omega),
        hbytes2 _ (by rw [g1, g3]; omega)]
      exact hbytes1 _ (by omega)

theorem nameLengthError_ne_silent (n : Str) : nameLengthError n ≠ some Report.silent := by
  unfold nameLengthError
  split
  · dsimp only
    split
    · simp
    · simp
  · split
    · simp
    · simp

theorem create_silent (fuel : Nat) (now : Tm) (s : FileSystem) (n : Str) (s' : FileSystem)
    (h : create fuel now s n = Result.returned s' Report.silent) :
    createDirectoryEntry fuel now s n s.m_current_directory_cluster FILE =
        Result.returned s' () ∧ n ≠ ROOT := by
  unfold create at h
  split at h
  · simp at h
  · split at h
    · simp at h
    · split at h
      · simp at h
      · split at h
        · rename_i r hr
          simp only [Result.returned.injEq] at h
          rw [h.2] at hr
          exact absurd hr (nameLengthError_ne_silent n)
        · split at h
          · cases h
          · simp at h
          · rename_i hex
            have hroot : n ≠ ROOT := by
              intro e
              unfold directoryEntryExists at hex
              rw [if_pos e] at hex
              cases hex
            split at h
            · rename_i s1 u hc
              simp only [Result.returned.injEq, and_true] at h
              rw [h] at hc
              exact ⟨hc, hroot⟩
            · cases h
            · cases h

theorem mkdir_silent (fuel : Nat) (now : Tm) (s : FileSystem) (n : Str) (s' : FileSystem)
    (h : mkdir fuel now s n = Result.returned s' Report.silent) :
    createDirectoryEntry fuel now s n s.m_current_directory_cluster DIRECTORY =
        Result.returned s' () ∧ n ≠ ROOT := by
  unfold mkdir at h
  split at h
  · simp at h
  · split at h
    · simp at h
    · split at h
      · rename_i r hr
        simp only [Result.returned.injEq] at h
        rw [h.2] at hr
        exact absurd hr (nameLengthError_ne_silent n)
      · split at h
        · cases h
        · simp at h
        · rename_i hex
          have hroot : n ≠ ROOT := by
            intro e
            unfold directoryEntryExists at hex
            rw [if_pos e] at hex
            cases hex
          split at h
          · rename_i s1 u hc
            simp only [Result.returned.injEq, and_true] at h
            rw [h] at hc
            exact ⟨hc, hroot⟩
          · cases h
          · cases h

/-- The slot that receives the entry of a `create` or `mkdir` that succeeds. -/
theorem create_mkdir_slot (fuel : Nat) (now : Tm) (s : FileSystem) (n : Str)
    (chain : List Nat) (s' : FileSystem)
    (hw : WellFormed s) (h28 : total_cluster_count s ≤ 268435456)
    (h64 : 64 ≤ s.m_bytes_per_cluster)
    (hchain : getClusterChain fuel s s.m_current_directory_cluster = some chain)
    (hvol : ∀ x ∈ chain, InVolume s x)
    (hfree : ∃ c, InVolume s c ∧ getFATEntry s c = 0 ∧
      (findFreeSlot s chain = none → ∃ c2, c2 ≠ c ∧ InVolume s c2 ∧ getFATEntry s c2 = 0))
    (h : create fuel now s n = Result.returned s' Report.silent ∨
      mkdir fuel now s n = Result.returned s' Report.silent) :
    ∃ loc,
      (∀ j, j < 11 → byteAt s' (loc + j) = (convertToShortName n).getD j 0 % 256) ∧
      ((∃ pre x post i, chain = pre ++ x :: post ∧ i ∈ slotOffsets s ∧
          loc = u32 (clusterOffset s x + i) ∧ slotFree s x i = true ∧
          (∀ j ∈ slotOffsets s, j < i → slotFree s x j = false) ∧
          (∀ y ∈ post, ∀ j ∈ slotOffsets s, slotFree s y j = false)) ∨
        ((∀ y ∈ chain, ∀ j ∈ slotOffsets s, slotFree s y j = false) ∧
          ∃ p, InVolume s p ∧ getFATEntry s p = 0 ∧ loc = clusterOffset s p ∧
            getFATEntry s' (chain.getLastD 0) = p ∧ getFATEntry s' p = EOC)) ∧
      (∀ a ∈ slotAddrs s chain, a ≠ loc →
        ∀ k, k < 32 → byteAt s' (a + k) = byteAt s (a + k)) := by
  rcases h with h | h
  · obtain ⟨hc, hroot⟩ := create_silent fuel now s n s' h
    exact createDirectoryEntry_slot fuel now s n s.m_current_directory_cluster FILE chain s'
      hw h28 h64 hroot hchain hvol hfree hc
  · obtain ⟨hc, hroot⟩ := mkdir_silent fuel now s n s' h
    exact createDirectoryEntry_slot fuel now s n s.m_current_directory_cluster DIRECTORY chain s'
      hw h28 h64 hroot hchain hvol hfree hc

/-- The function `rm` on a name found as a file whose chain is found: it returns, and the
open-file table has lost the elements of that name and no other. -/
theorem rm_found_table (fuel : Nat) (s : FileSystem) (n : Str) (f : DirectoryEntry)
    (chain : List Nat) (hname : isValidEntryName n = true)
    (hfde : findDirectoryEntry fuel s n s.m_current_directory_cluster = some (some f))
    (hfile : isFile f = true) (hchain : getClusterChain fuel s f.cluster = some chain) :
    ∃ s2, rm fuel s n = Result.returned s2 Report.silent ∧
      (∀ p ∈ s2.m_open_file_table, p.1.name ≠ n) ∧
      (∀ p : DirectoryEntry × Str, p.1.name ≠ n →
        (p ∈ s2.m_open_file_table ↔ p ∈ s.m_open_file_table)) := by
  have hret : ∃ s2, rm fuel s n = Result.returned s2 Report.silent := by
    unfold rm
    simp only [hname, hfde, Bool.not_true, Bool.false_eq_true, if_false, hfile, if_true]
    by_cases htab : (tableFind s.m_open_file_table f).isSome = true
    · rw [if_pos htab]
      have hc : getClusterChain fuel
          { s with m_open_file_table := tableErase s.m_open_file_table f } f.cluster =
            some chain :=
        getClusterChain_congr fuel s _ f.cluster chain hchain (fun x _ => rfl)
      unfold deleteDirectoryEntry
      rw [hc]
      exact ⟨_, rfl⟩
    · rw [if_neg htab]
      unfold deleteDirectoryEntry
      rw [hchain]
      exact ⟨_, rfl⟩
  obtain ⟨s2, h2⟩ := hret
  obtain ⟨a, b, _⟩ := rm_table fuel s n s2 h2
  exact ⟨s2, h2, a, b⟩

theorem uniqueNames_mount (image : Nat → Nat) : uniqueNames (mount image).m_open_file_table := by
  unfold uniqueNames mount
  simp

/-- The open-file table after `rm` of a file, and the invariant of the table: it starts
empty and `open`, `close`, `write` and `rm` keep its names distinct, whatever they return. -/
theorem open_file_table_spec (fuel : Nat) (s : FileSystem) (n : Str) (f : DirectoryEntry)
    (chain : List Nat) (hname : isValidEntryName n = true)
    (hfde : findDirectoryEntry fuel s n s.m_current_directory_cluster = some (some f))
    (hfile : isFile f = true) (hchain : getClusterChain fuel s f.cluster = some chain) :
    (∃ s2, rm fuel s n = Result.returned s2 Report.silent ∧
      (∀ p ∈ s2.m_open_file_table, p.1.name ≠ n) ∧
      (∀ p : DirectoryEntry × Str, p.1.name ≠ n →
        (p ∈ s2.m_open_file_table ↔ p ∈ s.m_open_file_table))) ∧
    (∀ image, uniqueNames (mount image).m_open_file_table) ∧
    (∀ (t : FileSystem) (m : Str), uniqueNames t.m_open_file_table →
      (∀ mode t1, (openFile fuel t m mode).state = some t1 →
        uniqueNames t1.m_open_file_table) ∧
      uniqueNames (close t m).1.m_open_file_table ∧
      (∀ pos data t1, (write fuel t m pos data).state = some t1 →
        uniqueNames t1.m_open_file_table) ∧
      (∀ t1, (rm fuel t m).state = some t1 → uniqueNames t1.m_open_file_table)) :=
  ⟨rm_found_table fuel s n f chain hname hfde hfile hchain, uniqueNames_mount,
    fun t m hu =>
      ⟨fun mode t1 h => uniqueNames_openFile fuel t m mode t1 hu h,
        uniqueNames_close t m hu,
        fun pos data t1 h => uniqueNames_write fuel t m pos data t1 hu h,
        fun t1 h => uniqueNames_rm fuel t m t1 hu h⟩⟩

/-- The result of `convertToShortName` has eleven bytes, whatever the name: every index
`0 .. 10` is in range, and each byte is the upper-cased byte of the base or extension at
its place, or the space pad. -/
theorem convertToShortName_spec (n : Str) :
    (convertToShortName n).length = 11 ∧
    (∀ i, i < 11 → i < (convertToShortName n).length) ∧
    (n = [0x2E] → convertToShortName n = 0x2E :: List.replicate 10 0x20) ∧
    (n = [0x2E, 0x2E] → convertToShortName n = 0x2E :: 0x2E :: List.replicate 9 0x20) ∧
    (n ≠ [0x2E] → n ≠ [0x2E, 0x2E] → ∀ d, findDot n = some d →
      (∀ i, i < 8 → (convertToShortName n).getD i 0 =
        if i < d then toupper (n.getD i 0) else 0x20) ∧
      (∀ j, j < 3 → (convertToShortName n).getD (8 + j) 0 =
        if d + 1 + j < n.length then toupper (n.getD (d + 1 + j) 0) else 0x20)) ∧
    (n ≠ [0x2E] → n ≠ [0x2E, 0x2E] → findDot n = none →
      ∀ i, i < 11 → (convertToShortName n).getD i 0 =
        if i < n.length then toupper (n.getD i 0) else 0x20) := by
  obtain ⟨h1, h2, h3, h4, h5⟩ := convertToShortName_bytes n
  exact ⟨h1, fun i hi => by rw [h1]; exact hi, h2, h3, h4, h5⟩

/-! # The claims -/

/-- Claim C1, at a failing input.  On a fresh volume, `create a.txt; open a.txt rw;
write a.txt 0 "hello"` succeeds, and the following `read a.txt 0 5` sends six
characters to the output: the five bytes of "hello" and the byte stored after them. -/
theorem C1_read_after_write_emits_one_byte_more :
    helloSession.value = some Report.wrote ∧
    (helloSession.andThen fun s => read 2 s name_a_txt 0 5).value =
      some (Report.readData [0x68, 0x65, 0x6C, 0x6C, 0x6F, 0x00]) := by
  decide!

/-- Claim C2, as amended.  For every name that passes the character and length tests of
`create`, has no upper-case letter and, when it has a dot, is `.` or `..` or has a base of
at most seven characters and a nonempty extension, decoding the short name that
`convertToShortName` produces gives the name back. -/
theorem C2_name_round_trip (n : Str)
    (hchars : invalidNameChar n 0 = none) (hlen : nameLengthError n = none)
    (hlower : ∀ c ∈ n, ¬ (0x41 ≤ c ∧ c ≤ 0x5A))
    (hdot : ∀ d, findDot n = some d → n = [0x2E] ∨ n = [0x2E, 0x2E] ∨ (d < 8 ∧ d + 1 < n.length)) :
    convertFromShortName (convertToShortName n) = n :=
  name_round_trip n hchars hlen hlower hdot

/-- Witness for C2: the name "a.txt" satisfies every hypothesis. -/
theorem C2_name_round_trip_witness :
    convertFromShortName (convertToShortName name_a_txt) = name_a_txt :=
  C2_name_round_trip name_a_txt (by decide) (by decide) (by decide) (by decide)

/-- Claim C2, counterexamples.  The names "a." and "abcdefgh.txt" pass the character and
length tests of `create` and have no upper-case letter (a dot with a base of at most 8 and
an extension of at most 3 characters), and they decode to "a" and "abcdefghtxt". -/
theorem C2_round_trip_counterexample :
    (invalidNameChar name_a_dot 0 = none ∧ nameLengthError name_a_dot = none ∧
      (∀ c ∈ name_a_dot, ¬ (0x41 ≤ c ∧ c ≤ 0x5A)) ∧
      convertFromShortName (convertToShortName name_a_dot) = [0x61] ∧
      convertFromShortName (convertToShortName name_a_dot) ≠ name_a_dot) ∧
    (invalidNameChar name_abcdefgh_txt 0 = none ∧ nameLengthError name_abcdefgh_txt = none ∧
      (∀ c ∈ name_abcdefgh_txt, ¬ (0x41 ≤ c ∧ c ≤ 0x5A)) ∧
      convertFromShortName (convertToShortName name_abcdefgh_txt) =
        [0x61, 0x62, 0x63, 0x64, 0x65, 0x66, 0x67, 0x68, 0x74, 0x78, 0x74] ∧
      convertFromShortName (convertToShortName name_abcdefgh_txt) ≠ name_abcdefgh_txt) := by
  decide

/-- Claim C3, at failing inputs.  (1) On the volume with the empty file `e` (first cluster 0)
the free count equals the number of zero FAT entries (15); `rm e` succeeds and leaves the
free count at 16 while the number of zero FAT entries of clusters 2 .. 17 is still 15.
(2) After `create x; create z; rm x; open z w; write z 512 "A"` on the fresh volume the
two numbers agree (13); `undelete` then leaves the free count at 12 and the number of
zero entries at 13. -/
theorem C3_free_count_invariant_broken :
    ((mount emptyFileImage).m_fsinfo.free_cluster_count = 15 ∧
      freeEntryCount (mount emptyFileImage) = 15 ∧
      (rm 2 (mount emptyFileImage) name_e).value = some Report.silent ∧
      (rm 2 (mount emptyFileImage) name_e).state.map
        (fun s => (s.m_fsinfo.free_cluster_count, freeEntryCount s)) = some (16, 15)) ∧
    (reuseSession.value = some Report.wrote ∧
      reuseSession.state.map (fun s => (s.m_fsinfo.free_cluster_count, freeEntryCount s)) =
        some (13, 13) ∧
      (reuseSession.andThen fun s => undelete 2 s).state.map
        (fun s => (s.m_fsinfo.free_cluster_count, freeEntryCount s)) = some (12, 13)) := by
  decide!

/-- Claim C4, at a failing input.  On the volume with the empty file `e` (first cluster 0)
the two FAT mirrors are byte-identical; `open e w; write e 0 "A"` succeeds and stores
the byte at offset 16384, the first byte of the first mirror, so that the mirrors
differ afterwards (0x41 against 0xF8 at offset 16896). -/
theorem C4_write_breaks_fat_mirrors :
    mirrorsIdentical (mount emptyFileImage) ∧
    emptyFileWriteSession.value = some Report.wrote ∧
    emptyFileWriteSession.state.map (fun s => (byteAt s 16384, byteAt s 16896)) =
      some (0x41, 0xF8) ∧
    emptyFileWriteSession.state.map (fun s => decide (mirrorsIdentical s)) = some false := by
  decide!

/-- Claim C5, as amended.  On a well-formed volume of at most 65536 cluster numbers, let the
chain of the current directory lie in the volume and hold a free slot, let the free count
be positive, and let `n` be a new name that passes the tests of `create`, is not empty
and not the name of the current directory, consists of bytes that `readDirectoryEntry`
keeps, has no upper-case letter and, when it has a dot, has a base of at most seven
characters and a nonempty extension.  Then `create n` succeeds, the following `rm n`
succeeds, and the free count is again what it was before `create`. -/
theorem C5_create_then_rm_restores_free_count (fuel : Nat) (now : Tm) (s : FileSystem) (n : Str)
    (chain : List Nat) (loc : Nat)
    (hw : WellFormed s) (hsmall : total_cluster_count s ≤ 65536)
    (hchain : getClusterChain fuel s s.m_current_directory_cluster = some chain)
    (hvol : ∀ x ∈ chain, InVolume s x)
    (hslot : findFreeSlot s chain = some loc)
    (hname : isValidEntryName n = true) (hchars : invalidNameChar n 0 = none)
    (hdots : ¬ (n = [0x2E] ∨ n = [0x2E, 0x2E])) (hlen : nameLengthError n = none)
    (hkept : ∀ c ∈ n, keptByte c = true) (hlower : ∀ c ∈ n, ¬ (0x41 ≤ c ∧ c ≤ 0x5A))
    (hdot : ∀ d, findDot n = some d → d < 8 ∧ d + 1 < n.length)
    (hne : n ≠ []) (hcur : n ≠ s.m_current_directory_name)
    (hnew : directoryEntryExists fuel s n s.m_current_directory_cluster = some false)
    (hfree : 0 < s.m_fsinfo.free_cluster_count) :
    ∃ s1 s2, create fuel now s n = Result.returned s1 Report.silent ∧
      rm fuel s1 n = Result.returned s2 Report.silent ∧
      s2.m_fsinfo.free_cluster_count = s.m_fsinfo.free_cluster_count :=
  create_rm_restores fuel now s n chain loc hw hsmall hchain hvol hslot hname hchars hdots hlen
    hkept hlower hdot hne hcur hnew hfree

/-- Witness for C5: the fresh volume (root directory in cluster 2, first free slot at byte
17408, 15 free clusters) and the name "a.txt". -/
theorem C5_create_then_rm_witness :
    ∃ s1 s2, create 2 noon (mount freshImage) name_a_txt = Result.returned s1 Report.silent ∧
      rm 2 s1 name_a_txt = Result.returned s2 Report.silent ∧
      s2.m_fsinfo.free_cluster_count = (mount freshImage).m_fsinfo.free_cluster_count :=
  C5_create_then_rm_restores_free_count 2 noon (mount freshImage) name_a_txt [2] 17408
    ⟨by decide, by decide, by decide, by decide, by decide, by decide, by decide, by decide,
      by decide, by decide⟩
    (by decide) (by decide)
    (fun x hx => by
      rw [List.mem_singleton] at hx
      subst hx
      exact ⟨by decide, by decide⟩)
    (by decide) (by decide) (by decide) (by decide) (by decide) (by decide) (by decide)
    (by decide) (by decide) (by decide) (by decide) (by decide)

/-- Claim C5, counterexample.  The root directory is full (no free slot) and 15 clusters
are free; `create x` succeeds by extending the directory and leaves 13 free clusters,
and the following `rm x` succeeds and leaves 14, one less than before `create`. -/
theorem C5_create_rm_full_directory_counterexample :
    (mount fullDirImage).m_fsinfo.free_cluster_count = 15 ∧
    (create 3 noon (mount fullDirImage) name_x).value = some Report.silent ∧
    (create 3 noon (mount fullDirImage) name_x).state.map
      (fun s => s.m_fsinfo.free_cluster_count) = some 13 ∧
    createRemoveFullDir.value = some Report.silent ∧
    createRemoveFullDir.state.map (fun s => s.m_fsinfo.free_cluster_count) = some 14 := by
  decide!

/-- Claim C6, at a failing input.  The file `a.txt` holds "hello" (size 5) and is open in
mode rw; `read a.txt 1 3` has `start_pos + num_bytes = 4 ≤ 5` and sends four characters
("ello") to the output instead of three. -/
theorem C6_read_emits_num_bytes_plus_one :
    (helloSession.andThen fun s => read 2 s name_a_txt 1 3).value =
      some (Report.readData [0x65, 0x6C, 0x6C, 0x6F]) := by
  decide!

/-- Claim C7, at a failing input.  A fresh file (one cluster, size 0) is written with 1025
bytes at position 0 while 14 clusters are free; the write succeeds and `size` then
reports 1024 allocated bytes, not 1536 and less than the 1025 bytes requested. -/
theorem C7_size_after_three_cluster_write :
    bigWriteSession.value = some Report.wrote ∧
    (bigWriteSession.andThen fun s => size 2 s name_a_txt).value =
      some (Report.allocatedBytes 1024) := by
  decide!

/-- Claim C8, as amended.  For a file open in mode w or rw whose chain is found, when
`start_pos + |data|` and `|chain| * bytes_per_cluster` are below 2^32 and the number of
additional clusters `ceil((start_pos + |data| - |chain| * bytes_per_cluster) /
bytes_per_cluster)` exceeds the free count, `write` reports insufficient space and returns
with the engine (image, free count, open-file table) unchanged. -/
theorem C8_write_insufficient_space (fuel : Nat) (s : FileSystem) (file_name : Str)
    (start_pos : Nat) (quoted_data : Str) (file : DirectoryEntry) (file_mode : Str)
    (cluster_chain : List Nat)
    (hname : isValidEntryName file_name = true)
    (hopen : tableLookup s.m_open_file_table file_name = some (file, file_mode))
    (hmode : file_mode = WRITE ∨ file_mode = READ_WRITE)
    (hchain : getClusterChain fuel s file.cluster = some cluster_chain)
    (hreq : start_pos + quoted_data.length < 4294967296)
    (halloc : cluster_chain.length * s.m_bytes_per_cluster < 4294967296)
    (hfree : s.m_fsinfo.free_cluster_count <
      (start_pos + quoted_data.length - cluster_chain.length * s.m_bytes_per_cluster +
        s.m_bytes_per_cluster - 1) / s.m_bytes_per_cluster) :
    write fuel s file_name start_pos quoted_data = Result.returned s Report.insufficientSpace := by
  have hb : 0 < s.m_bytes_per_cluster := by
    rcases Nat.eq_zero_or_pos s.m_bytes_per_cluster with h0 | h0
    · rw [h0] at hfree; simp at hfree
    · exact h0
  have hx : 0 < start_pos + quoted_data.length - cluster_chain.length * s.m_bytes_per_cluster := by
    by_contra hc
    have h0 : start_pos + quoted_data.length - cluster_chain.length * s.m_bytes_per_cluster = 0 := by
      omega
    rw [h0, Nat.zero_add] at hfree
    have : (s.m_bytes_per_cluster - 1) / s.m_bytes_per_cluster = 0 :=
      Nat.div_eq_of_lt (by omega)
    omega
  have hq : (start_pos + quoted_data.length - cluster_chain.length * s.m_bytes_per_cluster +
        s.m_bytes_per_cluster - 1) / s.m_bytes_per_cluster < 4294967296 := by
    have hle : (start_pos + quoted_data.length - cluster_chain.length * s.m_bytes_per_cluster +
        s.m_bytes_per_cluster - 1) / s.m_bytes_per_cluster ≤
        start_pos + quoted_data.length - cluster_chain.length * s.m_bytes_per_cluster := by
      apply Nat.div_le_of_le_mul
      obtain ⟨y, hy⟩ : ∃ y, start_pos + quoted_data.length -
          cluster_chain.length * s.m_bytes_per_cluster = y + 1 := ⟨_, (Nat.succ_pred_eq_of_pos hx).symm⟩
      rw [hy, Nat.mul_succ]
      have : y ≤ s.m_bytes_per_cluster * y := Nat.le_mul_of_pos_left _ hb
      omega
    omega
  unfold write
  simp only [hname, hopen, hchain, Bool.not_true]
  have hm : ¬ (file_mode ≠ WRITE ∧ file_mode ≠ READ_WRITE) := by
    rcases hmode with h | h <;> simp [h]
  simp only [hm, if_false, Bool.false_eq_true]
  rw [u32_of_lt hreq, u32_of_lt halloc]
  rw [if_pos (by omega)]
  unfold ceilDiv
  rw [u32_of_lt hq, if_pos hfree]

/-- Witness for C8: `a.txt` is open in mode w with the one cluster 3 and 14 clusters are
free; `write a.txt 8192 "A"` needs 16 more clusters. -/
theorem C8_write_insufficient_space_witness :
    write 2 openedState name_a_txt 8192 [0x41] =
      Result.returned openedState Report.insufficientSpace :=
  C8_write_insufficient_space 2 openedState name_a_txt 8192 [0x41]
    { name := name_a_txt, attr := 0x20, write_time := 0, write_date := 0, cluster := 3, size := 0,
      mem_location := 17408 }
    WRITE [3] (by decide) (by decide) (by decide) (by decide) (by decide) (by decide) (by decide)

/-- Claim C8, counterexample.  `a.txt` is open in mode w, has one cluster of 512 bytes and
size 0, and 14 clusters are free.  For `start_pos = 4294967295` and two bytes of data the
number of additional clusters is 8388608, more than the free count, and yet `write`
returns with its success message and has changed the size field of the entry on disk
(bytes 17436 .. 17439) from 0 to 1. -/
theorem C8_write_wraps_counterexample :
    getClusterChain 2 openedState 3 = some [3] ∧
    openedState.m_fsinfo.free_cluster_count = 14 ∧
    14 < (4294967295 + 2 - 1 * openedState.m_bytes_per_cluster +
      openedState.m_bytes_per_cluster - 1) / openedState.m_bytes_per_cluster ∧
    readFromFileSystem openedState 32 17436 4 = 0 ∧
    (write 2 openedState name_a_txt 4294967295 [0x41, 0x42]).value = some Report.wrote ∧
    (write 2 openedState name_a_txt 4294967295 [0x41, 0x42]).state.map
      (fun s => readFromFileSystem s 32 17436 4) = some 1 := by
  decide!

/-- Claim C9, as amended.  When the free count is 0 and the name passes every test of
`create` and `mkdir` and does not exist in the current directory, both calls end in the
exception of `getFreeCluster`, which nothing catches, and the engine (image and free
count) is unchanged at that point. -/
theorem C9_create_mkdir_throw_when_no_free_cluster (fuel : Nat) (now : Tm) (s : FileSystem)
    (n : Str)
    (hname : isValidEntryName n = true) (hchars : invalidNameChar n 0 = none)
    (hdots : ¬ (n = [0x2E] ∨ n = [0x2E, 0x2E])) (hlen : nameLengthError n = none)
    (hnew : directoryEntryExists fuel s n s.m_current_directory_cluster = some false)
    (hfree : s.m_fsinfo.free_cluster_count = 0) :
    create fuel now s n = Result.exception s ∧ mkdir fuel now s n = Result.exception s := by
  have hchain : ∃ chain, getClusterChain fuel s s.m_current_directory_cluster = some chain := by
    unfold directoryEntryExists at hnew
    split_ifs at hnew with hroot
    · cases hnew
    · cases hl : getDirectoryEntries fuel s s.m_current_directory_cluster with
      | none => rw [hl] at hnew; simp at hnew
      | some l => exact chain_of_entries fuel s _ l hl
  obtain ⟨chain, hchain⟩ := hchain
  have hcde := fun t => createDirectoryEntry_exception fuel now s n s.m_current_directory_cluster
    t chain hchain hfree
  constructor
  · unfold create
    simp only [hname, hchars, hdots, hlen, hnew, hcde, Bool.not_true, Bool.false_eq_true, if_false]
  · unfold mkdir
    simp only [hname, hchars, hlen, hnew, hcde, Bool.not_true, Bool.false_eq_true, if_false]

/-- Witness for C9: the volume with no free cluster and the new name "a.txt". -/
theorem C9_create_mkdir_throw_witness :
    create 2 noon (mount fullVolumeImage) name_a_txt = Result.exception (mount fullVolumeImage) ∧
    mkdir 2 noon (mount fullVolumeImage) name_a_txt = Result.exception (mount fullVolumeImage) :=
  C9_create_mkdir_throw_when_no_free_cluster 2 noon (mount fullVolumeImage) name_a_txt
    (by decide) (by decide) (by decide) (by decide) (by decide) (by decide)

/-- Claim C9, counterexample.  On the volume with free count 0 (and no zero FAT entry),
`create a.txt` and `mkdir a.txt` with the valid new name do not return an error result:
they end in the uncaught exception. -/
theorem C9_create_mkdir_terminate_counterexample :
    (mount fullVolumeImage).m_fsinfo.free_cluster_count = 0 ∧
    freeEntryCount (mount fullVolumeImage) = 0 ∧
    (create 2 noon (mount fullVolumeImage) name_a_txt).value = none ∧
    (create 2 noon (mount fullVolumeImage) name_a_txt).threw = true ∧
    (mkdir 2 noon (mount fullVolumeImage) name_a_txt).value = none ∧
    (mkdir 2 noon (mount fullVolumeImage) name_a_txt).threw = true := by
  decide!

/-- Claim C10, at a failing input.  The current directory is the root, in cluster
P = 65536; `mkdir d` succeeds and allocates cluster 2 for `d`, whose data starts at byte
548864.  Slot 0 decodes to `.` with the DIRECTORY attribute and cluster 2, and slot 1
to `..` with the DIRECTORY attribute, but with cluster field 268435456 instead of
65536. -/
theorem C10_dotdot_cluster_field_corrupted :
    (mount bigRootImage).m_current_directory_cluster = 65536 ∧
    (mkdir 2 noon (mount bigRootImage) name_d).value = some Report.silent ∧
    (mkdir 2 noon (mount bigRootImage) name_d).state.map
      (fun s => ((readDirectoryEntry s 548864).name, (readDirectoryEntry s 548864).attr,
        (readDirectoryEntry s 548864).cluster)) = some ([0x2E], 0x10, 2) ∧
    (mkdir 2 noon (mount bigRootImage) name_d).state.map
      (fun s => ((readDirectoryEntry s 548896).name, (readDirectoryEntry s 548896).attr,
        (readDirectoryEntry s 548896).cluster)) = some ([0x2E, 0x2E], 0x10, 268435456) := by
  decide!

/-- Claim C11, at a failing input.  The name "abcdefgh.txt" passes every test of `mkdir`; on
the fresh volume `mkdir abcdefgh.txt` succeeds and leaves 14 free clusters, and a second
`mkdir abcdefgh.txt` is not rejected: it succeeds as well, takes cluster 4, writes a
second entry in slot 1 (byte 17440) and leaves the free count at 13 in memory and in
FSInfo; the directory then lists "abcdefghtxt" twice.  (For the name "d" the second
`mkdir` is rejected as already existing and the count stays at 14.) -/
theorem C11_second_mkdir_is_not_rejected :
    (isValidEntryName name_abcdefgh_txt = true ∧ invalidNameChar name_abcdefgh_txt 0 = none ∧
      nameLengthError name_abcdefgh_txt = none) ∧
    (mkdir 2 noon (mount freshImage) name_abcdefgh_txt).value = some Report.silent ∧
    (mkdir 2 noon (mount freshImage) name_abcdefgh_txt).state.map
      (fun s => (s.m_fsinfo.free_cluster_count, getFATEntry s 4, byteAt s 17440)) =
        some (14, 0, 0) ∧
    (mkdirTwiceSession name_abcdefgh_txt).value = some Report.silent ∧
    (mkdirTwiceSession name_abcdefgh_txt).state.map
      (fun s => (s.m_fsinfo.free_cluster_count, readFromFileSystem s 32 1000 4,
        getFATEntry s 4, byteAt s 17440)) = some (13, 13, EOC, 0x41) ∧
    ((mkdirTwiceSession name_abcdefgh_txt).andThen fun s => ls 2 s ROOT).value =
      some (Report.listing
        [[0x61, 0x62, 0x63, 0x64, 0x65, 0x66, 0x67, 0x68, 0x74, 0x78, 0x74],
         [0x61, 0x62, 0x63, 0x64, 0x65, 0x66, 0x67, 0x68, 0x74, 0x78, 0x74]]) ∧
    ((mkdirTwiceSession name_d).value = some Report.alreadyExists ∧
      (mkdirTwiceSession name_d).state.map (fun s => s.m_fsinfo.free_cluster_count) =
        some 14) := by
  decide!

/-- Claim C12, at a failing input.  The name "abcdefgh.txt" passes every test of `create`;
on the fresh volume `create abcdefgh.txt` succeeds and puts the file in slot 0 (byte
17408) with first cluster 3.  The following `rm abcdefgh.txt` reports that the file was
not found, and after `undelete` the slot still decodes to "abcdefghtxt": the directory
lists that name and no `undel.1`.  (For the name "x" the same session leaves a file
entry `undel.1` of size 0 and cluster 3 in the slot, lists it, and the FAT entry of
cluster 3 is EOC.) -/
theorem C12_undelete_after_rm_of_undecodable_name :
    (isValidEntryName name_abcdefgh_txt = true ∧ invalidNameChar name_abcdefgh_txt 0 = none ∧
      nameLengthError name_abcdefgh_txt = none) ∧
    (create 2 noon (mount freshImage) name_abcdefgh_txt).value = some Report.silent ∧
    (create 2 noon (mount freshImage) name_abcdefgh_txt).state.map
      (fun s => ((readDirectoryEntry s 17408).cluster, isFile (readDirectoryEntry s 17408),
        isFreeEntry (readDirectoryEntry s 17408))) = some (3, true, false) ∧
    ((create 2 noon (mount freshImage) name_abcdefgh_txt).andThen fun s =>
      rm 2 s name_abcdefgh_txt).value = some Report.notFound ∧
    (undeleteSession name_abcdefgh_txt).value = some Report.silent ∧
    (undeleteSession name_abcdefgh_txt).state.map (fun s => (readDirectoryEntry s 17408).name) =
      some [0x61, 0x62, 0x63, 0x64, 0x65, 0x66, 0x67, 0x68, 0x74, 0x78, 0x74] ∧
    ((undeleteSession name_abcdefgh_txt).andThen fun s => ls 2 s ROOT).value =
      some (Report.listing [[0x61, 0x62, 0x63, 0x64, 0x65, 0x66, 0x67, 0x68, 0x74, 0x78, 0x74]]) ∧
    ((undeleteSession name_x).state.map
        (fun s => ((readDirectoryEntry s 17408).name, isFile (readDirectoryEntry s 17408),
          isFreeEntry (readDirectoryEntry s 17408), (readDirectoryEntry s 17408).size,
          (readDirectoryEntry s 17408).cluster, getFATEntry s 3)) =
        some (name_undel_1, true, false, 0, 3, EOC) ∧
      ((undeleteSession name_x).andThen fun s => ls 2 s ROOT).value =
        some (Report.listing [name_undel_1])) := by
  decide!

/-- Claim C13.  When the file is not in the open-file table, or is there with a mode other
than w and rw (such as r), `write` returns with one of its three error messages and the
engine unchanged; when it is not in the table, or is there with a mode other than r and
rw (such as w), `read` returns with one of its three error messages and the engine
unchanged, so no file byte is sent to the output.  Conversely a `write` that returns with
its success message found the file in the table with mode w or rw, and a `read` that
sends file data to the output found it there with mode r or rw. -/
theorem C13_mode_enforcement (fuel : Nat) (s : FileSystem) (file_name : Str)
    (start_pos num_bytes : Nat) (quoted_data : Str) :
    ((tableLookup s.m_open_file_table file_name = none ∨
        ∃ file mode, tableLookup s.m_open_file_table file_name = some (file, mode) ∧
          mode ≠ WRITE ∧ mode ≠ READ_WRITE) →
      write fuel s file_name start_pos quoted_data = Result.returned s Report.invalidEntryName ∨
      write fuel s file_name start_pos quoted_data = Result.returned s Report.notInOpenFileTable ∨
      write fuel s file_name start_pos quoted_data = Result.returned s Report.notOpenForWriting) ∧
    ((tableLookup s.m_open_file_table file_name = none ∨
        ∃ file mode, tableLookup s.m_open_file_table file_name = some (file, mode) ∧
          mode ≠ READ ∧ mode ≠ READ_WRITE) →
      read fuel s file_name start_pos num_bytes = Result.returned s Report.invalidEntryName ∨
      read fuel s file_name start_pos num_bytes = Result.returned s Report.notInOpenFileTable ∨
      read fuel s file_name start_pos num_bytes = Result.returned s Report.notOpenForReading) ∧
    (∀ s1, write fuel s file_name start_pos quoted_data = Result.returned s1 Report.wrote →
      ∃ file mode, tableLookup s.m_open_file_table file_name = some (file, mode) ∧
        (mode = WRITE ∨ mode = READ_WRITE)) ∧
    (∀ s1 bytes,
      read fuel s file_name start_pos num_bytes = Result.returned s1 (Report.readData bytes) →
      ∃ file mode, tableLookup s.m_open_file_table file_name = some (file, mode) ∧
        (mode = READ ∨ mode = READ_WRITE)) :=
  ⟨write_rejected fuel s file_name start_pos quoted_data,
    read_rejected fuel s file_name start_pos num_bytes,
    fun s1 h => write_proceeds_only fuel s file_name start_pos quoted_data s1 h,
    fun s1 bytes h => read_proceeds_only fuel s file_name start_pos num_bytes s1 bytes h⟩

/-- Witness for C13: with `a.txt` open in mode r, `write a.txt 0 "hello"` is rejected and
`read a.txt 0 5` sends data to the output; with `a.txt` open in mode w, `read a.txt 0 5`
is rejected and `write a.txt 0 "hello"` succeeds. -/
theorem C13_mode_enforcement_witness :
    (write 2 readOnlyState name_a_txt 0 data_hello =
        Result.returned readOnlyState Report.invalidEntryName ∨
      write 2 readOnlyState name_a_txt 0 data_hello =
        Result.returned readOnlyState Report.notInOpenFileTable ∨
      write 2 readOnlyState name_a_txt 0 data_hello =
        Result.returned readOnlyState Report.notOpenForWriting) ∧
    (read 2 openedState name_a_txt 0 5 = Result.returned openedState Report.invalidEntryName ∨
      read 2 openedState name_a_txt 0 5 = Result.returned openedState Report.notInOpenFileTable ∨
      read 2 openedState name_a_txt 0 5 = Result.returned openedState Report.notOpenForReading) ∧
    (∃ file mode, tableLookup openedState.m_open_file_table name_a_txt = some (file, mode) ∧
      (mode = WRITE ∨ mode = READ_WRITE)) ∧
    (∃ file mode, tableLookup readOnlyState.m_open_file_table name_a_txt = some (file, mode) ∧
      (mode = READ ∨ mode = READ_WRITE)) := by
  refine ⟨?_, ?_, ?_, ?_⟩
  · exact (C13_mode_enforcement 2 readOnlyState name_a_txt 0 5 data_hello).1
      (Or.inr ⟨
        { name := name_a_txt, attr := 0x20, write_time := 0, write_date := 0, cluster := 3,
          size := 0, mem_location := 17408 },
        READ, by decide, by decide, by decide⟩)
  · exact (C13_mode_enforcement 2 openedState name_a_txt 0 5 data_hello).2.1
      (Or.inr ⟨
        { name := name_a_txt, attr := 0x20, write_time := 0, write_date := 0, cluster := 3,
          size := 0, mem_location := 17408 },
        WRITE, by decide, by decide, by decide⟩)
  · obtain ⟨s1, h1⟩ := Result.returned_of_value (write 2 openedState name_a_txt 0 data_hello)
      Report.wrote (by decide!)
    exact (C13_mode_enforcement 2 openedState name_a_txt 0 5 data_hello).2.2.1 s1 h1
  · obtain ⟨s1, h1⟩ := Result.returned_of_value (read 2 readOnlyState name_a_txt 0 5)
      (Report.readData [0x00]) (by decide!)
    exact (C13_mode_enforcement 2 readOnlyState name_a_txt 0 5 data_hello).2.2.2 s1 [0x00] h1

/-- Claim C14, as amended.  A name that contains a byte of the set 0x00-0x04, 0x06-0x09,
0x10-0x19, 0x20, 0x22, 0x2A-0x2C, 0x2F, 0x3A-0x3F, 0x5B-0x5D, 0x7C, or the byte 0x05
at a position other than the first, is rejected by `create` and by `mkdir`: each returns
with the message about the slash or about the offending character, and the engine (image
and free count) is unchanged. -/
theorem C14_invalid_characters_rejected (fuel : Nat) (now : Tm) (s : FileSystem) (n : Str)
    (h : (∃ c ∈ n, c ≤ 0x04 ∨ (0x06 ≤ c ∧ c ≤ 0x09) ∨ (0x10 ≤ c ∧ c ≤ 0x19) ∨ c = 0x20 ∨
        c = 0x22 ∨ (0x2A ≤ c ∧ c ≤ 0x2C) ∨ c = 0x2F ∨ (0x3A ≤ c ∧ c ≤ 0x3F) ∨
        (0x5B ≤ c ∧ c ≤ 0x5D) ∨ c = 0x7C) ∨
      (∃ i, 0 < i ∧ n.get? i = some 0x05)) :
    (create fuel now s n = Result.returned s Report.invalidEntryName ∨
      ∃ c, create fuel now s n = Result.returned s (Report.cannotContain c)) ∧
    (mkdir fuel now s n = Result.returned s Report.invalidEntryName ∨
      ∃ c, mkdir fuel now s n = Result.returned s (Report.cannotContain c)) := by
  apply create_mkdir_reject_invalid
  rcases h with ⟨c, hc, hl⟩ | ⟨i, hi, h5⟩
  · exact invalidNameChar_of_mem n 0 c hc ((mem_INVALID_CHAR_LIST_iff c).mpr hl)
  · exact invalidNameChar_of_special n 0 i h5 (by omega)

/-- Witness for C14: the name "a b" contains the byte 0x20. -/
theorem C14_invalid_characters_witness :
    (create 2 noon (mount freshImage) name_a_space_b =
        Result.returned (mount freshImage) Report.invalidEntryName ∨
      ∃ c, create 2 noon (mount freshImage) name_a_space_b =
        Result.returned (mount freshImage) (Report.cannotContain c)) ∧
    (mkdir 2 noon (mount freshImage) name_a_space_b =
        Result.returned (mount freshImage) Report.invalidEntryName ∨
      ∃ c, mkdir 2 noon (mount freshImage) name_a_space_b =
        Result.returned (mount freshImage) (Report.cannotContain c)) :=
  C14_invalid_characters_rejected 2 noon (mount freshImage) name_a_space_b
    (Or.inl ⟨0x20, by decide, by decide⟩)

/-- Claim C14, counterexample.  The byte 0x1A lies in the range 0x10-0x1A of the claim but is
not in the list of the engine; on the fresh volume `create` and `mkdir` accept the
one-byte name 0x1A, write an entry in slot 0 of the root directory and take a cluster
(free count 15 before, 14 after). -/
theorem C14_byte_1A_accepted_counterexample :
    (0x10 ≤ 0x1A ∧ 0x1A ≤ 0x1A ∧ 0x1A ∈ name_sub ∧ 0x1A ∉ INVALID_CHAR_LIST) ∧
    (mount freshImage).m_fsinfo.free_cluster_count = 15 ∧
    (create 2 noon (mount freshImage) name_sub).value = some Report.silent ∧
    (create 2 noon (mount freshImage) name_sub).state.map
      (fun s => (s.m_fsinfo.free_cluster_count, byteAt s 17408, getFATEntry s 3)) =
        some (14, 0x1A, EOC) ∧
    (mkdir 2 noon (mount freshImage) name_sub).value = some Report.silent ∧
    (mkdir 2 noon (mount freshImage) name_sub).state.map
      (fun s => (s.m_fsinfo.free_cluster_count, byteAt s 17408, getFATEntry s 3)) =
        some (14, 0x1A, EOC) := by
  decide!

/-- Claim C15, at a failing input.  On the fresh volume the current directory is the root.
`create .` and `create ..` are rejected with the engine unchanged, but `mkdir .` and
`mkdir ..` succeed: each writes a directory entry in slot 0 of the root directory, takes
cluster 3 and leaves 14 free clusters instead of 15, and the root directory then lists
the name. -/
theorem C15_mkdir_dot_in_root_succeeds :
    (mount freshImage).m_current_directory_cluster = (mount freshImage).m_bpb.root_cluster ∧
    (mount freshImage).m_fsinfo.free_cluster_count = 15 ∧
    ((create 2 noon (mount freshImage) name_dot).value = some Report.cannotCreate ∧
      (create 2 noon (mount freshImage) name_dotdot).value = some Report.cannotCreate) ∧
    ((mkdir 2 noon (mount freshImage) name_dot).value = some Report.silent ∧
      (mkdir 2 noon (mount freshImage) name_dot).state.map
        (fun s => (s.m_fsinfo.free_cluster_count, getFATEntry s 3, byteAt s 17408,
          isDirectory (readDirectoryEntry s 17408))) = some (14, EOC, 0x2E, true) ∧
      ((mkdir 2 noon (mount freshImage) name_dot).andThen fun s => ls 2 s ROOT).value =
        some (Report.listing [name_dot])) ∧
    ((mkdir 2 noon (mount freshImage) name_dotdot).value = some Report.silent ∧
      (mkdir 2 noon (mount freshImage) name_dotdot).state.map
        (fun s => (s.m_fsinfo.free_cluster_count, getFATEntry s 3, byteAt s 17408,
          isDirectory (readDirectoryEntry s 17408))) = some (14, EOC, 0x2E, true) ∧
      ((mkdir 2 noon (mount freshImage) name_dotdot).andThen fun s => ls 2 s ROOT).value =
        some (Report.listing [name_dotdot])) := by
  decide!

/-- Claim C16, at failing inputs.  In the root directory of the volume with the three foreign
slots, slot 0 has the first name byte 0xE5 and slot 1 the first name byte 0x00, and both
decode to entries that `isFreeEntry` does not classify as free; slot 2 has the first name
byte 0x20 and decodes to an entry that is classified as free.  `ls` lists "bc" and "q",
and `create x` does not reuse slot 0 or slot 1: it writes its entry into slot 2. -/
theorem C16_free_classification_ignores_first_byte :
    (byteAt (mount foreignSlotsImage) 17408 = FREE_DIR_ENTRY ∧
      isFreeEntry (readDirectoryEntry (mount foreignSlotsImage) 17408) = false) ∧
    (byteAt (mount foreignSlotsImage) 17440 = LAST_FREE_DIR_ENTRY ∧
      isFreeEntry (readDirectoryEntry (mount foreignSlotsImage) 17440) = false) ∧
    (byteAt (mount foreignSlotsImage) 17472 = 0x20 ∧
      isFreeEntry (readDirectoryEntry (mount foreignSlotsImage) 17472) = true) ∧
    (ls 2 (mount foreignSlotsImage) ROOT).value = some (Report.listing [[0x62, 0x63], [0x71]]) ∧
    (create 2 noon (mount foreignSlotsImage) name_x).value = some Report.silent ∧
    (create 2 noon (mount foreignSlotsImage) name_x).state.map
      (fun s => (byteAt s 17408, byteAt s 17440, byteAt s 17472)) = some (0xE5, 0x00, 0x58) := by
  decide!

/-- Claim C17, at a failing input.  The root directory (cluster 2) of the fresh volume
satisfies the invariant, and still does after `create x; create z`.  The following
`rm x` succeeds and leaves the first name byte of slot 0 (byte 17408) at 0x00 while
slot 1 (byte 17440) still holds the live entry `z`, so the invariant no longer holds. -/
theorem C17_rm_breaks_last_free_order :
    lastFreeOrdered (mount freshImage) 2 ∧
    (createTwoSession.value = some Report.silent ∧
      createTwoSession.state.map (fun s => decide (lastFreeOrdered s 2)) = some true) ∧
    removeFirstSession.value = some Report.silent ∧
    removeFirstSession.state.map
      (fun s => (byteAt s 17408, (readDirectoryEntry s 17440).name,
        isFreeEntry (readDirectoryEntry s 17440))) = some (0x00, name_z, false) ∧
    removeFirstSession.state.map (fun s => decide (lastFreeOrdered s 2)) = some false := by
  decide!

/-- Claim C18.  For an entry whose 32 bytes lie below 2^32 and a 32-bit cluster value `c`,
the cluster decoded by `readDirectoryEntry` from the slot that `writeDirectoryEntry` wrote
is `c` if and only if `c ≤ 65535`; for `c` above 65535 the 16-bit word stored at bytes
20-21 differs from `c >> 16`, and the decoded cluster differs from `c`. -/
theorem C18_cluster_codec (s : FileSystem) (e : DirectoryEntry)
    (hloc : e.mem_location + 32 ≤ 4294967296) (hc : e.cluster < 4294967296) :
    ((readDirectoryEntry (writeDirectoryEntry s e) e.mem_location).cluster = e.cluster ↔
      e.cluster ≤ 65535) ∧
    (65535 < e.cluster →
      readFromFileSystem (writeDirectoryEntry s e) 16 (e.mem_location + 20) 2 ≠ e.cluster >>> 16 ∧
      (readDirectoryEntry (writeDirectoryEntry s e) e.mem_location).cluster ≠ e.cluster) :=
  cluster_codec s e hloc hc

/-- Witness for C18: an entry with cluster 65539 written to slot 0 of the root directory of
the fresh volume. -/
theorem C18_cluster_codec_witness :
    ((readDirectoryEntry (writeDirectoryEntry (mount freshImage) highClusterEntry)
        highClusterEntry.mem_location).cluster = highClusterEntry.cluster ↔
      highClusterEntry.cluster ≤ 65535) ∧
    readFromFileSystem (writeDirectoryEntry (mount freshImage) highClusterEntry) 16
      (highClusterEntry.mem_location + 20) 2 ≠ highClusterEntry.cluster >>> 16 ∧
    (readDirectoryEntry (writeDirectoryEntry (mount freshImage) highClusterEntry)
      highClusterEntry.mem_location).cluster ≠ highClusterEntry.cluster :=
  ⟨(C18_cluster_codec (mount freshImage) highClusterEntry (by decide) (by decide)).1,
    (C18_cluster_codec (mount freshImage) highClusterEntry (by decide) (by decide)).2 (by decide)⟩

/-- Claim C19, at a failing input.  On the volume whose FSInfo free count is 1 while no cluster
2 .. 17 has the FAT entry 0, `allocateCluster(2)` does not fail: it returns cluster 0,
having set the FAT entry of cluster 2 (the root directory, end-of-chain before) to 0 in
both mirrors and the free count to 0 in memory and in FSInfo. -/
theorem C19_allocate_without_free_entry_mutates :
    (mount staleCountImage).m_fsinfo.free_cluster_count = 1 ∧
    readFromFileSystem (mount staleCountImage) 32 1000 4 = 1 ∧
    freeEntryCount (mount staleCountImage) = 0 ∧
    (getFATEntry (mount staleCountImage) 2 = EOC ∧
      readFromFileSystem (mount staleCountImage) 32 16904 4 = EOC) ∧
    (allocateCluster (mount staleCountImage) 2).map
      (fun p => (p.2, getFATEntry p.1 2, readFromFileSystem p.1 32 16904 4,
        p.1.m_fsinfo.free_cluster_count, readFromFileSystem p.1 32 1000 4)) =
      some (0, 0, 0, 0, 0) := by
  decide!

/-- Claim C20.  On a well-formed volume, for a cluster number `c` below `total_cluster_count`
and every value `v`: the location `setFATEntry` computes for the entry in each mirror
`i < num_FATS` is the offset `(reserved + 4c / bps + i * FATSz) * bps + 4c mod bps`; after
`setFATEntry(c, v)` the 32-bit word at that offset is the old word of that mirror with its
low 28 bits replaced by those of `v`; every byte outside these words is unchanged; `getFATEntry(c)`
is `v & 0x0FFFFFFF`; and `getFATEntry(c')` is unchanged for every other cluster number
`c'` below `total_cluster_count`. -/
theorem C20_set_fat_entry (s : FileSystem) (hw : WellFormed s) (c v : Nat)
    (hc : c < total_cluster_count s) :
    (∀ i, i < s.m_bpb.num_FATS → FAT_entry_location s c i = fatEntryOffset s c i) ∧
    (∀ i, i < s.m_bpb.num_FATS →
      readFromFileSystem (setFATEntry s c v) 32 (fatEntryOffset s c i) 4 =
        (readFromFileSystem s 32 (fatEntryOffset s c i) 4 &&& 0xF0000000) ||| (v &&& 0x0FFFFFFF)) ∧
    (∀ a, (∀ i, i < s.m_bpb.num_FATS → a < fatEntryOffset s c i ∨ fatEntryOffset s c i + 4 ≤ a) →
      byteAt (setFATEntry s c v) a = byteAt s a) ∧
    getFATEntry (setFATEntry s c v) c = v &&& 0x0FFFFFFF ∧
    (∀ c', c' < total_cluster_count s → c' ≠ c →
      getFATEntry (setFATEntry s c v) c' = getFATEntry s c') :=
  setFATEntry_spec s hw c v hc

/-- Witness for C20: the fresh volume (two mirrors, 18 cluster numbers), cluster 3 and the
value EOC. -/
theorem C20_set_fat_entry_witness :
    (∀ i, i < (mount freshImage).m_bpb.num_FATS →
      FAT_entry_location (mount freshImage) 3 i = fatEntryOffset (mount freshImage) 3 i) ∧
    (∀ i, i < (mount freshImage).m_bpb.num_FATS →
      readFromFileSystem (setFATEntry (mount freshImage) 3 EOC) 32
          (fatEntryOffset (mount freshImage) 3 i) 4 =
        (readFromFileSystem (mount freshImage) 32 (fatEntryOffset (mount freshImage) 3 i) 4 &&&
          0xF0000000) ||| (EOC &&& 0x0FFFFFFF)) ∧
    (∀ a, (∀ i, i < (mount freshImage).m_bpb.num_FATS →
        a < fatEntryOffset (mount freshImage) 3 i ∨ fatEntryOffset (mount freshImage) 3 i + 4 ≤ a) →
      byteAt (setFATEntry (mount freshImage) 3 EOC) a = byteAt (mount freshImage) a) ∧
    getFATEntry (setFATEntry (mount freshImage) 3 EOC) 3 = EOC &&& 0x0FFFFFFF ∧
    (∀ c', c' < total_cluster_count (mount freshImage) → c' ≠ 3 →
      getFATEntry (setFATEntry (mount freshImage) 3 EOC) c' = getFATEntry (mount freshImage) c') :=
  C20_set_fat_entry (mount freshImage)
    ⟨by decide, by decide, by decide, by decide, by decide, by decide, by decide, by decide,
      by decide, by decide⟩
    3 EOC (by decide)

/-- Claim C21.  When the free count is positive and some cluster number `c` with
`2 ≤ c < total_cluster_count` has the FAT entry 0, `getFreeCluster` returns the smallest
such number `r`: `2 ≤ r`, `r` is below `total_cluster_count`, its FAT entry is 0, and every
cluster number from 2 up to `r` has a nonzero entry.  When the free count is 0 it
throws. -/
theorem C21_find_free_cluster (s : FileSystem) :
    (0 < s.m_fsinfo.free_cluster_count →
      (∃ c, 2 ≤ c ∧ c < total_cluster_count s ∧ getFATEntry s c = 0) →
      ∃ r, getFreeCluster s = some r ∧ 2 ≤ r ∧ r < total_cluster_count s ∧
        getFATEntry s r = 0 ∧ ∀ c, 2 ≤ c → c < r → getFATEntry s c ≠ 0) ∧
    (s.m_fsinfo.free_cluster_count = 0 → getFreeCluster s = none) :=
  getFreeCluster_spec s

/-- Witness for C21: the fresh volume has 15 free clusters and cluster 3 is free; the volume
without a free cluster has the free count 0. -/
theorem C21_find_free_cluster_witness :
    (∃ r, getFreeCluster (mount freshImage) = some r ∧ 2 ≤ r ∧
      r < total_cluster_count (mount freshImage) ∧ getFATEntry (mount freshImage) r = 0 ∧
      ∀ c, 2 ≤ c → c < r → getFATEntry (mount freshImage) c ≠ 0) ∧
    getFreeCluster (mount fullVolumeImage) = none :=
  ⟨(C21_find_free_cluster (mount freshImage)).1 (by decide)
      ⟨3, by decide, by decide, by decide⟩,
    (C21_find_free_cluster (mount fullVolumeImage)).2 (by decide)⟩

/-- Claim C22, as amended.  On a well-formed volume with 28-bit cluster numbers, with a
positive free count and a free cluster, and for `prev` that is 0 or a cluster number of
the volume that is not free: `allocateCluster(prev)` returns a cluster `n` that was free
(its FAT entry was 0); afterwards the FAT entry of `n` is EOC, the FAT entry of `prev`
is `n` when `prev` is not 0, every other FAT entry is as before, and the free count in
memory and the 32-bit word at `fsinfo * bytes_per_sector + 488` are the previous count
minus one. -/
theorem C22_allocate_cluster (s : FileSystem) (hw : WellFormed s)
    (h28 : total_cluster_count s ≤ 268435456) (prev : Nat)
    (hprev : prev = 0 ∨ (prev < total_cluster_count s ∧ getFATEntry s prev ≠ 0))
    (hfree : ∃ c, 2 ≤ c ∧ c < total_cluster_count s ∧ getFATEntry s c = 0)
    (hcnt : 0 < s.m_fsinfo.free_cluster_count) :
    ∃ s1 n, allocateCluster s prev = some (s1, n) ∧
      (2 ≤ n ∧ n < total_cluster_count s ∧ getFATEntry s n = 0) ∧
      getFATEntry s1 n = EOC ∧
      (prev ≠ 0 → getFATEntry s1 prev = n) ∧
      (∀ x, x < total_cluster_count s → x ≠ n → (prev = 0 ∨ x ≠ prev) →
        getFATEntry s1 x = getFATEntry s x) ∧
      s1.m_fsinfo.free_cluster_count = s.m_fsinfo.free_cluster_count - 1 ∧
      readFromFileSystem s1 32 (s.m_bpb.fsinfo * s.m_bpb.bytes_per_sector + 488) 4 =
        s.m_fsinfo.free_cluster_count - 1 :=
  allocateCluster_spec s hw h28 prev hprev hfree hcnt

/-- Witness for C22: the fresh volume (15 free clusters, cluster 3 free) and `prev = 2`, the
cluster of the root directory. -/
theorem C22_allocate_cluster_witness :
    ∃ s1 n, allocateCluster (mount freshImage) 2 = some (s1, n) ∧
      (2 ≤ n ∧ n < total_cluster_count (mount freshImage) ∧ getFATEntry (mount freshImage) n = 0) ∧
      getFATEntry s1 n = EOC ∧
      (2 ≠ 0 → getFATEntry s1 2 = n) ∧
      (∀ x, x < total_cluster_count (mount freshImage) → x ≠ n → (2 = 0 ∨ x ≠ 2) →
        getFATEntry s1 x = getFATEntry (mount freshImage) x) ∧
      s1.m_fsinfo.free_cluster_count = (mount freshImage).m_fsinfo.free_cluster_count - 1 ∧
      readFromFileSystem s1 32
          ((mount freshImage).m_bpb.fsinfo * (mount freshImage).m_bpb.bytes_per_sector + 488) 4 =
        (mount freshImage).m_fsinfo.free_cluster_count - 1 :=
  C22_allocate_cluster (mount freshImage)
    ⟨by decide, by decide, by decide, by decide, by decide, by decide, by decide, by decide,
      by decide, by decide⟩
    (by decide) 2 (Or.inr ⟨by decide, by decide⟩) ⟨3, by decide, by decide, by decide⟩ (by decide)

/-- Claim C22, counterexample.  On the fresh volume (15 free clusters) cluster 3 is free and
is the first free cluster.  `allocateCluster(3)` returns `n = 3`, and afterwards the FAT
entry of `prev = 3` is EOC, not `n`. -/
theorem C22_prev_free_counterexample :
    (mount freshImage).m_fsinfo.free_cluster_count = 15 ∧
    getFATEntry (mount freshImage) 3 = 0 ∧
    (allocateCluster (mount freshImage) 3).map (fun p => (p.2, getFATEntry p.1 3)) =
      some (3, EOC) ∧
    EOC ≠ 3 := by
  decide!

/-- Claim C24, at a failing input.  The file `a.txt` has the chain `[3]` and 14 clusters are
free.  `resizeClusterChain(3, [3])` returns with the chain `[3, 4]`: two clusters, not
three, and one cluster taken from the free count. -/
theorem C24_resize_chain_stops_short :
    getClusterChain 2 openedState 3 = some [3] ∧
    openedState.m_fsinfo.free_cluster_count = 14 ∧
    (resizeClusterChain openedState 3 [3]).value = some [3, 4] ∧
    (resizeClusterChain openedState 3 [3]).state.map
      (fun s => (s.m_fsinfo.free_cluster_count, getClusterChain 3 s 3)) =
        some (13, some [3, 4]) := by
  decide!

/-- Claim C25, as amended.  On a well-formed volume (every byte offset of the volume is
below 2^32) and for a cluster `c` with `2 ≤ c < total_cluster_count`, the sector
`getFirstDataSector(c)` and the byte offset the engine computes from it in 32-bit
arithmetic are the exact values `(c - 2) * sectors_per_cluster + first_data_sector` and
that sector times `bytes_per_sector`, which is below 2^32. -/
theorem C25_cluster_offset_exact (s : FileSystem) (hw : WellFormed s) (c : Nat)
    (hc : InVolume s c) :
    getFirstDataSector s c = (c - 2) * s.m_bpb.sectors_per_cluster + s.m_first_data_sector ∧
    clusterOffset s c =
      ((c - 2) * s.m_bpb.sectors_per_cluster + s.m_first_data_sector) * s.m_bpb.bytes_per_sector ∧
    ((c - 2) * s.m_bpb.sectors_per_cluster + s.m_first_data_sector) * s.m_bpb.bytes_per_sector <
      4294967296 :=
  clusterOffset_exact s hw c hc

/-- Witness for C25: cluster 3 of the fresh volume. -/
theorem C25_cluster_offset_witness :
    getFirstDataSector (mount freshImage) 3 =
      (3 - 2) * (mount freshImage).m_bpb.sectors_per_cluster +
        (mount freshImage).m_first_data_sector ∧
    clusterOffset (mount freshImage) 3 =
      ((3 - 2) * (mount freshImage).m_bpb.sectors_per_cluster +
        (mount freshImage).m_first_data_sector) * (mount freshImage).m_bpb.bytes_per_sector ∧
    ((3 - 2) * (mount freshImage).m_bpb.sectors_per_cluster +
      (mount freshImage).m_first_data_sector) * (mount freshImage).m_bpb.bytes_per_sector <
      4294967296 :=
  C25_cluster_offset_exact (mount freshImage)
    ⟨by decide, by decide, by decide, by decide, by decide, by decide, by decide, by decide,
      by decide, by decide⟩
    3 ⟨by decide, by decide⟩

/-- Claim C25, counterexample.  A volume of 8 GiB (512-byte sectors, 8 sectors per cluster,
first data sector 32800, 16777216 sectors, cluster numbers below 2093054, a FAT with room
for all of them): for the cluster 2093053 of the volume the exact offset is 8589930496,
and the engine computes 4294963200. -/
theorem C25_offset_wraps_counterexample :
    ((mount eightGiBImage).m_bpb.bytes_per_sector = 512 ∧
      (mount eightGiBImage).m_bpb.sectors_per_cluster = 8 ∧
      (mount eightGiBImage).m_bpb.total_sectors = 16777216 ∧
      (mount eightGiBImage).m_first_data_sector = 32800 ∧
      (mount eightGiBImage).m_bytes_per_cluster = 4096 ∧
      total_cluster_count (mount eightGiBImage) = (16777216 - 32800) / 8 + 2 ∧
      4 * total_cluster_count (mount eightGiBImage) ≤
        (mount eightGiBImage).m_bpb.FATSz * (mount eightGiBImage).m_bpb.bytes_per_sector) ∧
    (2 ≤ 2093053 ∧ 2093053 < total_cluster_count (mount eightGiBImage)) ∧
    ((2093053 - 2) * 8 + 32800) * 512 = 8589930496 ∧
    clusterOffset (mount eightGiBImage) 2093053 = 4294963200 := by
  decide

/-- Claim C26, at a failing input.  The file `e` has the attribute byte 0x00, size 0 and
first cluster 3.  `open e w; write e 0 "A"` succeeds with `start_pos + |data| = 1 > 0`;
afterwards the slot holds size 1 and the cluster halves 0 and 3, and the open-file table
holds one element for `e` with mode w, size 1 and the ARCHIVE bit, but the attribute byte
on disk (byte 17419) is still 0x00: the ARCHIVE bit is not set there. -/
theorem C26_archive_bit_not_written :
    (byteAt (mount plainFileImage) 17419 = 0x00 ∧
      readDirectoryEntry (mount plainFileImage) 17408 = plainFileEntry) ∧
    plainFileWriteSession.value = some Report.wrote ∧
    plainFileWriteSession.state.map
      (fun s => (readFromFileSystem s 32 17436 4, readFromFileSystem s 16 17428 2,
        readFromFileSystem s 16 17434 2)) = some (1, 0, 3) ∧
    plainFileWriteSession.state.map
      (fun s => s.m_open_file_table.map (fun p => (p.1.name, p.1.attr, p.1.size, p.2))) =
        some [(name_e, 0x20, 1, WRITE)] ∧
    plainFileWriteSession.state.map (fun s => (byteAt s 17419, byteAt s 17419 &&& ATTR_ARCHIVE)) =
      some (0x00, 0) := by
  decide!

/-- Claim C27.  On a well-formed volume let `e` be an entry whose slot lies in the data
region and whose chain is found and consists of `k` cluster numbers of the volume.  Then
`deleteDirectoryEntry` returns; afterwards the word of every cluster of the chain has its
low 28 bits at 0 in every mirror, so its FAT entry is 0; the free count in memory and the
FSInfo word are the previous count plus `k`; the first name byte of the slot is 0x00;
and the word of every other cluster of the volume, in every mirror, is as before. -/
theorem C27_delete_entry (fuel : Nat) (s : FileSystem) (e : DirectoryEntry)
    (chain : List Nat) (hw : WellFormed s)
    (hchain : getClusterChain fuel s e.cluster = some chain)
    (hvol : ∀ x ∈ chain, x < total_cluster_count s)
    (hcnt : s.m_fsinfo.free_cluster_count + chain.length < 4294967296)
    (hdata : s.m_first_data_sector * s.m_bpb.bytes_per_sector ≤ e.mem_location)
    (hloc : e.mem_location + 32 ≤ 4294967296) :
    ∃ s1, deleteDirectoryEntry fuel s e = some s1 ∧
      (∀ x i, x ∈ chain → i < s.m_bpb.num_FATS →
        readFromFileSystem s1 32 (FAT_entry_location s x i) 4 &&& FAT_MASK = 0) ∧
      (∀ x, x ∈ chain → getFATEntry s1 x = 0) ∧
      s1.m_fsinfo.free_cluster_count = s.m_fsinfo.free_cluster_count + chain.length ∧
      readFromFileSystem s1 32 (s.m_bpb.fsinfo * s.m_bpb.bytes_per_sector + 488) 4 =
        s.m_fsinfo.free_cluster_count + chain.length ∧
      byteAt s1 e.mem_location = LAST_FREE_DIR_ENTRY ∧
      (∀ x i, x < total_cluster_count s → i < s.m_bpb.num_FATS → x ∉ chain →
        readFromFileSystem s1 32 (FAT_entry_location s x i) 4 =
          readFromFileSystem s 32 (FAT_entry_location s x i) 4) ∧
      (∀ x, x < total_cluster_count s → x ∉ chain → getFATEntry s1 x = getFATEntry s x) :=
  deleteDirectoryEntry_spec fuel s e chain hw hchain hvol hcnt hdata hloc

/-- Witness for C27: the file `e` of the volume with the plain file, in slot 0 of the root
directory with the chain `[3]`. -/
theorem C27_delete_entry_witness :
    ∃ s1, deleteDirectoryEntry 2 (mount plainFileImage) plainFileEntry = some s1 ∧
      (∀ x i, x ∈ [3] → i < (mount plainFileImage).m_bpb.num_FATS →
        readFromFileSystem s1 32 (FAT_entry_location (mount plainFileImage) x i) 4 &&&
          FAT_MASK = 0) ∧
      (∀ x, x ∈ [3] → getFATEntry s1 x = 0) ∧
      s1.m_fsinfo.free_cluster_count =
        (mount plainFileImage).m_fsinfo.free_cluster_count + [3].length ∧
      readFromFileSystem s1 32
          ((mount plainFileImage).m_bpb.fsinfo * (mount plainFileImage).m_bpb.bytes_per_sector +
            488) 4 =
        (mount plainFileImage).m_fsinfo.free_cluster_count + [3].length ∧
      byteAt s1 plainFileEntry.mem_location = LAST_FREE_DIR_ENTRY ∧
      (∀ x i, x < total_cluster_count (mount plainFileImage) →
        i < (mount plainFileImage).m_bpb.num_FATS → x ∉ [3] →
        readFromFileSystem s1 32 (FAT_entry_location (mount plainFileImage) x i) 4 =
          readFromFileSystem (mount plainFileImage) 32
            (FAT_entry_location (mount plainFileImage) x i) 4) ∧
      (∀ x, x < total_cluster_count (mount plainFileImage) → x ∉ [3] →
        getFATEntry s1 x = getFATEntry (mount plainFileImage) x) :=
  C27_delete_entry 2 (mount plainFileImage) plainFileEntry [3]
    ⟨by decide, by decide, by decide, by decide, by decide, by decide, by decide, by decide,
      by decide, by decide⟩
    (by decide) (by decide) (by decide) (by decide) (by decide)

/-- Claim C29.  For a chain of length `L` whose first cluster is not 0, a 32-bit target size
`S > L` and a free count of at least `ceil((S - L) / 2)` (a 32-bit number),
`resizeClusterChain` returns; the chain has `ceil((S - L) / 2)` clusters appended to the
original ones, so its length is `L + ceil((S - L) / 2)`, which does not exceed `S`, and
the free count has gone down by `ceil((S - L) / 2)`, one for each allocation. -/
theorem C29_resize_allocations (s : FileSystem) (size : Nat) (chain : List Nat)
    (hhead : chain.headD 0 ≠ 0) (hgt : chain.length < size) (hsize : size < 4294967296)
    (hcnt : (size - chain.length + 1) / 2 ≤ s.m_fsinfo.free_cluster_count)
    (hlt : s.m_fsinfo.free_cluster_count < 4294967296) :
    ∃ s1 added, resizeClusterChain s size chain = Result.returned s1 (chain ++ added) ∧
      added.length = (size - chain.length + 1) / 2 ∧
      (chain ++ added).length = chain.length + (size - chain.length + 1) / 2 ∧
      (chain ++ added).length ≤ size ∧
      s1.m_fsinfo.free_cluster_count + (size - chain.length + 1) / 2 =
        s.m_fsinfo.free_cluster_count :=
  resizeClusterChain_spec s size chain hhead hgt hsize hcnt hlt

/-- Witness for C29: the chain `[2]` on the fresh volume (15 free clusters) and the target
size 6. -/
theorem C29_resize_allocations_witness :
    ∃ s1 added, resizeClusterChain (mount freshImage) 6 [2] = Result.returned s1 ([2] ++ added) ∧
      added.length = (6 - ([2] : List Nat).length + 1) / 2 ∧
      ([2] ++ added).length = ([2] : List Nat).length + (6 - ([2] : List Nat).length + 1) / 2 ∧
      ([2] ++ added).length ≤ 6 ∧
      s1.m_fsinfo.free_cluster_count + (6 - ([2] : List Nat).length + 1) / 2 =
        (mount freshImage).m_fsinfo.free_cluster_count :=
  C29_resize_allocations (mount freshImage) 6 [2] (by decide) (by decide) (by decide) (by decide)
    (by decide)

/-- Claim C30, at a failing input.  The file `e` has the cluster field 0, FAT entry 0 is
EOC, and `e` is open in mode w; 15 clusters are free and the data region starts at byte
17408.  `write e 8 "AAAA"` has `start_pos + |data| = 12`, at most one cluster.  It
succeeds, leaves the free count at 15 and the cluster field at 0, and stores the four
bytes from offset `(34 - 2) * 512 + 8 = 16392` on, below the data region; these are the
bytes of the FAT entry of cluster 2 in the first mirror, which changes from EOC to
0x01414141 while the second mirror still holds EOC. -/
theorem C30_sentinel_write_changes_fat :
    ((readDirectoryEntry (mount emptyFileImage) 17408).cluster = 0 ∧
      getFATEntry (mount emptyFileImage) 0 = EOC ∧
      getClusterChain 2 (mount emptyFileImage) 0 = some [0] ∧
      getFATEntry (mount emptyFileImage) 2 = EOC ∧
      (mount emptyFileImage).m_bytes_per_cluster = 512 ∧
      (mount emptyFileImage).m_first_data_sector * (mount emptyFileImage).m_bpb.bytes_per_sector =
        17408) ∧
    sentinelWriteSession.value = some Report.wrote ∧
    sentinelWriteSession.state.map
      (fun s => (s.m_fsinfo.free_cluster_count, (readDirectoryEntry s 17408).cluster)) =
        some (15, 0) ∧
    sentinelWriteSession.state.map
      (fun s => [byteAt s 16392, byteAt s 16393, byteAt s 16394, byteAt s 16395]) =
        some [0x41, 0x41, 0x41, 0x41] ∧
    sentinelWriteSession.state.map
      (fun s => (getFATEntry s 2, readFromFileSystem s 32 16904 4)) =
        some (0x01414141, EOC) := by
  decide!

/-- Claim C31, as amended.  On a well-formed volume (layout of a FAT32 volume below 4 GiB)
with 28-bit cluster numbers and clusters of at least 64 bytes, when the chain of the current directory lies in the volume, a free cluster exists
and, if the chain has no free slot, a second one: every `create` or `mkdir` that succeeds
has put the new entry (its eleven name bytes) at a location `loc` such that either `loc`
is a slot of the chain that was classified free before the call, namely the lowest-offset
free slot of the last cluster in chain order that has a free slot, or no slot of the chain
was free and `loc` is offset 0 of a cluster `p` that was free and is now linked behind the
last cluster of the chain and marked end-of-chain; every slot of the previous chain other
than `loc` has its 32 bytes unchanged. -/
theorem C31_new_entry_slot (fuel : Nat) (now : Tm) (s : FileSystem) (n : Str)
    (chain : List Nat) (s' : FileSystem)
    (hw : WellFormed s) (h28 : total_cluster_count s ≤ 268435456)
    (h64 : 64 ≤ s.m_bytes_per_cluster)
    (hchain : getClusterChain fuel s s.m_current_directory_cluster = some chain)
    (hvol : ∀ x ∈ chain, InVolume s x)
    (hfree : ∃ c, InVolume s c ∧ getFATEntry s c = 0 ∧
      (findFreeSlot s chain = none → ∃ c2, c2 ≠ c ∧ InVolume s c2 ∧ getFATEntry s c2 = 0))
    (h : create fuel now s n = Result.returned s' Report.silent ∨
      mkdir fuel now s n = Result.returned s' Report.silent) :
    ∃ loc,
      (∀ j, j < 11 → byteAt s' (loc + j) = (convertToShortName n).getD j 0 % 256) ∧
      ((∃ pre x post i, chain = pre ++ x :: post ∧ i ∈ slotOffsets s ∧
          loc = u32 (clusterOffset s x + i) ∧ slotFree s x i = true ∧
          (∀ j ∈ slotOffsets s, j < i → slotFree s x j = false) ∧
          (∀ y ∈ post, ∀ j ∈ slotOffsets s, slotFree s y j = false)) ∨
        ((∀ y ∈ chain, ∀ j ∈ slotOffsets s, slotFree s y j = false) ∧
          ∃ p, InVolume s p ∧ getFATEntry s p = 0 ∧ loc = clusterOffset s p ∧
            getFATEntry s' (chain.getLastD 0) = p ∧ getFATEntry s' p = EOC)) ∧
      (∀ a ∈ slotAddrs s chain, a ≠ loc →
        ∀ k, k < 32 → byteAt s' (a + k) = byteAt s (a + k)) :=
  create_mkdir_slot fuel now s n chain s' hw h28 h64 hchain hvol hfree h

/-- Witness for C31: `create a.txt` on the fresh volume (the root directory, chain `[2]`,
has free slots) and `mkdir x` on the volume with the full root directory (no free slot;
clusters 3 and 4 are free). -/
theorem C31_new_entry_slot_witness :
    (∃ s', create 2 noon (mount freshImage) name_a_txt = Result.returned s' Report.silent ∧
      ∃ loc,
        (∀ j, j < 11 → byteAt s' (loc + j) = (convertToShortName name_a_txt).getD j 0 % 256) ∧
        ((∃ pre x post i, [2] = pre ++ x :: post ∧ i ∈ slotOffsets (mount freshImage) ∧
            loc = u32 (clusterOffset (mount freshImage) x + i) ∧
            slotFree (mount freshImage) x i = true ∧
            (∀ j ∈ slotOffsets (mount freshImage), j < i →
              slotFree (mount freshImage) x j = false) ∧
            (∀ y ∈ post, ∀ j ∈ slotOffsets (mount freshImage),
              slotFree (mount freshImage) y j = false)) ∨
          ((∀ y ∈ [2], ∀ j ∈ slotOffsets (mount freshImage),
              slotFree (mount freshImage) y j = false) ∧
            ∃ p, InVolume (mount freshImage) p ∧ getFATEntry (mount freshImage) p = 0 ∧
              loc = clusterOffset (mount freshImage) p ∧
              getFATEntry s' (([2] : List Nat).getLastD 0) = p ∧ getFATEntry s' p = EOC)) ∧
        (∀ a ∈ slotAddrs (mount freshImage) [2], a ≠ loc →
          ∀ k, k < 32 → byteAt s' (a + k) = byteAt (mount freshImage) (a + k))) ∧
    (∃ s', mkdir 3 noon (mount fullDirImage) name_x = Result.returned s' Report.silent ∧
      ∃ loc,
        (∀ j, j < 11 → byteAt s' (loc + j) = (convertToShortName name_x).getD j 0 % 256) ∧
        ((∃ pre x post i, [2] = pre ++ x :: post ∧ i ∈ slotOffsets (mount fullDirImage) ∧
            loc = u32 (clusterOffset (mount fullDirImage) x + i) ∧
            slotFree (mount fullDirImage) x i = true ∧
            (∀ j ∈ slotOffsets (mount fullDirImage), j < i →
              slotFree (mount fullDirImage) x j = false) ∧
            (∀ y ∈ post, ∀ j ∈ slotOffsets (mount fullDirImage),
              slotFree (mount fullDirImage) y j = false)) ∨
          ((∀ y ∈ [2], ∀ j ∈ slotOffsets (mount fullDirImage),
              slotFree (mount fullDirImage) y j = false) ∧
            ∃ p, InVolume (mount fullDirImage) p ∧ getFATEntry (mount fullDirImage) p = 0 ∧
              loc = clusterOffset (mount fullDirImage) p ∧
              getFATEntry s' (([2] : List Nat).getLastD 0) = p ∧ getFATEntry s' p = EOC)) ∧
        (∀ a ∈ slotAddrs (mount fullDirImage) [2], a ≠ loc →
          ∀ k, k < 32 → byteAt s' (a + k) = byteAt (mount fullDirImage) (a + k))) := by
  constructor
  · obtain ⟨s', h⟩ := Result.returned_of_value (create 2 noon (mount freshImage) name_a_txt)
      Report.silent (by decide!)
    exact ⟨s', h, C31_new_entry_slot 2 noon (mount freshImage) name_a_txt [2] s'
      ⟨by decide, by decide, by decide, by decide, by decide, by decide, by decide, by decide,
        by decide, by decide⟩
      (by decide) (by decide) (by decide)
      (fun x hx => by
        rw [List.mem_singleton] at hx
        subst hx
        exact ⟨by decide, by decide⟩)
      ⟨3, ⟨by decide, by decide⟩, by decide,
        fun _ => ⟨4, by decide, ⟨by decide, by decide⟩, by decide⟩⟩
      (Or.inl h)⟩
  · obtain ⟨s', h⟩ := Result.returned_of_value (mkdir 3 noon (mount fullDirImage) name_x)
      Report.silent (by decide!)
    exact ⟨s', h, C31_new_entry_slot 3 noon (mount fullDirImage) name_x [2] s'
      ⟨by decide, by decide, by decide, by decide, by decide, by decide, by decide, by decide,
        by decide, by decide⟩
      (by decide) (by decide) (by decide)
      (fun x hx => by
        rw [List.mem_singleton] at hx
        subst hx
        exact ⟨by decide, by decide⟩)
      ⟨3, ⟨by decide, by decide⟩, by decide,
        fun _ => ⟨4, by decide, ⟨by decide, by decide⟩, by decide⟩⟩
      (Or.inr h)⟩

/-- Claim C31, counterexample.  On the volume of 8 GiB whose root directory has the chain
`[2, 8388611]` the engine computes for cluster 8388611 the 32-bit offset 134234624, which
is the offset of cluster 3.  `mkdir x` succeeds: the scan chooses the slot at 134234624
(the lowest free slot of the last cluster of the chain), cluster 3 is allocated for the new
directory and is not linked to the chain, and the entries `.` and `..` are written at
134234624 and 134234656.  Afterwards the chosen slot holds `.` (first byte 0x2E, not the
`X` of the new entry) and the slot at 134234656, another slot of the chain as the engine
addresses it, has changed from 0x00 to 0x2E. -/
theorem C31_wrapped_directory_counterexample :
    getClusterChain 3 (mount wrappedDirImage)
        (mount wrappedDirImage).m_current_directory_cluster = some [2, 8388611] ∧
    findFreeSlot (mount wrappedDirImage) [2, 8388611] = some 134234624 ∧
    clusterOffset (mount wrappedDirImage) 3 = 134234624 ∧
    (mkdir 3 noon (mount wrappedDirImage) name_x).value = some Report.silent ∧
    134234656 ∈ slotAddrs (mount wrappedDirImage) [2, 8388611] ∧
    byteAt (mount wrappedDirImage) 134234656 = 0 ∧
    (mkdir 3 noon (mount wrappedDirImage) name_x).state.map
        (fun s' => (byteAt s' 134234624, byteAt s' 134234656, getFATEntry s' 3,
          getFATEntry s' 8388611)) = some (0x2E, 0x2E, EOC, EOC) ∧
    (convertToShortName name_x).getD 0 0 = 0x58 := by
  decide!

/-- Claim C32.  When `rm` finds the name `n` as a file in the current directory (and the
chain of its first cluster is found), `rm n` returns and afterwards the open-file table has
no element whose name is `n`, while an element (entry and mode) with another name is in the
table after the call exactly when it was before.  The names of the table are pairwise
distinct at mount (the table is empty), and `open`, `close`, `write` and `rm` keep them
pairwise distinct, whatever the call returns. -/
theorem C32_open_file_table (fuel : Nat) (s : FileSystem) (n : Str) (f : DirectoryEntry)
    (chain : List Nat) (hname : isValidEntryName n = true)
    (hfde : findDirectoryEntry fuel s n s.m_current_directory_cluster = some (some f))
    (hfile : isFile f = true) (hchain : getClusterChain fuel s f.cluster = some chain) :
    (∃ s2, rm fuel s n = Result.returned s2 Report.silent ∧
      (∀ p ∈ s2.m_open_file_table, p.1.name ≠ n) ∧
      (∀ p : DirectoryEntry × Str, p.1.name ≠ n →
        (p ∈ s2.m_open_file_table ↔ p ∈ s.m_open_file_table))) ∧
    (∀ image, uniqueNames (mount image).m_open_file_table) ∧
    (∀ (t : FileSystem) (m : Str), uniqueNames t.m_open_file_table →
      (∀ mode t1, (openFile fuel t m mode).state = some t1 →
        uniqueNames t1.m_open_file_table) ∧
      uniqueNames (close t m).1.m_open_file_table ∧
      (∀ pos data t1, (write fuel t m pos data).state = some t1 →
        uniqueNames t1.m_open_file_table) ∧
      (∀ t1, (rm fuel t m).state = some t1 → uniqueNames t1.m_open_file_table)) :=
  open_file_table_spec fuel s n f chain hname hfde hfile hchain

/-- Witness for C32: the engine after `create a.txt; open a.txt w` on the fresh volume, and
`rm a.txt`; the entry of `a.txt` is in slot 0 of the root directory with the chain `[3]`. -/
theorem C32_open_file_table_witness :
    (∃ s2, rm 2 openedState name_a_txt = Result.returned s2 Report.silent ∧
      (∀ p ∈ s2.m_open_file_table, p.1.name ≠ name_a_txt) ∧
      (∀ p : DirectoryEntry × Str, p.1.name ≠ name_a_txt →
        (p ∈ s2.m_open_file_table ↔ p ∈ openedState.m_open_file_table))) ∧
    (∀ mode t1, (openFile 2 openedState name_a_txt mode).state = some t1 →
      uniqueNames t1.m_open_file_table) ∧
    uniqueNames (close openedState name_a_txt).1.m_open_file_table ∧
    (∀ pos data t1, (write 2 openedState name_a_txt pos data).state = some t1 →
      uniqueNames t1.m_open_file_table) ∧
    (∀ t1, (rm 2 openedState name_a_txt).state = some t1 → uniqueNames t1.m_open_file_table) :=
  have h := C32_open_file_table 2 openedState name_a_txt
    { name := name_a_txt, attr := 0x20, write_time := 0, write_date := 0, cluster := 3,
      size := 0, mem_location := 17408 }
    [3] (by decide) (by decide) (by decide) (by decide)
  ⟨h.1, h.2.2 openedState name_a_txt (by decide)⟩

/-- Claim C33.  On a well-formed volume whose FAT entry 0 is at least EOC, when `rm` finds
the name as a file whose cluster field is 0 (with the slot in the data region and a free
count below 2^32 - 1): `rm` returns; in every mirror the low 28 bits of FAT entry 0 are 0;
the free count, in memory and in the FSInfo sector, is one more than before; the FAT entries
of the other clusters are unchanged; and afterwards the FAT entry of cluster 0 is 0, so
`getClusterChain` from cluster 0 returns for no amount of steps and no entry reached by
following the links from cluster 0 is an end-of-chain value. -/
theorem C33_rm_of_file_without_cluster (fuel : Nat) (s : FileSystem) (n : Str)
    (f : DirectoryEntry) (hw : WellFormed s) (hname : isValidEntryName n = true)
    (hfde : findDirectoryEntry fuel s n s.m_current_directory_cluster = some (some f))
    (hfile : isFile f = true) (hcl : f.cluster = 0) (hfat : EOC ≤ getFATEntry s 0)
    (hfuel : 0 < fuel) (hcnt : s.m_fsinfo.free_cluster_count + 1 < 4294967296)
    (hdata : s.m_first_data_sector * s.m_bpb.bytes_per_sector ≤ f.mem_location)
    (hloc : f.mem_location + 32 ≤ 4294967296) :
    ∃ s2, rm fuel s n = Result.returned s2 Report.silent ∧
      (∀ i, i < s.m_bpb.num_FATS →
        readFromFileSystem s2 32 (FAT_entry_location s 0 i) 4 &&& FAT_MASK = 0) ∧
      s2.m_fsinfo.free_cluster_count = s.m_fsinfo.free_cluster_count + 1 ∧
      readFromFileSystem s2 32 (s.m_bpb.fsinfo * s.m_bpb.bytes_per_sector + 488) 4 =
        s.m_fsinfo.free_cluster_count + 1 ∧
      getFATEntry s2 0 = 0 ∧
      (∀ x, x < total_cluster_count s → x ≠ 0 → getFATEntry s2 x = getFATEntry s x) ∧
      (∀ fuel1, getClusterChain fuel1 s2 0 = none) ∧
      (∀ m, getFATEntry s2 ((getFATEntry s2)^[m] 0) < EOC) :=
  rm_sentinel_file fuel s n f hw hname hfde hfile hcl hfat hfuel hcnt hdata hloc

/-- Witness for C33: the volume with the empty file `e` (cluster field 0) in slot 0 of the
root directory, and `rm e`. -/
theorem C33_rm_of_file_without_cluster_witness :
    ∃ s2, rm 2 (mount emptyFileImage) name_e = Result.returned s2 Report.silent ∧
      (∀ i, i < (mount emptyFileImage).m_bpb.num_FATS →
        readFromFileSystem s2 32 (FAT_entry_location (mount emptyFileImage) 0 i) 4 &&&
          FAT_MASK = 0) ∧
      s2.m_fsinfo.free_cluster_count = (mount emptyFileImage).m_fsinfo.free_cluster_count + 1 ∧
      readFromFileSystem s2 32
          ((mount emptyFileImage).m_bpb.fsinfo * (mount emptyFileImage).m_bpb.bytes_per_sector +
            488) 4 =
        (mount emptyFileImage).m_fsinfo.free_cluster_count + 1 ∧
      getFATEntry s2 0 = 0 ∧
      (∀ x, x < total_cluster_count (mount emptyFileImage) → x ≠ 0 →
        getFATEntry s2 x = getFATEntry (mount emptyFileImage) x) ∧
      (∀ fuel1, getClusterChain fuel1 s2 0 = none) ∧
      (∀ m, getFATEntry s2 ((getFATEntry s2)^[m] 0) < EOC) :=
  C33_rm_of_file_without_cluster 2 (mount emptyFileImage) name_e
    { name := name_e, attr := 0x20, write_time := 0, write_date := 0, cluster := 0,
      size := 0, mem_location := 17408 }
    ⟨by decide, by decide, by decide, by decide, by decide, by decide, by decide, by decide,
      by decide, by decide⟩
    (by decide) (by decide) (by decide) rfl (by decide) (by decide) (by decide) (by decide)
    (by decide)

/-- Claim C34.  For every name (any length, any bytes) `convertToShortName` returns eleven
bytes, so each index `0 .. 10` is in range.  The names "." and ".." give the name followed
by spaces.  For another name with a dot at index `d`, byte `i < 8` is the upper-cased byte
`i` of the name when `i < d` and the space 0x20 otherwise, and byte `8 + j` (`j < 3`) is
the upper-cased byte `d + 1 + j` of the name when there is one and 0x20 otherwise.  For
a name without a dot, byte `i < 11` is the upper-cased byte `i` of the name when there is
one and 0x20 otherwise. -/
theorem C34_short_name_has_eleven_bytes (n : Str) :
    (convertToShortName n).length = 11 ∧
    (∀ i, i < 11 → i < (convertToShortName n).length) ∧
    (n = [0x2E] → convertToShortName n = 0x2E :: List.replicate 10 0x20) ∧
    (n = [0x2E, 0x2E] → convertToShortName n = 0x2E :: 0x2E :: List.replicate 9 0x20) ∧
    (n ≠ [0x2E] → n ≠ [0x2E, 0x2E] → ∀ d, findDot n = some d →
      (∀ i, i < 8 → (convertToShortName n).getD i 0 =
        if i < d then toupper (n.getD i 0) else 0x20) ∧
      (∀ j, j < 3 → (convertToShortName n).getD (8 + j) 0 =
        if d + 1 + j < n.length then toupper (n.getD (d + 1 + j) 0) else 0x20)) ∧
    (n ≠ [0x2E] → n ≠ [0x2E, 0x2E] → findDot n = none →
      ∀ i, i < 11 → (convertToShortName n).getD i 0 =
        if i < n.length then toupper (n.getD i 0) else 0x20) :=
  convertToShortName_spec n

/-- Witness for C34: the names ".", "..", "a.txt" (dot at index 1) and the one-byte name
0x00 that `deleteDirectoryEntry` writes (no dot). -/
theorem C34_short_name_witness :
    convertToShortName name_dot = 0x2E :: List.replicate 10 0x20 ∧
    convertToShortName name_dotdot = 0x2E :: 0x2E :: List.replicate 9 0x20 ∧
    ((∀ i, i < 8 → (convertToShortName name_a_txt).getD i 0 =
        if i < 1 then toupper (name_a_txt.getD i 0) else 0x20) ∧
      (∀ j, j < 3 → (convertToShortName name_a_txt).getD (8 + j) 0 =
        if 1 + 1 + j < name_a_txt.length then toupper (name_a_txt.getD (1 + 1 + j) 0)
        else 0x20)) ∧
    (∀ i, i < 11 → (convertToShortName [LAST_FREE_DIR_ENTRY]).getD i 0 =
      if i < [LAST_FREE_DIR_ENTRY].length then toupper ([LAST_FREE_DIR_ENTRY].getD i 0)
      else 0x20) :=
  ⟨(C34_short_name_has_eleven_bytes name_dot).2.2.1 (by decide),
    (C34_short_name_has_eleven_bytes name_dotdot).2.2.2.1 (by decide),
    (C34_short_name_has_eleven_bytes name_a_txt).2.2.2.2.1 (by decide) (by decide) 1 (by decide),
    (C34_short_name_has_eleven_bytes [LAST_FREE_DIR_ENTRY]).2.2.2.2.2 (by decide) (by decide)
      (by decide)⟩

end FAT_FS
